import Mathlib

/-!
# Dispatcher core of the gateway: a shallow embedding

Embeds `pkg/proxy/filter_caching.go`, `pkg/proxy/runtime.go` and
`pkg/proxy/dispatcher_meta.go`.

Conventions of the embedding
* Go `[]byte` is `List Byte` (capacity equal to length); a slice expression
  or index that Go would reject at run time yields `none`.
* Go `uint64` identifiers are `Nat`; `int64` quantities (`MaxQPS`,
  `time.Duration`) are `Int`, divided with truncation toward zero as Go does.
* A Go `map` is an association list read through `GoMap.get?`; a mutation
  through a stored pointer is a replacement of the stored value.
* A run-time panic (integer division by zero, `regexp.MustCompile` on an
  invalid expression, `lb.NewLoadBalance` on a strategy without constructor,
  a nil pointer, an index out of range) is the result `none`.
-/

namespace Gateway

/-! ## Byte buffers -/

abbrev Byte := Fin 256

/-- Go `data[lo:hi]` read as a value: defined when `lo ≤ hi ≤ len(data)`. -/
def slice? (data : List Byte) (lo hi : Nat) : Option (List Byte) :=
  if lo ≤ hi ∧ hi ≤ data.length then some ((data.drop lo).take (hi - lo)) else none

/-- Go `copy(data[lo:hi], src)`: the slice aliases the buffer, and `copy`
moves `min(hi-lo, len(src))` bytes. Defined when the slice expression is. -/
def copyInto (data : List Byte) (lo hi : Nat) (src : List Byte) : Option (List Byte) :=
  if lo ≤ hi ∧ hi ≤ data.length then
    some (data.take lo ++ src.take (hi - lo) ++ data.drop (lo + min (hi - lo) src.length))
  else none

/-- Go `byte(v)` for a non-negative `int`: the low eight bits. -/
def toByte (v : Nat) : Byte := ⟨v % 256, Nat.mod_lt _ (by decide)⟩

/-- Modelled from the spec: `goetty.Int2BytesTo` is a library function outside
`src/`; the value layout of the cache ("4-byte big-endian length") fixes it as
`ret[0] = byte(v>>24); ret[1] = byte(v>>16); ret[2] = byte(v>>8); ret[3] = byte(v)`
on the slice `data[lo:hi]`, which must hold four bytes. -/
def Int2BytesTo (v : Nat) (data : List Byte) (lo hi : Nat) : Option (List Byte) :=
  if 4 ≤ hi - lo then
    copyInto data lo hi [toByte (v >>> 24), toByte (v >>> 16), toByte (v >>> 8), toByte v]
  else none

/-- Modelled from the spec: `goetty.Byte2Int` is a library function outside
`src/`; it reads the four bytes of its argument as a big-endian unsigned
32-bit number and returns it as an `int`. -/
def Byte2Int (bs : List Byte) : Option Nat :=
  match bs with
  | b0 :: b1 :: b2 :: b3 :: _ =>
    some ((b0.val <<< 24) ||| (b1.val <<< 16) ||| (b2.val <<< 8) ||| b3.val)
  | _ => none

/-- The part of `filter.Context.Response()` that `genCachedValue` reads. -/
structure Response where
  contentType : List Byte
  body : List Byte
  deriving DecidableEq, Repr

/-- The function `genCachedValue` of `filter_caching.go`. -/
def genCachedValue (resp : Response) : Option (List Byte) :=
  let contentType := resp.contentType
  let body := resp.body
  let size := contentType.length + 4 + body.length
  let data : List Byte := List.replicate size 0
  let idx := 0
  (Int2BytesTo contentType.length data 0 4).bind fun data =>
  let idx := idx + 4
  (copyInto data idx (idx + contentType.length) contentType).bind fun data =>
  let idx := idx + contentType.length
  copyInto data idx data.length body

/-- The function `parseCachedValue` of `filter_caching.go`. -/
def parseCachedValue (data : List Byte) : Option (List Byte × List Byte) :=
  (slice? data 0 4).bind fun hdr =>
  (Byte2Int hdr).bind fun size =>
  (slice? data 4 (4 + size)).bind fun ct =>
  (slice? data (4 + size) data.length).bind fun body =>
  some (ct, body)

/-- Reference encoding of the spec: an unsigned 32-bit number as four
big-endian bytes. -/
def be32 (n : Nat) : List Byte :=
  [toByte (n / 2 ^ 24), toByte (n / 2 ^ 16), toByte (n / 2 ^ 8), toByte n]

/-- Value of a big-endian byte string. -/
def beValue (bs : List Byte) : Nat :=
  bs.foldl (fun acc b => acc * 256 + b.val) 0

/-! ## Go maps -/

/-- A Go `map[K]V`, as an association list read by key. -/
abbrev GoMap (K V : Type) := List (K × V)

namespace GoMap

variable {K V : Type} [DecidableEq K]

/-- Go `v, ok := m[k]`. -/
def get? : GoMap K V → K → Option V
  | [], _ => none
  | e :: m, k => if e.1 = k then some e.2 else get? m k

/-- Go `_, ok := m[k]`. -/
def contains (m : GoMap K V) (k : K) : Bool := (m.get? k).isSome

/-- Go `m[k] = v`. -/
def set (m : GoMap K V) (k : K) (v : V) : GoMap K V :=
  if m.contains k then m.map (fun e => if e.1 = k then (k, v) else e) else (k, v) :: m

/-- Go `delete(m, k)`. -/
def delete (m : GoMap K V) (k : K) : GoMap K V :=
  m.filter (fun e => decide (e.1 ≠ k))

/-- Go `len(m)`. -/
def len (m : GoMap K V) : Nat := m.length

/-- Go `for _, v := range m { ... }` where the body mutates the object `v`
refers to and cannot fail. -/
def mapValues (f : V → V) (m : GoMap K V) : GoMap K V :=
  m.map (fun e => (e.1, f e.2))

/-- Go `for _, v := range m { ... }` where the body mutates the object `v`
refers to and may panic: the loop panics as soon as one body does. -/
def mapValuesM (f : V → Option V) : GoMap K V → Option (GoMap K V)
  | [] => some []
  | e :: m =>
    match f e.2 with
    | none => none
    | some v =>
      match mapValuesM f m with
      | none => none
      | some m' => some ((e.1, v) :: m')

end GoMap

/-! ## Metadata (`metapb`) -/

inductive Status
  | Down
  | Up
  deriving DecidableEq, Repr

inductive CircuitStatus
  | Open
  | Half
  | Close
  deriving DecidableEq, Repr

structure HeathCheck where
  path : String
  checkInterval : Int
  deriving DecidableEq, Repr

structure CircuitBreaker where
  closeTimeout : Int
  rateCheckPeriod : Int
  deriving DecidableEq, Repr

/-- The message `metapb.Server`; `circuitBreaker = none` is the nil pointer. -/
structure Server where
  ID : Nat
  addr : String
  protocol : Nat
  maxQPS : Int
  heathCheck : HeathCheck
  circuitBreaker : Option CircuitBreaker
  deriving DecidableEq, Repr

structure Cluster where
  ID : Nat
  loadBalance : Nat
  deriving DecidableEq, Repr

structure Proxy where
  addr : String
  deriving DecidableEq, Repr

structure Bind where
  clusterID : Nat
  serverID : Nat
  deriving DecidableEq, Repr

/-- The enum `metapb.Source` by its numeric value. -/
structure Parameter where
  name : String
  source : Nat
  index : Int
  deriving DecidableEq, Repr

/-- A condition; `cmp` is the numeric value of the enum `metapb.CMP`. -/
structure Condition where
  parameter : Parameter
  cmp : Nat
  expect : String
  deriving DecidableEq, Repr

structure Routing where
  ID : Nat
  API : Nat
  conditions : List Condition
  trafficRate : Int
  deriving DecidableEq, Repr

structure PairValue where
  name : String
  value : String
  deriving DecidableEq, Repr

structure ValidationRule where
  expression : String
  deriving DecidableEq, Repr

structure Validation where
  parameter : Parameter
  required : Bool
  rules : List ValidationRule
  deriving DecidableEq, Repr

structure Cache where
  keys : List Parameter
  deadline : Nat
  conditions : List Condition
  deriving DecidableEq, Repr

structure DispatchNode where
  clusterID : Nat
  urlRewrite : String
  cache : Option Cache
  validations : List Validation
  deriving DecidableEq, Repr

structure DefaultValue where
  cookies : List PairValue
  deriving DecidableEq, Repr

structure IPAccessControl where
  whitelist : List String
  blacklist : List String
  deriving DecidableEq, Repr

/-- The message `metapb.API`. -/
structure API where
  ID : Nat
  urlPattern : String
  method : String
  domain : String
  status : Status
  nodes : List DispatchNode
  defaultValue : Option DefaultValue
  ipAccessControl : Option IPAccessControl
  deriving DecidableEq, Repr

/-! ## What the dispatcher takes from outside `pkg/proxy` -/

/-- Functions of other packages that the embedded code calls and that are
left abstract: `util.GetAddrFormat`; whether `regexp.Compile` accepts an
expression; whether `lb.NewLoadBalance` has a constructor for a strategy
(it panics when it has none); whether the expression, compiled, matches an input;
`strings.ToUpper`; `url.QueryUnescape` (the empty string on an error); and
`json.Get(body, name).ToString()`. -/
structure Externals where
  addrFormat : String → String
  regexValid : String → Bool
  lbSupported : Nat → Bool
  regexMatch : String → String → Bool
  toUpper : String → String
  queryUnescape : String → String
  jsonGet : String → String → String

/-! ## `runtime.go` -/

/-- The type `clusterRuntime`; `lb` is the selector `lb.NewLoadBalance`
builds, which the strategy value determines when it has a constructor. -/
structure clusterRuntime where
  meta : Cluster
  svrs : List Nat
  lb : Nat
  deriving DecidableEq, Repr

/-- Modelled from the spec: `lb.NewLoadBalance` is not under `src/`. The
selector is derived from the strategy and kept as the strategy value; the
call panics for a strategy that has no constructor, which `lbSupported`
decides. -/
def newLoadBalance (ext : Externals) (strategy : Nat) : Option Nat :=
  if ext.lbSupported strategy then some strategy else none

/-- The function `newClusterRuntime`. -/
def newClusterRuntime (ext : Externals) (meta : Cluster) : Option clusterRuntime :=
  match newLoadBalance ext meta.loadBalance with
  | none => none
  | some lb => some { meta := meta, svrs := [], lb := lb }

namespace clusterRuntime

def updateMeta (ext : Externals) (c : clusterRuntime) (meta : Cluster) :
    Option clusterRuntime :=
  match newLoadBalance ext meta.loadBalance with
  | none => none
  | some lb => some { c with meta := meta, lb := lb }

/-- Modelled from the spec: `collection.Remove` is a library function outside
`src/`; it unlinks the first element equal to `id`, keeping the order of the
remainder ("removal preserves order of remainder"). -/
def remove (c : clusterRuntime) (id : Nat) : clusterRuntime :=
  { c with svrs := c.svrs.erase id }

/-- The method `clusterRuntime.add`; `collection.IndexOf(c.svrs, id) >= 0` is
membership of `id` in the sequence, `PushBack` appends. -/
def add (c : clusterRuntime) (id : Nat) : clusterRuntime :=
  if id ∈ c.svrs then c else { c with svrs := c.svrs ++ [id] }

end clusterRuntime

/-- What `rate.NewLimiter(rate.Every(every), burst)` is built from. -/
structure Limiter where
  every : Int
  burst : Int
  deriving DecidableEq, Repr

/-- The type `serverRuntime`, without the handle of the shared timer wheel
and the pending health-check timeout. -/
structure serverRuntime where
  limiter : Limiter
  meta : Server
  status : Status
  checkFailCount : Int
  useCheckDuration : Int
  circuit : CircuitStatus
  deriving DecidableEq, Repr

/-- The constant `time.Second` in nanoseconds. -/
def timeSecond : Int := 1000000000

namespace serverRuntime

/-- The method `serverRuntime.updateMeta`: `time.Second/time.Duration(meta.MaxQPS)`
is an integer division that panics on a zero divisor. -/
def updateMeta (s : serverRuntime) (meta : Server) : Option serverRuntime :=
  if meta.maxQPS = 0 then none
  else some { s with meta := meta,
                     limiter := { every := Int.tdiv timeSecond meta.maxQPS, burst := meta.maxQPS } }

def fail (s : serverRuntime) : serverRuntime :=
  { s with checkFailCount := s.checkFailCount + 1,
           useCheckDuration := s.useCheckDuration + Int.tdiv s.useCheckDuration 2 }

def reset (s : serverRuntime) : serverRuntime :=
  { s with checkFailCount := 0, useCheckDuration := s.meta.heathCheck.checkInterval }

def changeTo (s : serverRuntime) (status : Status) : serverRuntime :=
  { s with status := status }

def isCircuitStatus (s : serverRuntime) (target : CircuitStatus) : Bool :=
  decide (s.circuit = target)

/-- The method `circuitToClose`; the second component is the delay of the
`circuitToHalf` callback handed to the timer wheel, if one is scheduled. -/
def circuitToClose (s : serverRuntime) : serverRuntime × Option Int :=
  match s.meta.circuitBreaker with
  | none => (s, none)
  | some cb =>
    if s.circuit = CircuitStatus.Close then (s, none)
    else ({ s with circuit := CircuitStatus.Close }, some cb.closeTimeout)

def circuitToOpen (s : serverRuntime) : serverRuntime :=
  if s.meta.circuitBreaker = none ∨ s.circuit = CircuitStatus.Open ∨
      s.circuit ≠ CircuitStatus.Half then s
  else { s with circuit := CircuitStatus.Open }

def circuitToHalf (s : serverRuntime) : serverRuntime :=
  if s.meta.circuitBreaker ≠ none then { s with circuit := CircuitStatus.Open } else s

end serverRuntime

/-- The function `newServerRuntime`. -/
def newServerRuntime (meta : Server) : Option serverRuntime :=
  serverRuntime.updateMeta
    { limiter := { every := 0, burst := 0 }, meta := meta, status := Status.Down,
      checkFailCount := 0, useCheckDuration := 0, circuit := CircuitStatus.Open } meta

/-- Go `strings.Split(s, sep)` for a one-character separator, on the
characters read so far (`cur`, reversed) and the rest of the string. -/
def splitAux (sep : Char) : List Char → List Char → List (List Char)
  | [], cur => [cur.reverse]
  | c :: cs, cur =>
    if c = sep then cur.reverse :: splitAux sep cs [] else splitAux sep cs (c :: cur)

def stringsSplit (s : String) (sep : Char) : List String :=
  (splitAux sep s.toList []).map String.mk

structure ipSegment where
  value : List String
  deriving DecidableEq, Repr

def parseFrom (value : String) : ipSegment :=
  { value := stringsSplit value '.' }

/-- A compiled `regexp.Regexp`, which its source expression determines. -/
structure Regexp where
  expr : String
  deriving DecidableEq, Repr

/-- Go `regexp.MustCompile`: panics when the expression does not compile. -/
def mustCompile (ext : Externals) (expr : String) : Option Regexp :=
  if ext.regexValid expr then some { expr := expr } else none

/-- A loop that appends `f x` for every `x` and panics when one `f x` does. -/
def mapOpt {α β : Type} (f : α → Option β) : List α → Option (List β)
  | [] => some []
  | x :: xs =>
    match f x with
    | none => none
    | some y =>
      match mapOpt f xs with
      | none => none
      | some ys => some (y :: ys)

structure apiRule where
  pattern : Regexp
  deriving DecidableEq, Repr

structure apiValidation where
  meta : Validation
  rules : List apiRule
  deriving DecidableEq, Repr

structure apiNode where
  meta : DispatchNode
  validations : List apiValidation
  deriving DecidableEq, Repr

/-- The type `apiRuntime`; `urlPattern = none` is the nil pointer and a
default cookie is its key and value. -/
structure apiRuntime where
  meta : API
  nodes : List apiNode
  urlPattern : Option Regexp
  defaultCookies : List PairValue
  parsedWhitelist : List ipSegment
  parsedBlacklist : List ipSegment
  deriving DecidableEq, Repr

/-- The body of the loop over `n.Validations` in `apiRuntime.init`. -/
def initValidation (ext : Externals) (v : Validation) : Option apiValidation :=
  match mapOpt (fun r => (mustCompile ext r.expression).map apiRule.mk) v.rules with
  | none => none
  | some rules => some { meta := v, rules := rules }

/-- The body of the loop over `a.meta.Nodes` in `apiRuntime.init`. -/
def initNode (ext : Externals) (n : DispatchNode) : Option apiNode :=
  match mapOpt (initValidation ext) n.validations with
  | none => none
  | some vs => some { meta := n, validations := vs }

namespace apiRuntime

/-- The method `apiRuntime.init`: the URL pattern is compiled only when the
expression is non-empty, and is otherwise left as it was. -/
def init (ext : Externals) (a : apiRuntime) : Option apiRuntime :=
  let compiled : Option (Option Regexp) :=
    if a.meta.urlPattern ≠ "" then (mustCompile ext a.meta.urlPattern).map some
    else some a.urlPattern
  match compiled with
  | none => none
  | some urlPattern =>
    match mapOpt (initNode ext) a.meta.nodes with
    | none => none
    | some nodes =>
      let defaultCookies :=
        match a.meta.defaultValue with
        | none => []
        | some d => d.cookies.map (fun c => { name := c.name, value := c.value : PairValue })
      let parsedWhitelist :=
        match a.meta.ipAccessControl with
        | none => []
        | some acl => acl.whitelist.map parseFrom
      let parsedBlacklist :=
        match a.meta.ipAccessControl with
        | none => []
        | some acl => acl.blacklist.map parseFrom
      some { a with nodes := nodes, urlPattern := urlPattern, defaultCookies := defaultCookies,
                    parsedWhitelist := parsedWhitelist, parsedBlacklist := parsedBlacklist }

def updateMeta (ext : Externals) (a : apiRuntime) (meta : API) : Option apiRuntime :=
  init ext { a with meta := meta }

end apiRuntime

def newAPIRuntime (ext : Externals) (meta : API) : Option apiRuntime :=
  apiRuntime.init ext
    { meta := meta, nodes := [], urlPattern := none, defaultCookies := [],
      parsedWhitelist := [], parsedBlacklist := [] }

/-- The type `routingRuntime`; `rand` is the seed of its generator. -/
structure routingRuntime where
  meta : Routing
  rand : Int
  deriving DecidableEq, Repr

namespace routingRuntime

def init (a : routingRuntime) : routingRuntime := a

def updateMeta (a : routingRuntime) (meta : Routing) : routingRuntime :=
  init { a with meta := meta }

end routingRuntime

/-- The function `newRoutingRuntime`; `now` is `time.Now().UnixNano()`. -/
def newRoutingRuntime (meta : Routing) (now : Int) : routingRuntime :=
  routingRuntime.init { meta := meta, rand := now }

/-! ## `runtime.go`: matching -/

/-- What the embedded code reads of a `fasthttp.Request`: `Header.Method()`,
`Header.Host()`, `URI().RequestURI()`, `RequestURI()`, `URI().Path()`, the
lookups `URI().QueryArgs().Peek`, `PostArgs().Peek`, `Header.Peek`,
`Header.Cookie` (each the empty string when the name is absent) and `Body()`. -/
structure Request where
  method : String
  host : String
  requestURI : String
  headerRequestURI : String
  path : String
  queryArgs : String → String
  postArgs : String → String
  headers : String → String
  cookies : String → String
  body : String

namespace ipSegment

/-- The loop of `ipSegment.matches` from position `index` on: `tmp[index]` is
read only when the pattern token is not `*`, and panics out of range. -/
def matchesFrom (tmp : List String) : List String → Nat → Option Bool
  | [], _ => some true
  | v :: vs, index =>
    if v = "*" then matchesFrom tmp vs (index + 1)
    else
      match tmp.get? index with
      | none => none
      | some t => if v ≠ t then some false else matchesFrom tmp vs (index + 1)

/-- The method `ipSegment.matches`. -/
def «matches» (ip : ipSegment) (value : String) : Option Bool :=
  matchesFrom (stringsSplit value '.') ip.value 0

end ipSegment

/-- A loop `for _, i := range segs { if i.matches(ip) { return ... } }`:
whether some segment matches, reading the segments in order. -/
def anySegmentMatches (ip : String) : List ipSegment → Option Bool
  | [] => some false
  | i :: rest =>
    match i.matches ip with
    | none => none
    | some true => some true
    | some false => anySegmentMatches ip rest

namespace apiRuntime

def allowWithBlacklist (a : apiRuntime) (ip : String) : Option Bool :=
  match a.meta.ipAccessControl with
  | none => some true
  | some _ => (anySegmentMatches ip a.parsedBlacklist).map (fun m => !m)

def allowWithWhitelist (a : apiRuntime) (ip : String) : Option Bool :=
  match a.meta.ipAccessControl with
  | none => some true
  | some acl =>
    if acl.whitelist.length = 0 then some true
    else anySegmentMatches ip a.parsedWhitelist

def isUp (a : apiRuntime) : Bool := decide (a.meta.status = Status.Up)

def isMethodMatches (ext : Externals) (a : apiRuntime) (req : Request) : Bool :=
  decide (a.meta.method = "*") || decide (ext.toUpper req.method = a.meta.method)

/-- The method `isURIMatches`: `a.urlPattern.Match` on a nil pattern is a
nil-pointer dereference. -/
def isURIMatches (ext : Externals) (a : apiRuntime) (req : Request) : Option Bool :=
  match a.urlPattern with
  | none => none
  | some re => some (ext.regexMatch re.expr req.requestURI)

def isDomainMatches (a : apiRuntime) (req : Request) : Bool :=
  decide (a.meta.domain ≠ "") && decide (req.host = a.meta.domain)

/-- The method `apiRuntime.matches`, with the evaluation order of `&&` and
`||`. -/
def «matches» (ext : Externals) (a : apiRuntime) (req : Request) : Option Bool :=
  if a.isUp then
    if a.isDomainMatches req then some true
    else if a.isMethodMatches ext req then a.isURIMatches ext req
    else some false
  else some false

end apiRuntime

/-- The values of the enum `metapb.Source`, in the order the spec lists them. -/
def QueryString : Nat := 0

def FormData : Nat := 1

def JSONBody : Nat := 2

def Header : Nat := 3

def Cookie : Nat := 4

def PathValue : Nat := 5

/-- The values of the enum `metapb.CMP`, in the order the spec lists them. -/
def CMPEQ : Nat := 0

def CMPLT : Nat := 1

def CMPLE : Nat := 2

def CMPGT : Nat := 3

def CMPGE : Nat := 4

def CMPIn : Nat := 5

def CMPMatch : Nat := 6

def getCookieValue (name : String) (req : Request) : String := req.cookies name

def getHeaderValue (name : String) (req : Request) : String := req.headers name

def getQueryValue (ext : Externals) (name : String) (req : Request) : String :=
  ext.queryUnescape (req.queryArgs name)

/-- The function `getPathValue`: `Path()[1:]` panics on an empty path and
`values[idx]` on a negative index. -/
def getPathValue (idx : Int) (req : Request) : Option String :=
  match req.path.toList with
  | [] => none
  | _ :: path =>
    let values := (splitAux '/' path []).map String.mk
    if (values.length : Int) ≤ idx then some ""
    else
      match values.get? idx.toNat with
      | none => none
      | some v => if idx < 0 then none else some v

def getFormValue (name : String) (req : Request) : String := req.postArgs name

def paramValue (ext : Externals) (param : Parameter) (req : Request) : Option String :=
  if param.source = QueryString then some (getQueryValue ext param.name req)
  else if param.source = FormData then some (getFormValue param.name req)
  else if param.source = JSONBody then some (ext.jsonGet req.body param.name)
  else if param.source = Header then some (getHeaderValue param.name req)
  else if param.source = Cookie then some (getCookieValue param.name req)
  else if param.source = PathValue then getPathValue param.index req
  else some ""

/-- The digits of a decimal number read from the left, `acc` being the value
of those already read; `none` at a character that is not a digit. -/
def parseDigits : List Char → Nat → Option Nat
  | [], acc => some acc
  | c :: cs, acc =>
    if '0' ≤ c ∧ c ≤ '9' then parseDigits cs (acc * 10 + (c.toNat - 48)) else none

/-- The digits after the sign in `strconv.Atoi`: at least one digit, and a
value that fits an `int` of 64 bits. -/
def atoiDigits (cs : List Char) (neg : Bool) : Option Int :=
  match cs with
  | [] => none
  | _ =>
    match parseDigits cs 0 with
    | none => none
    | some n =>
      let v : Int := if neg then -(n : Int) else (n : Int)
      if -(2 : Int) ^ 63 ≤ v ∧ v ≤ (2 : Int) ^ 63 - 1 then some v else none

/-- Go `strconv.Atoi`: an optional sign and decimal digits; `none` is a
non-nil error. -/
def atoi (s : String) : Option Int :=
  match s.toList with
  | [] => none
  | '-' :: cs => atoiDigits cs true
  | '+' :: cs => atoiDigits cs false
  | cs => atoiDigits cs false

def eq (attrValue expect : String) : Bool := decide (attrValue = expect)

def lt (attrValue expect : String) : Bool :=
  match atoi attrValue with
  | none => false
  | some s =>
    match atoi expect with
    | none => false
    | some t => decide (s < t)

def le (attrValue expect : String) : Bool :=
  match atoi attrValue with
  | none => false
  | some s =>
    match atoi expect with
    | none => false
    | some t => decide (s ≤ t)

def gt (attrValue expect : String) : Bool :=
  match atoi attrValue with
  | none => false
  | some s =>
    match atoi expect with
    | none => false
    | some t => decide (s > t)

def ge (attrValue expect : String) : Bool :=
  match atoi attrValue with
  | none => false
  | some s =>
    match atoi expect with
    | none => false
    | some t => decide (s ≥ t)

/-- Go `strings.Index(s, sub) != -1` on the characters of the two strings. -/
def hasSubstring : List Char → List Char → Bool
  | [], sub => sub.isEmpty
  | c :: cs, sub => sub.isPrefixOf (c :: cs) || hasSubstring cs sub

/-- The function `in` of `runtime.go`. -/
def «in» (attrValue expect : String) : Bool :=
  hasSubstring expect.toList attrValue.toList

/-- The function `reg`: `regexp.MatchString` fails on an expression that does
not compile. -/
def reg (ext : Externals) (attrValue expect : String) : Bool :=
  ext.regexValid expect && ext.regexMatch expect attrValue

def conditionsMatches (ext : Externals) (cond : Condition) (req : Request) : Option Bool :=
  match paramValue ext cond.parameter req with
  | none => none
  | some attrValue =>
    if attrValue = "" then some false
    else if cond.cmp = CMPEQ then some (eq attrValue cond.expect)
    else if cond.cmp = CMPLT then some (lt attrValue cond.expect)
    else if cond.cmp = CMPLE then some (le attrValue cond.expect)
    else if cond.cmp = CMPGT then some (gt attrValue cond.expect)
    else if cond.cmp = CMPGE then some (ge attrValue cond.expect)
    else if cond.cmp = CMPIn then some («in» attrValue cond.expect)
    else if cond.cmp = CMPMatch then some (reg ext attrValue cond.expect)
    else some false

/-- The loop `for _, c := range conds { if !conditionsMatches(&c, req) {
return false } }`: whether every condition passes, read in order. -/
def allConditionsMatch (ext : Externals) (req : Request) : List Condition → Option Bool
  | [] => some true
  | c :: cs =>
    match conditionsMatches ext c req with
    | none => none
    | some false => some false
    | some true => allConditionsMatch ext req cs

/-- The method `routingRuntime.matches`; `n` is the value `a.rand.Intn(100)`
returns when the call is reached. -/
def routingRuntime.«matches» (ext : Externals) (a : routingRuntime) (apiID : Nat)
    (req : Request) (n : Int) : Option Bool :=
  if a.meta.API > 0 ∧ apiID ≠ a.meta.API then some false
  else
    match allConditionsMatch ext req a.meta.conditions with
    | none => none
    | some false => some false
    | some true => some (decide (n < a.meta.trafficRate))

/-! ## `filter_caching.go`: the filter -/

/-- The constant `cacheHit`. -/
def cacheHit : String := "cache_hit"

/-- What the filter reads and writes of a `filter.Context`: `ForwardRequest()`,
`DispatchNode()`, `Response()` and the attributes written by `SetAttr`. -/
structure Context where
  forwardRequest : Request
  dispatchNode : DispatchNode
  response : Response
  attrs : GoMap String (List Byte)

/-- The operations of `util.Cache`, which is not under `src/`, on a cache
state `C`: `Get` (which may reorder the entries), `Add` and `Remove`. -/
structure CacheOps (C : Type) where
  get : C → String → C × Option (List Byte)
  add : C → String → List Byte → C
  remove : C → String → C

/-- The type `CachingFilter`: the cache, and the calls it has made to
`tw.Schedule` (delay in nanoseconds and the id handed to `removeCache`). -/
structure CachingFilter (C : Type) where
  cache : C
  scheduled : List (Int × String)

/-- The function `getID`: the request URI alone without keys, and otherwise
the URI and the extracted value of each key joined by `-`. -/
def getID (ext : Externals) (req : Request) (keys : List Parameter) : Option String :=
  if keys.length = 0 then some req.headerRequestURI
  else
    match mapOpt (fun param => paramValue ext param req) keys with
    | none => none
    | some values => some (String.intercalate "-" (req.headerRequestURI :: values))

/-- The function `getCachingID`; its loop over the conditions stops at the
first one that fails, as `allConditionsMatch` does. A nil `Cache` is a
nil-pointer dereference. -/
def getCachingID (ext : Externals) (c : Context) : Option (Bool × String) :=
  match c.dispatchNode.cache with
  | none => none
  | some cache =>
    let req := c.forwardRequest
    if cache.conditions.length = 0 then (getID ext req cache.keys).map (fun id => (true, id))
    else
      match allConditionsMatch ext req cache.conditions with
      | none => none
      | some false => some (false, "")
      | some true => (getID ext req cache.keys).map (fun id => (true, id))

namespace CachingFilter

/-- The method `CachingFilter.Pre`: the filter and the context it leaves. The
returned pair is that of `BaseFilter.Post` on every path. -/
def Pre {C : Type} (ops : CacheOps C) (ext : Externals) (f : CachingFilter C) (c : Context) :
    Option (CachingFilter C × Context) :=
  match c.dispatchNode.cache with
  | none => some (f, c)
  | some _ =>
    match getCachingID ext c with
    | none => none
    | some (false, _) => some (f, c)
    | some (true, id) =>
      match ops.get f.cache id with
      | (cache, some value) =>
        some ({ f with cache := cache }, { c with attrs := c.attrs.set cacheHit value })
      | (cache, none) => some ({ f with cache := cache }, c)

/-- The method `CachingFilter.Post`. -/
def Post {C : Type} (ops : CacheOps C) (ext : Externals) (f : CachingFilter C) (c : Context) :
    Option (CachingFilter C × Context) :=
  match c.dispatchNode.cache with
  | none => some (f, c)
  | some cache =>
    match getCachingID ext c with
    | none => none
    | some (false, _) => some (f, c)
    | some (true, id) =>
      match genCachedValue c.response with
      | none => none
      | some value =>
        some ({ cache := ops.add f.cache id value,
                scheduled := f.scheduled ++ [(timeSecond * (cache.deadline : Int), id)] }, c)

/-- The method `removeCache`, the callback of the timer wheel. -/
def removeCache {C : Type} (ops : CacheOps C) (f : CachingFilter C) (id : String) :
    CachingFilter C :=
  { f with cache := ops.remove f.cache id }

end CachingFilter

/-! ## `dispatcher_meta.go` -/

/-- The error values of `dispatcher_meta.go`. -/
inductive Err
  | errServerExists
  | errClusterExists
  | errBindExists
  | errAPIExists
  | errProxyExists
  | errRoutingExists
  | errServerNotFound
  | errClusterNotFound
  | errBindNotFound
  | errProxyNotFound
  | errAPINotFound
  | errRoutingNotFound
  deriving DecidableEq, Repr

/-- The registry held by the type `dispatcher`.

`binds[s]` is the set of cluster ids bound to server `s`: the Go value stored
under a cluster id is the pointer `r.clusters[id]` taken when the bind is
added, so the key carries all of it. `analysis` is the analyser's targets
(server id, period) and `checkQueue` the ids handed to the health checker. -/
structure dispatcher where
  proxies : GoMap String Proxy
  clusters : GoMap Nat clusterRuntime
  servers : GoMap Nat serverRuntime
  apis : GoMap Nat apiRuntime
  routings : GoMap Nat routingRuntime
  binds : GoMap Nat (List Nat)
  analysis : List (Nat × Int)
  checkQueue : List Nat
  deriving DecidableEq, Repr

/-- What a locked method of the dispatcher leaves behind: the registry and
the returned `error` (`none` is `nil`). -/
abbrev Outcome := dispatcher × Option Err

namespace dispatcher

/-- The registry of a dispatcher that has applied no event. -/
def empty : dispatcher :=
  { proxies := [], clusters := [], servers := [], apis := [], routings := [], binds := [],
    analysis := [], checkQueue := [] }

def addRouting (r : dispatcher) (meta : Routing) (now : Int) : Option Outcome :=
  if r.routings.contains meta.ID then some (r, some Err.errRoutingExists)
  else some ({ r with routings := r.routings.set meta.ID (newRoutingRuntime meta now) }, none)

def updateRouting (r : dispatcher) (meta : Routing) : Option Outcome :=
  match r.routings.get? meta.ID with
  | none => some (r, some Err.errRoutingNotFound)
  | some rt => some ({ r with routings := r.routings.set meta.ID (rt.updateMeta meta) }, none)

def removeRouting (r : dispatcher) (id : Nat) : Option Outcome :=
  if ¬ r.routings.contains id then some (r, some Err.errRoutingNotFound)
  else some ({ r with routings := r.routings.delete id }, none)

/-- The method `refreshQPS`: it overwrites `MaxQPS` of the metadata it is
given, so the result is that metadata afterwards. -/
def refreshQPS (r : dispatcher) (svr : Server) : Server :=
  if r.proxies.len > 0 then { svr with maxQPS := Int.tdiv svr.maxQPS (r.proxies.len : Int) }
  else svr

/-- The method `refreshAllQPS`. -/
def refreshAllQPS (r : dispatcher) : Option dispatcher :=
  match r.servers.mapValuesM (fun svr => svr.updateMeta (r.refreshQPS svr.meta)) with
  | none => none
  | some servers => some { r with servers := servers }

def addProxy (ext : Externals) (r : dispatcher) (meta : Proxy) : Option Outcome :=
  let key := ext.addrFormat meta.addr
  if r.proxies.contains key then some (r, some Err.errProxyExists)
  else
    match refreshAllQPS { r with proxies := r.proxies.set key meta } with
    | none => none
    | some r' => some (r', none)

def removeProxy (r : dispatcher) (addr : String) : Option Outcome :=
  if ¬ r.proxies.contains addr then some (r, some Err.errProxyNotFound)
  else
    match refreshAllQPS { r with proxies := r.proxies.delete addr } with
    | none => none
    | some r' => some (r', none)

def addAPI (ext : Externals) (r : dispatcher) (api : API) : Option Outcome :=
  if r.apis.contains api.ID then some (r, some Err.errAPIExists)
  else
    match newAPIRuntime ext api with
    | none => none
    | some rt => some ({ r with apis := r.apis.set api.ID rt }, none)

def updateAPI (ext : Externals) (r : dispatcher) (api : API) : Option Outcome :=
  match r.apis.get? api.ID with
  | none => some (r, some Err.errAPINotFound)
  | some rt =>
    match rt.updateMeta ext api with
    | none => none
    | some rt' => some ({ r with apis := r.apis.set api.ID rt' }, none)

def removeAPI (r : dispatcher) (id : Nat) : Option Outcome :=
  if ¬ r.apis.contains id then some (r, some Err.errAPINotFound)
  else some ({ r with apis := r.apis.delete id }, none)

/-- The method `addAnalysis`. The analyser it calls (`util.Analysis`, not
under `src/`) is kept as the list of its targets: `RemoveTarget` drops the
targets of the id and `AddTarget` appends one. -/
def addAnalysis (r : dispatcher) (svr : serverRuntime) : dispatcher :=
  let removed := r.analysis.filter (fun t => decide (t.1 ≠ svr.meta.ID))
  let added := removed ++ [(svr.meta.ID, timeSecond)]
  match svr.meta.circuitBreaker with
  | none => { r with analysis := added }
  | some cb => { r with analysis := added ++ [(svr.meta.ID, cb.rateCheckPeriod)] }

/-- Modelled from the spec: the method `addToCheck` is not under `src/`; the
spec has it "enqueue for health checking" and, on update, "preserve the
runtime's transient state (status, circuit, counters)". -/
def addToCheck (r : dispatcher) (svr : serverRuntime) : dispatcher :=
  { r with checkQueue := r.checkQueue ++ [svr.meta.ID] }

def addServer (r : dispatcher) (svr : Server) : Option Outcome :=
  if r.servers.contains svr.ID then some (r, some Err.errServerExists)
  else
    let svr := r.refreshQPS svr
    match newServerRuntime svr with
    | none => none
    | some rt =>
      let r := { r with servers := r.servers.set svr.ID rt }
      let r := r.addAnalysis rt
      let r := r.addToCheck rt
      some (r, none)

def updateServer (r : dispatcher) (meta : Server) : Option Outcome :=
  match r.servers.get? meta.ID with
  | none => some (r, some Err.errServerNotFound)
  | some rt =>
    let meta := r.refreshQPS meta
    match rt.updateMeta meta with
    | none => none
    | some rt =>
      let r := { r with servers := r.servers.set meta.ID rt }
      let r := r.addAnalysis rt
      let r := r.addToCheck rt
      some (r, none)

def removeServer (r : dispatcher) (id : Nat) : Option Outcome :=
  match r.servers.get? id with
  | none => some (r, some Err.errServerNotFound)
  | some _ =>
    some ({ r with servers := r.servers.delete id,
                   clusters := r.clusters.mapValues (fun cluster => cluster.remove id) }, none)

def addCluster (ext : Externals) (r : dispatcher) (cluster : Cluster) : Option Outcome :=
  if r.clusters.contains cluster.ID then some (r, some Err.errClusterExists)
  else
    match newClusterRuntime ext cluster with
    | none => none
    | some rt => some ({ r with clusters := r.clusters.set cluster.ID rt }, none)

def updateCluster (ext : Externals) (r : dispatcher) (meta : Cluster) : Option Outcome :=
  match r.clusters.get? meta.ID with
  | none => some (r, some Err.errClusterNotFound)
  | some rt =>
    match rt.updateMeta ext meta with
    | none => none
    | some rt' => some ({ r with clusters := r.clusters.set meta.ID rt' }, none)

def removeCluster (r : dispatcher) (id : Nat) : Option Outcome :=
  match r.clusters.get? id with
  | none => some (r, some Err.errClusterNotFound)
  | some cluster =>
    some ({ r with binds := r.binds.mapValues (fun clusters => clusters.filter (fun c => decide (c ≠ id))),
                   clusters := r.clusters.delete cluster.meta.ID }, none)

def addBind (r : dispatcher) (bind : Bind) : Option Outcome :=
  match r.servers.get? bind.serverID with
  | none => some (r, some Err.errServerNotFound)
  | some server =>
    match r.clusters.get? bind.clusterID with
    | none => some (r, some Err.errClusterNotFound)
    | some cluster =>
      let binds :=
        if r.binds.contains bind.serverID then r.binds else r.binds.set bind.serverID []
      let clusters := (binds.get? bind.serverID).getD []
      let clusters := if bind.clusterID ∈ clusters then clusters else bind.clusterID :: clusters
      let r := { r with binds := binds.set bind.serverID clusters }
      if server.status = Status.Up then
        some ({ r with clusters := r.clusters.set bind.clusterID (cluster.add server.meta.ID) }, none)
      else some (r, none)

def removeBind (r : dispatcher) (bind : Bind) : Option Outcome :=
  if ¬ r.servers.contains bind.serverID then some (r, some Err.errServerNotFound)
  else
    match r.clusters.get? bind.clusterID with
    | none => some (r, some Err.errClusterNotFound)
    | some cluster =>
      let r := { r with clusters := r.clusters.set bind.clusterID (cluster.remove bind.serverID) }
      match r.binds.get? bind.serverID with
      | none => some (r, none)
      | some clusters =>
        some ({ r with binds := r.binds.set bind.serverID
                          (clusters.filter (fun c => decide (c ≠ bind.clusterID))) }, none)

end dispatcher

/-- The mutations of the registry, one per locked method, with the arguments
of the call. -/
inductive Op
  | addRouting (meta : Routing) (now : Int)
  | updateRouting (meta : Routing)
  | removeRouting (id : Nat)
  | addProxy (meta : Proxy)
  | removeProxy (addr : String)
  | addAPI (api : API)
  | updateAPI (api : API)
  | removeAPI (id : Nat)
  | addServer (svr : Server)
  | updateServer (meta : Server)
  | removeServer (id : Nat)
  | addCluster (cluster : Cluster)
  | updateCluster (meta : Cluster)
  | removeCluster (id : Nat)
  | addBind (bind : Bind)
  | removeBind (bind : Bind)

/-- One mutation applied to the registry; `none` when the method panics. -/
def dispatcher.apply (ext : Externals) (r : dispatcher) : Op → Option Outcome
  | Op.addRouting meta now => r.addRouting meta now
  | Op.updateRouting meta => r.updateRouting meta
  | Op.removeRouting id => r.removeRouting id
  | Op.addProxy meta => r.addProxy ext meta
  | Op.removeProxy addr => r.removeProxy addr
  | Op.addAPI api => r.addAPI ext api
  | Op.updateAPI api => r.updateAPI ext api
  | Op.removeAPI id => r.removeAPI id
  | Op.addServer svr => r.addServer svr
  | Op.updateServer meta => r.updateServer meta
  | Op.removeServer id => r.removeServer id
  | Op.addCluster cluster => r.addCluster ext cluster
  | Op.updateCluster meta => r.updateCluster ext meta
  | Op.removeCluster id => r.removeCluster id
  | Op.addBind bind => r.addBind bind
  | Op.removeBind bind => r.removeBind bind

/-- A sequence of mutations applied in order, whatever each one returns; a
panic ends the run. -/
def dispatcher.run (ext : Externals) (r : dispatcher) : List Op → Option dispatcher
  | [] => some r
  | op :: ops =>
    match r.apply ext op with
    | none => none
    | some out => dispatcher.run ext out.1 ops

/-- The burst of the limiter of server `id`, when it is registered. -/
def dispatcher.burst (r : dispatcher) (id : Nat) : Option Int :=
  (r.servers.get? id).map (fun s => s.limiter.burst)

/-! ## Properties of the registry -/

namespace dispatcher

/-- Every cluster runtime and every server runtime is stored under the ID of
its own metadata. -/
def keyed (r : dispatcher) : Prop :=
  (∀ e ∈ r.clusters, e.2.meta.ID = e.1) ∧ (∀ e ∈ r.servers, e.2.meta.ID = e.1)

/-- No server id occurs twice in the server sequence of a cluster. -/
def noDuplicate (r : dispatcher) : Prop :=
  ∀ e ∈ r.clusters, e.2.svrs.Nodup

/-- A server id in the sequence of cluster `c` has `c` recorded in its binds
and is a registered server whose status is Up. -/
def sequencesBound (r : dispatcher) : Prop :=
  ∀ e ∈ r.clusters, ∀ s ∈ e.2.svrs,
    e.1 ∈ (r.binds.get? s).getD [] ∧
      (r.servers.get? s).map (fun rt => rt.status) = some Status.Up

instance (r : dispatcher) : Decidable r.keyed := by unfold keyed; infer_instance

instance (r : dispatcher) : Decidable r.noDuplicate := by unfold noDuplicate; infer_instance

instance (r : dispatcher) : Decidable r.sequencesBound := by unfold sequencesBound; infer_instance

end dispatcher

/-- The circuit operations of a server runtime. -/
inductive CircuitOp
  | toClose
  | toHalf
  | toOpen
  deriving DecidableEq, Repr

/-- The transition table of section 4.3 of the spec, in its words: every
transition is a "no-op if no circuit-breaker configured"; `toClose` is "only
from not-Close; sets Close"; `toHalf` "from anywhere if circuit-breaker
present, moves to Open"; `toOpen` "from Half only; moves to Open"; "any other
transition attempt is rejected". -/
def specCircuit (hasBreaker : Bool) (op : CircuitOp) (c : CircuitStatus) : CircuitStatus :=
  if hasBreaker then
    match op, c with
    | CircuitOp.toClose, CircuitStatus.Close => CircuitStatus.Close
    | CircuitOp.toClose, _ => CircuitStatus.Close
    | CircuitOp.toHalf, _ => CircuitStatus.Open
    | CircuitOp.toOpen, CircuitStatus.Half => CircuitStatus.Open
    | CircuitOp.toOpen, c => c
  else c

namespace dispatcher

/-- Every cluster id recorded in `binds` is the id of a registered cluster. -/
def bindsLive (r : dispatcher) : Prop :=
  ∀ s, ∀ c ∈ (r.binds.get? s).getD [], r.clusters.contains c = true

/-- The registry `r'` holds what `r` holds: the same proxies, clusters (with
their sequences), servers (with their metadata and limiters), APIs and
routings, and the same clusters bound to every server id. -/
def sameRegistry (r r' : dispatcher) : Prop :=
  r'.proxies = r.proxies ∧ r'.clusters = r.clusters ∧ r'.servers = r.servers ∧
    r'.apis = r.apis ∧ r'.routings = r.routings ∧
    ∀ s, r'.binds.get? s = r.binds.get? s

end dispatcher

/-! ## Concrete inputs used in evaluations -/

/-- The expression `^/users/(\d+)$` on an input: `/users/` and then one
or more decimal digits. -/
def usersPattern (uri : String) : Bool :=
  match uri.toList with
  | '/' :: 'u' :: 's' :: 'e' :: 'r' :: 's' :: '/' :: d :: ds =>
    (d :: ds).all (fun c => decide ('0' ≤ c ∧ c ≤ '9'))
  | _ => false

/-- Externals with `util.GetAddrFormat` the identity, every expression
compiling, a load-balance constructor for strategy 0 only, the expression
`^/users/(\d+)$` matched as it reads and no other expression matching,
upper-casing of ASCII letters, and query values and JSON paths read as they
are. -/
def plainExternals : Externals :=
  { addrFormat := fun a => a, regexValid := fun _ => true,
    lbSupported := fun strategy => decide (strategy = 0),
    regexMatch := fun expr input => decide (expr = "^/users/(\\d+)$") && usersPattern input,
    toUpper := fun m => String.mk (m.toList.map Char.toUpper),
    queryUnescape := fun v => v,
    jsonGet := fun _ _ => "" }

/-- A server with the given id and `MaxQPS`, without circuit breaker. -/
def serverOf (id : Nat) (maxQPS : Int) : Server :=
  { ID := id, addr := "10.0.0.1:8080", protocol := 0, maxQPS := maxQPS,
    heathCheck := { path := "/check", checkInterval := 5000000000 }, circuitBreaker := none }

/-- A server runtime with a circuit breaker whose circuit has been tripped. -/
def trippedServer : serverRuntime :=
  { limiter := { every := 1000000, burst := 1000 },
    meta := { serverOf 1 1000 with
              circuitBreaker := some { closeTimeout := 3000000000, rateCheckPeriod := 1000000000 } },
    status := Status.Up, checkFailCount := 0, useCheckDuration := 5000000000,
    circuit := CircuitStatus.Close }

/-- A cluster runtime with the given id, strategy 0 and an empty sequence. -/
def clusterOf (id : Nat) : clusterRuntime :=
  { meta := { ID := id, loadBalance := 0 }, svrs := [], lb := 0 }

/-- A registry with cluster 7, the Up server 1 and no bind. -/
def upRegistry : dispatcher :=
  { dispatcher.empty with
      clusters := [(7, clusterOf 7)],
      servers := [(1, trippedServer)] }

/-- The registry `upRegistry` after `addBind` of cluster 7 and server 1. -/
def boundRegistry : dispatcher :=
  { upRegistry with
      clusters := [(7, { meta := { ID := 7, loadBalance := 0 }, svrs := [1], lb := 0 })],
      binds := [(1, [7])] }

/-- A request with the given method, host and request URI, and nothing else. -/
def requestOf (method host uri : String) : Request :=
  { method := method, host := host, requestURI := uri, headerRequestURI := uri, path := uri,
    queryArgs := fun _ => "", postArgs := fun _ => "", headers := fun _ => "",
    cookies := fun _ => "", body := "" }

/-- The API of scenario S3. -/
def usersAPI : API :=
  { ID := 1, urlPattern := "^/users/(\\d+)$", method := "GET", domain := "api.example.com",
    status := Status.Up, nodes := [], defaultValue := none, ipAccessControl := none }

/-- The API of scenario S3 with the URL pattern left empty. -/
def domainOnlyAPI : API :=
  { usersAPI with urlPattern := "" }

/-- The API of scenario S4. -/
def aclAPI : API :=
  { usersAPI with
      ipAccessControl := some { whitelist := ["10.0.*.*"], blacklist := ["10.0.5.*"] } }

/-- The spec's reading of a segment match: "at every token position the
segment token is `*` or is string-equal to the ip token". -/
def specSegmentMatches (pattern ip : List String) : Bool :=
  (pattern.zip ip).all (fun p => decide (p.1 = "*") || decide (p.1 = p.2))

/-- Externals as `plainExternals`, except that the expression `(` does not
compile. -/
def strictExternals : Externals :=
  { plainExternals with regexValid := fun expr => decide (expr ≠ "(") }

/-- A cache kept as a map from id to value, without a byte budget. -/
def mapCache : CacheOps (GoMap String (List Byte)) :=
  { get := fun c id => (c, c.get? id),
    add := fun c id value => c.set id value,
    remove := fun c id => c.delete id }

/-- A context for the request `GET /search?q=cat` whose node caches under the
query value `q` when the header `X-Tenant` is `gold`. -/
def searchContext (tenant : String) : Context :=
  { forwardRequest :=
      { requestOf "GET" "api.example.com" "/search?q=cat" with
          queryArgs := fun name => if name = "q" then "cat" else "",
          headers := fun name => if name = "X-Tenant" then tenant else "" },
    dispatchNode :=
      { clusterID := 1, urlRewrite := "",
        cache := some { keys := [{ name := "q", source := QueryString, index := 0 }],
                        deadline := 2,
                        conditions := [{ parameter := { name := "X-Tenant", source := Header,
                                                        index := 0 },
                                         cmp := CMPEQ, expect := "gold" }] },
        validations := [] },
    response := { contentType := [116], body := [1, 2] },
    attrs := [] }

/-- A registry with the two proxies `p1` and `p2` and server 1 holding the
stored `MaxQPS` 3. -/
def twoProxies : dispatcher :=
  { dispatcher.empty with
      proxies := [("p2", { addr := "p2" }), ("p1", { addr := "p1" })],
      servers := [(1, { trippedServer with meta := serverOf 1 3,
                                           limiter := { every := 333333333, burst := 3 } })] }

/-! ## Theorems -/

section GoMapLemmas

variable {K V : Type} [DecidableEq K]

theorem GoMap.get?_mem {m : GoMap K V} {k : K} {v : V} (h : m.get? k = some v) :
    (k, v) ∈ m := by
  induction m with
  | nil => simp [GoMap.get?] at h
  | cons e m ih =>
    unfold GoMap.get? at h
    by_cases hk : e.1 = k
    · rw [if_pos hk] at h
      have hv : e.2 = v := Option.some.inj h
      have : e = (k, v) := Prod.ext hk hv
      exact List.mem_cons.mpr (Or.inl this.symm)
    · rw [if_neg hk] at h
      exact List.mem_cons_of_mem _ (ih h)

theorem GoMap.get?_eq_none {m : GoMap K V} {k : K} (h : m.get? k = none) :
    ∀ e ∈ m, e.1 ≠ k := by
  induction m with
  | nil => intro e he; cases he
  | cons a m ih =>
    unfold GoMap.get? at h
    by_cases hk : a.1 = k
    · rw [if_pos hk] at h; cases h
    · rw [if_neg hk] at h
      intro e he
      rcases List.mem_cons.mp he with rfl | he
      · exact hk
      · exact ih h e he

theorem GoMap.contains_false {m : GoMap K V} {k : K} (h : m.contains k = false) :
    m.get? k = none := by
  unfold GoMap.contains at h
  cases hg : m.get? k with
  | none => rfl
  | some v => rw [hg] at h; cases h

theorem GoMap.contains_true {m : GoMap K V} {k : K} (h : m.contains k = true) :
    ∃ v, m.get? k = some v := by
  unfold GoMap.contains at h
  cases hg : m.get? k with
  | none => rw [hg] at h; cases h
  | some v => exact ⟨v, rfl⟩

theorem GoMap.get?_map_replace (m : GoMap K V) (k k' : K) (v : V) :
    GoMap.get? (m.map (fun e => if e.1 = k then (k, v) else e)) k'
      = if k' = k then (m.get? k).map (fun _ => v) else m.get? k' := by
  induction m with
  | nil => simp [GoMap.get?]
  | cons a m ih =>
    simp only [List.map_cons, GoMap.get?]
    by_cases ha : a.1 = k
    · simp only [ha, if_true]
      by_cases hk : k' = k
      · simp [hk]
      · have : ¬ k = k' := fun h => hk h.symm
        simp only [this, if_false, hk]
        rw [ih, if_neg hk]
    · simp only [ha, if_false]
      by_cases hk : k' = k
      · subst hk
        simp only [ha, if_false, if_true]
        rw [ih, if_pos rfl]
      · simp only [hk, if_false]
        by_cases hak : a.1 = k'
        · simp [hak]
        · simp only [hak, if_false]
          rw [ih, if_neg hk]

theorem GoMap.get?_set (m : GoMap K V) (k k' : K) (v : V) :
    (m.set k v).get? k' = if k' = k then some v else m.get? k' := by
  unfold GoMap.set
  cases hc : m.contains k with
  | false =>
    simp only [Bool.false_eq_true, if_false, GoMap.get?]
    by_cases hk : k' = k
    · simp [hk]
    · have : ¬ k = k' := fun h => hk h.symm
      simp [this, hk]
  | true =>
    obtain ⟨v0, hv0⟩ := GoMap.contains_true hc
    simp only [if_true]
    rw [GoMap.get?_map_replace, hv0]
    rfl

theorem GoMap.get?_delete (m : GoMap K V) (k k' : K) :
    (m.delete k).get? k' = if k' = k then none else m.get? k' := by
  unfold GoMap.delete
  induction m with
  | nil => simp [GoMap.get?]
  | cons a m ih =>
    by_cases ha : a.1 = k
    · have : decide (a.1 ≠ k) = false := by simp [ha]
      rw [List.filter_cons_of_neg (by simp [ha]), ih]
      by_cases hk : k' = k
      · simp [hk]
      · have : ¬ a.1 = k' := fun h => hk (h.symm.trans ha)
        simp [hk, GoMap.get?, this]
    · rw [List.filter_cons_of_pos (by simp [ha])]
      simp only [GoMap.get?]
      rw [ih]
      by_cases hk : k' = k
      · subst hk; simp [ha]
      · simp [hk]

theorem GoMap.get?_mapValues (f : V → V) (m : GoMap K V) (k : K) :
    (m.mapValues f).get? k = (m.get? k).map f := by
  unfold GoMap.mapValues
  induction m with
  | nil => simp [GoMap.get?]
  | cons a m ih =>
    simp only [List.map_cons, GoMap.get?]
    by_cases ha : a.1 = k
    · simp [ha]
    · simp only [ha, if_false]; exact ih

theorem GoMap.get?_mapValuesM {f : V → Option V} {m m' : GoMap K V}
    (h : m.mapValuesM f = some m') (k : K) :
    m'.get? k = (m.get? k).bind f := by
  induction m generalizing m' with
  | nil =>
    simp only [GoMap.mapValuesM, Option.some.injEq] at h
    subst h; simp [GoMap.get?]
  | cons a m ih =>
    unfold GoMap.mapValuesM at h
    cases hf : f a.2 with
    | none => rw [hf] at h; cases h
    | some v =>
      rw [hf] at h
      cases hm : GoMap.mapValuesM f m with
      | none => rw [hm] at h; cases h
      | some m2 =>
        rw [hm] at h
        simp only [Option.some.injEq] at h
        subst h
        simp only [GoMap.get?]
        by_cases ha : a.1 = k
        · simp [ha, hf]
        · simp only [ha, if_false]; exact ih hm

omit [DecidableEq K] in
theorem GoMap.mem_mapValuesM {f : V → Option V} {m m' : GoMap K V}
    (h : m.mapValuesM f = some m') :
    ∀ e' ∈ m', ∃ e ∈ m, e'.1 = e.1 ∧ f e.2 = some e'.2 := by
  induction m generalizing m' with
  | nil =>
    simp only [GoMap.mapValuesM, Option.some.injEq] at h
    subst h; intro e' he'; cases he'
  | cons a m ih =>
    unfold GoMap.mapValuesM at h
    cases hf : f a.2 with
    | none => rw [hf] at h; cases h
    | some v =>
      rw [hf] at h
      cases hm : GoMap.mapValuesM f m with
      | none => rw [hm] at h; cases h
      | some m2 =>
        rw [hm] at h
        simp only [Option.some.injEq] at h
        subst h
        intro e' he'
        rcases List.mem_cons.mp he' with rfl | he'
        · exact ⟨a, List.mem_cons_self _ _, rfl, hf⟩
        · obtain ⟨e, he, h1, h2⟩ := ih hm e' he'
          exact ⟨e, List.mem_cons_of_mem _ he, h1, h2⟩

theorem GoMap.mem_set {m : GoMap K V} {k : K} {v : V} {e : K × V} (h : e ∈ m.set k v) :
    e = (k, v) ∨ (e ∈ m ∧ e.1 ≠ k) := by
  unfold GoMap.set at h
  cases hc : m.contains k with
  | false =>
    rw [hc] at h
    simp only [Bool.false_eq_true, if_false] at h
    rcases List.mem_cons.mp h with h | h
    · exact Or.inl h
    · exact Or.inr ⟨h, GoMap.get?_eq_none (GoMap.contains_false hc) e h⟩
  | true =>
    rw [hc] at h
    simp only [if_true] at h
    obtain ⟨a, ha, hae⟩ := List.mem_map.mp h
    by_cases hk : a.1 = k
    · rw [if_pos hk] at hae; exact Or.inl hae.symm
    · rw [if_neg hk] at hae; subst hae; exact Or.inr ⟨ha, hk⟩

theorem GoMap.mem_delete {m : GoMap K V} {k : K} {e : K × V} (h : e ∈ m.delete k) :
    e ∈ m ∧ e.1 ≠ k := by
  unfold GoMap.delete at h
  have := List.mem_filter.mp h
  exact ⟨this.1, by simpa using this.2⟩

omit [DecidableEq K] in
theorem GoMap.mem_mapValues {f : V → V} {m : GoMap K V} {e' : K × V}
    (h : e' ∈ m.mapValues f) : ∃ e ∈ m, e' = (e.1, f e.2) := by
  unfold GoMap.mapValues at h
  obtain ⟨a, ha, hae⟩ := List.mem_map.mp h
  exact ⟨a, ha, hae.symm⟩

/-- Deleting a key that is not in the map leaves the map as it is. -/
theorem GoMap.delete_of_get?_none {m : GoMap K V} {k : K} (h : m.get? k = none) :
    m.delete k = m := by
  unfold GoMap.delete
  apply List.filter_eq_self.mpr
  intro e he
  simpa using GoMap.get?_eq_none h e he

end GoMapLemmas



section Caching

theorem or_bytes (b0 b1 b2 b3 : Nat) (h1 : b1 < 256) (h2 : b2 < 256) (h3 : b3 < 256) :
    (b0 <<< 24) ||| (b1 <<< 16) ||| (b2 <<< 8) ||| b3
      = b0 * 2 ^ 24 + b1 * 2 ^ 16 + b2 * 2 ^ 8 + b3 := by
  simp only [Nat.shiftLeft_eq]
  have e3 : 2 ^ 8 * (b0 * 2 ^ 16 + b1 * 2 ^ 8 + b2) + b3
      = 2 ^ 8 * (b0 * 2 ^ 16 + b1 * 2 ^ 8 + b2) ||| b3 :=
    Nat.mul_add_lt_is_or (by omega) _
  have e2 : 2 ^ 16 * (b0 * 2 ^ 8 + b1) + b2 * 2 ^ 8
      = 2 ^ 16 * (b0 * 2 ^ 8 + b1) ||| b2 * 2 ^ 8 :=
    Nat.mul_add_lt_is_or (by omega) _
  have e1 : 2 ^ 24 * b0 + b1 * 2 ^ 16 = 2 ^ 24 * b0 ||| b1 * 2 ^ 16 :=
    Nat.mul_add_lt_is_or (by omega) _
  have a1 : b0 * 2 ^ 24 = 2 ^ 24 * b0 := by omega
  have a2 : 2 ^ 24 * b0 + b1 * 2 ^ 16 = 2 ^ 16 * (b0 * 2 ^ 8 + b1) := by omega
  have a3 : 2 ^ 16 * (b0 * 2 ^ 8 + b1) + b2 * 2 ^ 8
      = 2 ^ 8 * (b0 * 2 ^ 16 + b1 * 2 ^ 8 + b2) := by omega
  rw [a1, ← e1, a2, ← e2, a3, ← e3]

/-- Writing `src` over a middle section of the same length replaces it. -/
theorem copyInto_mid (pre mid post src : List Byte) (h : mid.length = src.length) :
    copyInto (pre ++ mid ++ post) pre.length (pre.length + src.length) src
      = some (pre ++ src ++ post) := by
  unfold copyInto
  have hc : pre.length ≤ pre.length + src.length ∧
      pre.length + src.length ≤ (pre ++ mid ++ post).length := by
    simp only [List.length_append]; omega
  rw [if_pos hc]
  have h1 : pre.length + src.length - pre.length = src.length := by omega
  have h2 : List.take pre.length (pre ++ mid ++ post) = pre := by
    rw [List.append_assoc]; exact List.take_left' rfl
  have h3 : List.drop (pre.length + min src.length src.length) (pre ++ mid ++ post) = post := by
    have : (pre ++ mid).length = pre.length + min src.length src.length := by
      simp only [List.length_append, Nat.min_self]; omega
    exact List.drop_left' this
  rw [h1, h2, h3, List.take_length]

theorem Int2BytesTo_header (v : Nat) (rest : List Byte) :
    Int2BytesTo v (List.replicate 4 0 ++ rest) 0 4 = some (be32 v ++ rest) := by
  unfold Int2BytesTo
  rw [if_pos (by omega)]
  have := copyInto_mid [] (List.replicate 4 0) rest
    [toByte (v >>> 24), toByte (v >>> 16), toByte (v >>> 8), toByte v] (by simp)
  simp only [List.nil_append, List.length_nil, List.length_cons, Nat.zero_add] at this
  rw [this]
  simp [be32, Nat.shiftRight_eq_div_pow]

/-- The buffer built by `genCachedValue` is header, content type, body. -/
theorem genCachedValue_eq (ct b : List Byte) :
    genCachedValue ⟨ct, b⟩ = some (be32 ct.length ++ ct ++ b) := by
  unfold genCachedValue
  have hrep : (List.replicate (ct.length + 4 + b.length) 0 : List Byte)
      = List.replicate 4 0 ++ (List.replicate ct.length 0 ++ List.replicate b.length 0) := by
    rw [← List.replicate_add, ← List.replicate_add]; congr 1; omega
  simp only [hrep, Int2BytesTo_header, Option.some_bind, Nat.zero_add]
  have h4 : (be32 ct.length).length = 4 := rfl
  have s1 := copyInto_mid (be32 ct.length) (List.replicate ct.length 0)
    (List.replicate b.length 0) ct (by simp)
  rw [h4, List.append_assoc] at s1
  rw [s1, Option.some_bind]
  have s2 := copyInto_mid (be32 ct.length ++ ct) (List.replicate b.length 0) [] b (by simp)
  simp only [List.append_nil, List.length_append, h4] at s2
  have hl : (be32 ct.length ++ ct ++ List.replicate b.length 0).length
      = 4 + ct.length + b.length := by
    simp only [List.length_append, List.length_replicate, h4]
  rw [hl, s2]

theorem beValue_be32 (n : Nat) : beValue (be32 n) = n % 2 ^ 32 := by
  simp only [beValue, be32, toByte, List.foldl_cons, List.foldl_nil]
  omega

theorem Byte2Int_be32 (n : Nat) : Byte2Int (be32 n) = some (n % 2 ^ 32) := by
  simp only [Byte2Int, be32, toByte]
  rw [or_bytes _ _ _ _ (Nat.mod_lt _ (by decide)) (Nat.mod_lt _ (by decide))
    (Nat.mod_lt _ (by decide))]
  congr 1
  omega

theorem parseCachedValue_layout (ct b : List Byte) (h : ct.length < 2 ^ 32) :
    parseCachedValue (be32 ct.length ++ ct ++ b) = some (ct, b) := by
  have h4 : (be32 ct.length).length = 4 := rfl
  have hmod : ct.length % 2 ^ 32 = ct.length := Nat.mod_eq_of_lt h
  have hlen : (be32 ct.length ++ ct ++ b).length = 4 + ct.length + b.length := by
    simp only [List.length_append, h4]
  have e1 : slice? (be32 ct.length ++ ct ++ b) 0 4 = some (be32 ct.length) := by
    unfold slice?
    rw [if_pos (by rw [hlen]; omega)]
    simp only [List.drop_zero, Nat.sub_zero, List.append_assoc]
    rw [List.take_left' h4]
  have e2 : slice? (be32 ct.length ++ ct ++ b) 4 (4 + ct.length) = some ct := by
    unfold slice?
    rw [if_pos (by rw [hlen]; omega)]
    rw [List.append_assoc, List.drop_left' h4, Nat.add_sub_cancel_left, List.take_left' rfl]
  have e3 : slice? (be32 ct.length ++ ct ++ b) (4 + ct.length)
      (be32 ct.length ++ ct ++ b).length = some b := by
    unfold slice?
    rw [if_pos (by rw [hlen]; omega)]
    have : (be32 ct.length ++ ct).length = 4 + ct.length := by simp [h4]
    rw [List.drop_left' this, hlen]
    have : 4 + ct.length + b.length - (4 + ct.length) = b.length := by omega
    rw [this, List.take_length]
  unfold parseCachedValue
  rw [e1, Option.some_bind, Byte2Int_be32, Option.some_bind, hmod, e2, Option.some_bind, e3,
    Option.some_bind]

/-- C1: for a content type shorter than 2^31 bytes and any body,
`parseCachedValue` applied to the value built by `genCachedValue` returns
exactly the content type and the body. -/
theorem C1_cached_value_roundtrip (ct b : List Byte) (h : ct.length < 2 ^ 31) :
    (genCachedValue ⟨ct, b⟩).bind parseCachedValue = some (ct, b) := by
  rw [genCachedValue_eq, Option.some_bind]
  exact parseCachedValue_layout ct b (by omega)

theorem C1_cached_value_roundtrip_witness :
    ([116, 120] : List Byte).length < 2 ^ 31 ∧
      (genCachedValue ⟨[116, 120], [1, 2, 3]⟩).bind parseCachedValue
        = some ([116, 120], [1, 2, 3]) :=
  ⟨by decide, C1_cached_value_roundtrip [116, 120] [1, 2, 3] (by decide)⟩

/-- C2: `genCachedValue` always returns a buffer of `4 + |ct| + |b|` bytes;
its first four bytes are the big-endian encoding of `|ct|` (as an unsigned
32-bit number), the next `|ct|` bytes are the content type and the rest is
the body. -/
theorem C2_cached_value_layout (ct b : List Byte) :
    ∃ data, genCachedValue ⟨ct, b⟩ = some data ∧
      data.length = 4 + ct.length + b.length ∧
      data.take 4 = be32 ct.length ∧
      beValue (data.take 4) = ct.length % 2 ^ 32 ∧
      (data.drop 4).take ct.length = ct ∧
      data.drop (4 + ct.length) = b := by
  have h4 : (be32 ct.length).length = 4 := rfl
  have ht : (be32 ct.length ++ ct ++ b).take 4 = be32 ct.length := by
    rw [List.append_assoc]; exact List.take_left' h4
  refine ⟨be32 ct.length ++ ct ++ b, genCachedValue_eq ct b, ?_, ht, ?_, ?_, ?_⟩
  · simp only [List.length_append, h4]
  · rw [ht, beValue_be32]
  · rw [List.append_assoc, List.drop_left' h4, List.take_left' rfl]
  · exact List.drop_left' (by simp [h4])

end Caching

section Circuit

/-- C9 (as the code behaves): on a server runtime with a circuit breaker whose
circuit is Close, `circuitToHalf` sets the circuit to Open, not to Half; and
`circuitToOpen` takes Half to Open. -/
theorem C9_circuitToHalf_sets_open :
    trippedServer.meta.circuitBreaker ≠ none ∧
      trippedServer.circuit = CircuitStatus.Close ∧
      (serverRuntime.circuitToHalf trippedServer).circuit = CircuitStatus.Open ∧
      (serverRuntime.circuitToHalf trippedServer).circuit ≠ CircuitStatus.Half ∧
      (serverRuntime.circuitToOpen
        { trippedServer with circuit := CircuitStatus.Half }).circuit = CircuitStatus.Open := by
  decide

/-- C10: each of `circuitToClose`, `circuitToHalf`, `circuitToOpen` changes
the circuit field only, to the value the transition table of section 4.3
gives; `circuitToClose` schedules `circuitToHalf` after `CloseTimeout` exactly
when it trips. The table has the values the claim lists: without a breaker
every operation keeps the state; with one, toClose gives Close from Open and
Half and keeps Close, toHalf gives Open from every state, toOpen gives Open
from Half and keeps Open and Close. -/
theorem C10_circuit_operations_follow_table (s : serverRuntime) :
    (serverRuntime.circuitToClose s).1
        = { s with circuit :=
              specCircuit s.meta.circuitBreaker.isSome CircuitOp.toClose s.circuit } ∧
      serverRuntime.circuitToHalf s
        = { s with circuit :=
              specCircuit s.meta.circuitBreaker.isSome CircuitOp.toHalf s.circuit } ∧
      serverRuntime.circuitToOpen s
        = { s with circuit :=
              specCircuit s.meta.circuitBreaker.isSome CircuitOp.toOpen s.circuit } ∧
      (serverRuntime.circuitToClose s).2
        = (if s.circuit = CircuitStatus.Close then none
           else s.meta.circuitBreaker.map (fun cb => cb.closeTimeout)) ∧
      (∀ op c, specCircuit false op c = c) ∧
      specCircuit true CircuitOp.toClose CircuitStatus.Open = CircuitStatus.Close ∧
      specCircuit true CircuitOp.toClose CircuitStatus.Half = CircuitStatus.Close ∧
      specCircuit true CircuitOp.toClose CircuitStatus.Close = CircuitStatus.Close ∧
      (∀ c, specCircuit true CircuitOp.toHalf c = CircuitStatus.Open) ∧
      specCircuit true CircuitOp.toOpen CircuitStatus.Half = CircuitStatus.Open ∧
      specCircuit true CircuitOp.toOpen CircuitStatus.Open = CircuitStatus.Open ∧
      specCircuit true CircuitOp.toOpen CircuitStatus.Close = CircuitStatus.Close := by
  obtain ⟨lim, meta, st, cf, ud, circ⟩ := s
  obtain ⟨id, addr, proto, q, hc, cb⟩ := meta
  refine ⟨?_, ?_, ?_, ?_, ?_, rfl, rfl, rfl, ?_, rfl, rfl, rfl⟩
  · cases cb <;> cases circ <;> rfl
  · cases cb <;> cases circ <;> rfl
  · cases cb <;> cases circ <;> rfl
  · cases cb <;> cases circ <;> rfl
  · intro op c; rfl
  · intro c; cases c <;> rfl

end Circuit

section QPS

/-- C3 (as the code behaves): `refreshAllQPS` divides the `MaxQPS` already
stored in the runtime, which earlier calls have divided. With one proxy, a
server configured with 1000 and two more proxies added, the burst is
`(1000 / 2) / 3 = 166`, not `1000 / 3 = 333`; with two proxies, the same
server added and one proxy removed, the burst stays `500`, not `1000`. -/
theorem C3_refresh_divides_stored_quotient :
    (dispatcher.run plainExternals dispatcher.empty
        [Op.addProxy ⟨"p1"⟩, Op.addServer (serverOf 1 1000), Op.addProxy ⟨"p2"⟩,
          Op.addProxy ⟨"p3"⟩]).bind (fun r => r.burst 1) = some 166 ∧
      (dispatcher.run plainExternals dispatcher.empty
        [Op.addProxy ⟨"p1"⟩, Op.addServer (serverOf 1 1000), Op.addProxy ⟨"p2"⟩,
          Op.addProxy ⟨"p3"⟩]).map (fun r => r.proxies.len) = some 3 ∧
      Int.tdiv 1000 (max 1 3) = 333 ∧
      (dispatcher.run plainExternals dispatcher.empty
        [Op.addProxy ⟨"p1"⟩, Op.addProxy ⟨"p2"⟩, Op.addServer (serverOf 1 1000),
          Op.removeProxy "p2"]).bind (fun r => r.burst 1) = some 500 ∧
      (dispatcher.run plainExternals dispatcher.empty
        [Op.addProxy ⟨"p1"⟩, Op.addProxy ⟨"p2"⟩, Op.addServer (serverOf 1 1000),
          Op.removeProxy "p2"]).map (fun r => r.proxies.len) = some 1 ∧
      Int.tdiv 1000 (max 1 1) = 1000 := by
  decide

/-- C4: scenario S1. From the empty registry, after `addProxy(P1)` and
`addServer(S)` with `MaxQPS = 1000` the burst of the limiter of S is 1000, and
after a further `addProxy(P2)` whose address key differs it is 500. -/
theorem C4_scenario_S1 (ext : Externals) (p1 p2 : Proxy) (svr : Server)
    (hq : svr.maxQPS = 1000) (hp : ext.addrFormat p1.addr ≠ ext.addrFormat p2.addr) :
    (dispatcher.run ext dispatcher.empty [Op.addProxy p1, Op.addServer svr]).bind
        (fun r => r.burst svr.ID) = some 1000 ∧
      (dispatcher.run ext dispatcher.empty
          [Op.addProxy p1, Op.addServer svr, Op.addProxy p2]).bind
        (fun r => r.burst svr.ID) = some 500 := by
  obtain ⟨id, addr, proto, q, hc, cb⟩ := svr
  simp only at hq
  subst hq
  have e1 : Int.tdiv 1000 (1 : Int) = 1000 := by decide
  have e2 : Int.tdiv 1000 (2 : Int) = 500 := by decide
  have hp' : ¬ ext.addrFormat p2.addr = ext.addrFormat p1.addr := fun h => hp h.symm
  constructor
  · cases cb <;> simp [dispatcher.run, dispatcher.apply, dispatcher.addProxy,
      dispatcher.addServer,
      dispatcher.empty, dispatcher.refreshAllQPS, dispatcher.refreshQPS, GoMap.contains,
      GoMap.get?, GoMap.set, GoMap.mapValuesM, GoMap.len, newServerRuntime,
      serverRuntime.updateMeta, dispatcher.addAnalysis, dispatcher.addToCheck,
      dispatcher.burst, e1]
  · cases cb <;> simp [dispatcher.run, dispatcher.apply, dispatcher.addProxy,
      dispatcher.addServer,
      dispatcher.empty, dispatcher.refreshAllQPS, dispatcher.refreshQPS, GoMap.contains,
      GoMap.get?, GoMap.set, GoMap.mapValuesM, GoMap.len, newServerRuntime,
      serverRuntime.updateMeta, dispatcher.addAnalysis, dispatcher.addToCheck,
      dispatcher.burst, e1, e2, hp, hp']

theorem C4_scenario_S1_witness :
    (serverOf 7 1000).maxQPS = 1000 ∧
      plainExternals.addrFormat (Proxy.mk "10.0.0.2:80").addr
        ≠ plainExternals.addrFormat (Proxy.mk "10.0.0.3:80").addr ∧
      ((dispatcher.run plainExternals dispatcher.empty
          [Op.addProxy ⟨"10.0.0.2:80"⟩, Op.addServer (serverOf 7 1000)]).bind
        (fun r => r.burst (serverOf 7 1000).ID) = some 1000 ∧
      (dispatcher.run plainExternals dispatcher.empty
          [Op.addProxy ⟨"10.0.0.2:80"⟩, Op.addServer (serverOf 7 1000),
            Op.addProxy ⟨"10.0.0.3:80"⟩]).bind
        (fun r => r.burst (serverOf 7 1000).ID) = some 500) :=
  ⟨by decide, by decide,
    C4_scenario_S1 plainExternals ⟨"10.0.0.2:80"⟩ ⟨"10.0.0.3:80"⟩ (serverOf 7 1000)
      (by decide) (by decide)⟩

end QPS

section Frames

theorem addAnalysis_servers (r : dispatcher) (svr : serverRuntime) :
    (r.addAnalysis svr).servers = r.servers := by
  unfold dispatcher.addAnalysis; cases svr.meta.circuitBreaker <;> rfl

theorem refreshQPS_ID (r : dispatcher) (svr : Server) : (r.refreshQPS svr).ID = svr.ID := by
  unfold dispatcher.refreshQPS; split <;> rfl

/-- C8: when server `s` is registered and the new metadata has `ID = s` and
a non-zero `MaxQPS` after `refreshQPS`, `updateServer` returns no error and
the runtime of `s` keeps its status, circuit, check-fail count and current
check interval; the runtime of every other server id is what it was. -/
theorem C8_updateServer_keeps_transient_state (r : dispatcher) (s : Nat) (rt : serverRuntime)
    (meta' : Server) (hs : r.servers.get? s = some rt) (hid : meta'.ID = s)
    (hq : (r.refreshQPS meta').maxQPS ≠ 0) :
    ∃ r' rt', r.updateServer meta' = some (r', none) ∧
      r'.servers.get? s = some rt' ∧
      rt'.status = rt.status ∧ rt'.circuit = rt.circuit ∧
      rt'.checkFailCount = rt.checkFailCount ∧
      rt'.useCheckDuration = rt.useCheckDuration ∧
      ∀ s', s' ≠ s → r'.servers.get? s' = r.servers.get? s' := by
  subst hid
  unfold dispatcher.updateServer
  rw [hs]
  simp only [serverRuntime.updateMeta, if_neg hq]
  refine ⟨_, ?w, rfl, ?h1, ?h2, ?h3, ?h4, ?h5, ?h6⟩
  case h1 =>
    simp only [dispatcher.addToCheck, addAnalysis_servers, refreshQPS_ID]
    rw [GoMap.get?_set, if_pos rfl]
    exact rfl
  case h2 => rfl
  case h3 => rfl
  case h4 => rfl
  case h5 => rfl
  case h6 =>
    intro s' hs'
    simp only [dispatcher.addToCheck, addAnalysis_servers, refreshQPS_ID]
    rw [GoMap.get?_set, if_neg hs']

theorem C8_updateServer_keeps_transient_state_witness :
    ∃ r' rt', dispatcher.updateServer
        { dispatcher.empty with servers := [(1, trippedServer), (2, trippedServer)] }
        (serverOf 1 40) = some (r', none) ∧
      r'.servers.get? 1 = some rt' ∧
      rt'.status = trippedServer.status ∧ rt'.circuit = trippedServer.circuit ∧
      rt'.checkFailCount = trippedServer.checkFailCount ∧
      rt'.useCheckDuration = trippedServer.useCheckDuration ∧
      ∀ s', s' ≠ 1 → r'.servers.get? s'
        = GoMap.get? [(1, trippedServer), (2, trippedServer)] s' :=
  C8_updateServer_keeps_transient_state
    { dispatcher.empty with servers := [(1, trippedServer), (2, trippedServer)] }
    1 trippedServer (serverOf 1 40) (by decide) (by decide) (by decide)

/-- C7: in a registry whose clusters are stored under their own ids and that
holds cluster `c`, `removeCluster(c)` returns no error; afterwards `c` is not
in the cluster map and in no `binds[s]`; every other cluster id is bound to
`s` exactly when it was, every other cluster is what it was, and the server,
proxy, API and routing maps are unchanged. -/
theorem C7_removeCluster_scrubs_binds (r : dispatcher) (c : Nat) (hk : r.keyed)
    (hc : r.clusters.contains c = true) :
    ∃ r', r.removeCluster c = some (r', none) ∧
      r'.clusters.get? c = none ∧
      (∀ s, c ∉ (r'.binds.get? s).getD []) ∧
      (∀ s c', c' ≠ c → (c' ∈ (r'.binds.get? s).getD [] ↔ c' ∈ (r.binds.get? s).getD [])) ∧
      (∀ c', c' ≠ c → r'.clusters.get? c' = r.clusters.get? c') ∧
      r'.servers = r.servers ∧ r'.proxies = r.proxies ∧ r'.apis = r.apis ∧
      r'.routings = r.routings := by
  obtain ⟨cluster, hg⟩ := GoMap.contains_true hc
  have hid : cluster.meta.ID = c := hk.1 (c, cluster) (GoMap.get?_mem hg)
  unfold dispatcher.removeCluster
  rw [hg]
  refine ⟨_, rfl, ?_, ?_, ?_, ?_, rfl, rfl, rfl, rfl⟩
  · simp only [hid]; rw [GoMap.get?_delete, if_pos rfl]
  · intro s
    simp only [GoMap.get?_mapValues]
    cases r.binds.get? s <;> simp
  · intro s c' hc'
    simp only [GoMap.get?_mapValues]
    cases r.binds.get? s <;> simp [hc']
  · intro c' hc'
    simp only [hid]; rw [GoMap.get?_delete, if_neg hc']

theorem C7_removeCluster_scrubs_binds_witness :
    ∃ r', dispatcher.removeCluster
        { dispatcher.empty with
            clusters := [(1, clusterOf 1), (2, clusterOf 2)],
            binds := [(5, [1, 2])] } 1 = some (r', none) ∧
      r'.clusters.get? 1 = none ∧
      (∀ s, 1 ∉ (r'.binds.get? s).getD []) ∧
      (∀ s c', c' ≠ 1 → (c' ∈ (r'.binds.get? s).getD []
        ↔ c' ∈ (GoMap.get? [(5, [1, 2])] s).getD [])) ∧
      (∀ c', c' ≠ 1 → r'.clusters.get? c'
        = GoMap.get? [(1, clusterOf 1), (2, clusterOf 2)] c') ∧
      r'.servers = [] ∧ r'.proxies = [] ∧ r'.apis = [] ∧ r'.routings = [] :=
  C7_removeCluster_scrubs_binds
    { dispatcher.empty with
        clusters := [(1, clusterOf 1), (2, clusterOf 2)],
        binds := [(5, [1, 2])] } 1 (by decide) (by decide)

end Frames

section Invariants

theorem GoMap.mapValuesM_defined {K V : Type} {f : V → Option V} {m m' : GoMap K V}
    (h : m.mapValuesM f = some m') : ∀ e ∈ m, ∃ v, f e.2 = some v := by
  induction m generalizing m' with
  | nil => intro e he; cases he
  | cons a m ih =>
    unfold GoMap.mapValuesM at h
    cases hf : f a.2 with
    | none => rw [hf] at h; cases h
    | some v =>
      rw [hf] at h
      cases hm : GoMap.mapValuesM f m with
      | none => rw [hm] at h; cases h
      | some m2 =>
        intro e he
        rcases List.mem_cons.mp he with rfl | he
        · exact ⟨v, hf⟩
        · exact ih hm e he

theorem newClusterRuntime_some {ext : Externals} {m : Cluster} {rt : clusterRuntime}
    (h : newClusterRuntime ext m = some rt) : rt.meta = m ∧ rt.svrs = [] := by
  unfold newClusterRuntime at h
  split at h
  · cases h
  · cases h; exact ⟨rfl, rfl⟩

theorem clusterUpdateMeta_some {ext : Externals} {m : Cluster} {c c' : clusterRuntime}
    (h : c.updateMeta ext m = some c') : c'.meta = m ∧ c'.svrs = c.svrs := by
  unfold clusterRuntime.updateMeta at h
  split at h
  · cases h
  · cases h; exact ⟨rfl, rfl⟩

theorem updateMeta_some {s s' : serverRuntime} {m : Server}
    (h : s.updateMeta m = some s') :
    s'.status = s.status ∧ s'.meta = m ∧ s'.circuit = s.circuit := by
  unfold serverRuntime.updateMeta at h
  split at h
  · cases h
  · cases h; exact ⟨rfl, rfl, rfl⟩

theorem newServerRuntime_some {m : Server} {s' : serverRuntime}
    (h : newServerRuntime m = some s') : s'.status = Status.Down ∧ s'.meta = m := by
  unfold newServerRuntime at h
  have := updateMeta_some h
  exact ⟨this.1, this.2.1⟩

theorem addAnalysis_clusters (r : dispatcher) (svr : serverRuntime) :
    (r.addAnalysis svr).clusters = r.clusters := by
  unfold dispatcher.addAnalysis; cases svr.meta.circuitBreaker <;> rfl

theorem addAnalysis_binds (r : dispatcher) (svr : serverRuntime) :
    (r.addAnalysis svr).binds = r.binds := by
  unfold dispatcher.addAnalysis; cases svr.meta.circuitBreaker <;> rfl

theorem refreshAllQPS_some {r r' : dispatcher} (h : r.refreshAllQPS = some r') :
    r'.clusters = r.clusters ∧ r'.binds = r.binds ∧
      r.servers.mapValuesM (fun svr => svr.updateMeta (r.refreshQPS svr.meta))
        = some r'.servers := by
  unfold dispatcher.refreshAllQPS at h
  split at h
  · cases h
  · next servers hs => cases h; exact ⟨rfl, rfl, hs⟩

/-- What a mutation can do to the clusters, the servers and the binds. The
first case covers the mutations of routings, APIs and proxies, `addServer`,
`updateServer` and every call that returns an error: clusters and binds are
kept, a registered server keeps its status, and servers stay stored under
their own ids. -/
theorem apply_shape {ext : Externals} {r : dispatcher} {op : Op} {out : Outcome}
    (h : r.apply ext op = some out) :
    (out.1.clusters = r.clusters ∧ out.1.binds = r.binds ∧
      (∀ s rt, r.servers.get? s = some rt →
        ∃ rt', out.1.servers.get? s = some rt' ∧ rt'.status = rt.status) ∧
      ((∀ e ∈ r.servers, e.2.meta.ID = e.1) → ∀ e ∈ out.1.servers, e.2.meta.ID = e.1)) ∨
    (∃ (id : Nat), out.1.clusters = r.clusters.mapValues (fun c => c.remove id) ∧
      out.1.binds = r.binds ∧ out.1.servers = r.servers.delete id) ∨
    (∃ (m : Cluster) (rt0 : clusterRuntime), (rt0.meta = m ∧ rt0.svrs = []) ∧
      out.1.clusters = r.clusters.set m.ID rt0 ∧
      r.clusters.get? m.ID = none ∧ out.1.binds = r.binds ∧ out.1.servers = r.servers) ∨
    (∃ (m : Cluster) (rt rt' : clusterRuntime), (rt'.meta = m ∧ rt'.svrs = rt.svrs) ∧
      out.1.clusters = r.clusters.set m.ID rt' ∧
      r.clusters.get? m.ID = some rt ∧ out.1.binds = r.binds ∧ out.1.servers = r.servers) ∨
    (∃ (id : Nat) (rt : clusterRuntime), out.1.clusters = r.clusters.delete rt.meta.ID ∧
      r.clusters.get? id = some rt ∧
      out.1.binds = r.binds.mapValues (fun cs => cs.filter (fun c => decide (c ≠ id))) ∧
      out.1.servers = r.servers) ∨
    (∃ (b : Bind) (server : serverRuntime) (cluster : clusterRuntime), r.servers.get? b.serverID = some server ∧
      r.clusters.get? b.clusterID = some cluster ∧
      out.1.servers = r.servers ∧
      (∀ s, (out.1.binds.get? s).getD []
        = if s = b.serverID then
            (if b.clusterID ∈ (r.binds.get? s).getD [] then (r.binds.get? s).getD []
             else b.clusterID :: (r.binds.get? s).getD [])
          else (r.binds.get? s).getD []) ∧
      out.1.clusters = (if server.status = Status.Up then
          r.clusters.set b.clusterID (cluster.add server.meta.ID) else r.clusters)) ∨
    (∃ (b : Bind) (cluster : clusterRuntime), r.clusters.get? b.clusterID = some cluster ∧
      out.1.servers = r.servers ∧
      (∀ s, (out.1.binds.get? s).getD []
        = if s = b.serverID then
            ((r.binds.get? s).getD []).filter (fun c => decide (c ≠ b.clusterID))
          else (r.binds.get? s).getD []) ∧
      out.1.clusters = r.clusters.set b.clusterID (cluster.remove b.serverID)) := by
  have same : ∀ r' : dispatcher, r'.clusters = r.clusters → r'.binds = r.binds →
      r'.servers = r.servers →
      (r'.clusters = r.clusters ∧ r'.binds = r.binds ∧
        (∀ s rt, r.servers.get? s = some rt →
          ∃ rt', r'.servers.get? s = some rt' ∧ rt'.status = rt.status) ∧
        ((∀ e ∈ r.servers, e.2.meta.ID = e.1) → ∀ e ∈ r'.servers, e.2.meta.ID = e.1)) := by
    intro r' h1 h2 h3
    refine ⟨h1, h2, ?_, ?_⟩
    · intro s rt hs; exact ⟨rt, by rw [h3]; exact hs, rfl⟩
    · intro hk; rw [h3]; exact hk
  have refreshed : ∀ (r0 r' : dispatcher), r0.refreshAllQPS = some r' →
      r0.clusters = r.clusters → r0.binds = r.binds → r0.servers = r.servers →
      (r'.clusters = r.clusters ∧ r'.binds = r.binds ∧
        (∀ s rt, r.servers.get? s = some rt →
          ∃ rt', r'.servers.get? s = some rt' ∧ rt'.status = rt.status) ∧
        ((∀ e ∈ r.servers, e.2.meta.ID = e.1) → ∀ e ∈ r'.servers, e.2.meta.ID = e.1)) := by
    intro r0 r' hr h1 h2 h3
    obtain ⟨g1, g2, g3⟩ := refreshAllQPS_some hr
    rw [h3] at g3
    refine ⟨g1.trans h1, g2.trans h2, ?_, ?_⟩
    · intro s rt hs
      have := GoMap.get?_mapValuesM g3 s
      rw [hs] at this
      simp only [Option.some_bind] at this
      obtain ⟨rt', hu⟩ := GoMap.mapValuesM_defined g3 (s, rt) (GoMap.get?_mem hs)
      simp only at hu
      rw [hu] at this
      exact ⟨rt', this, (updateMeta_some hu).1⟩
    · intro hk e' he'
      obtain ⟨e, he, h1, h2⟩ := GoMap.mem_mapValuesM g3 e' he'
      have := (updateMeta_some h2).2.1
      rw [this, refreshQPS_ID, hk e he, h1]
  cases op with
  | addRouting meta now =>
    refine Or.inl ?_
    simp only [dispatcher.apply, dispatcher.addRouting] at h
    split at h <;> cases h <;> exact same _ rfl rfl rfl
  | updateRouting meta =>
    refine Or.inl ?_
    simp only [dispatcher.apply, dispatcher.updateRouting] at h
    split at h <;> cases h <;> exact same _ rfl rfl rfl
  | removeRouting id =>
    refine Or.inl ?_
    simp only [dispatcher.apply, dispatcher.removeRouting] at h
    split at h <;> cases h <;> exact same _ rfl rfl rfl
  | addAPI api =>
    refine Or.inl ?_
    simp only [dispatcher.apply, dispatcher.addAPI] at h
    split at h
    · cases h; exact same _ rfl rfl rfl
    · split at h
      · cases h
      · cases h; exact same _ rfl rfl rfl
  | updateAPI api =>
    refine Or.inl ?_
    simp only [dispatcher.apply, dispatcher.updateAPI] at h
    split at h
    · cases h; exact same _ rfl rfl rfl
    · split at h
      · cases h
      · cases h; exact same _ rfl rfl rfl
  | removeAPI id =>
    refine Or.inl ?_
    simp only [dispatcher.apply, dispatcher.removeAPI] at h
    split at h <;> cases h <;> exact same _ rfl rfl rfl
  | addProxy meta =>
    refine Or.inl ?_
    simp only [dispatcher.apply, dispatcher.addProxy] at h
    split at h
    · cases h; exact same _ rfl rfl rfl
    · split at h
      · cases h
      · next r' hr =>
        cases h
        exact refreshed _ _ hr rfl rfl rfl
  | removeProxy addr =>
    refine Or.inl ?_
    simp only [dispatcher.apply, dispatcher.removeProxy] at h
    split at h
    · cases h; exact same _ rfl rfl rfl
    · split at h
      · cases h
      · next r' hr =>
        cases h
        exact refreshed _ _ hr rfl rfl rfl
  | addServer svr =>
    refine Or.inl ?_
    simp only [dispatcher.apply, dispatcher.addServer] at h
    split at h
    · cases h; exact same _ rfl rfl rfl
    · next hc =>
      split at h
      · cases h
      · next rt hrt =>
        cases h
        have hnone : r.servers.get? svr.ID = none :=
          GoMap.contains_false (by simpa using hc)
        have hm := newServerRuntime_some hrt
        refine ⟨?_, ?_, ?_, ?_⟩
        · simp only [dispatcher.addToCheck, addAnalysis_clusters]
        · simp only [dispatcher.addToCheck, addAnalysis_binds]
        · intro s srt hs
          simp only [dispatcher.addToCheck, addAnalysis_servers, refreshQPS_ID]
          rw [GoMap.get?_set]
          by_cases hid : s = svr.ID
          · rw [hid, hnone] at hs; cases hs
          · rw [if_neg hid]; exact ⟨srt, hs, rfl⟩
        · intro hk e he
          simp only [dispatcher.addToCheck, addAnalysis_servers, refreshQPS_ID] at he
          rcases GoMap.mem_set he with rfl | ⟨he, _⟩
          · simp only [hm.2, refreshQPS_ID]
          · exact hk e he
  | updateServer meta =>
    refine Or.inl ?_
    simp only [dispatcher.apply, dispatcher.updateServer] at h
    split at h
    · cases h; exact same _ rfl rfl rfl
    · next rt hg =>
      split at h
      · cases h
      · next rt' hrt =>
        cases h
        have hm := updateMeta_some hrt
        refine ⟨?_, ?_, ?_, ?_⟩
        · simp only [dispatcher.addToCheck, addAnalysis_clusters]
        · simp only [dispatcher.addToCheck, addAnalysis_binds]
        · intro s srt hs
          simp only [dispatcher.addToCheck, addAnalysis_servers, refreshQPS_ID]
          rw [GoMap.get?_set]
          by_cases hid : s = meta.ID
          · rw [if_pos hid]
            rw [hid, hg] at hs
            cases hs
            exact ⟨rt', rfl, hm.1⟩
          · rw [if_neg hid]; exact ⟨srt, hs, rfl⟩
        · intro hk e he
          simp only [dispatcher.addToCheck, addAnalysis_servers, refreshQPS_ID] at he
          rcases GoMap.mem_set he with rfl | ⟨he, _⟩
          · simp only [hm.2.1, refreshQPS_ID]
          · exact hk e he
  | removeServer id =>
    simp only [dispatcher.apply, dispatcher.removeServer] at h
    split at h
    · cases h; exact Or.inl (same _ rfl rfl rfl)
    · cases h; exact Or.inr (Or.inl ⟨id, rfl, rfl, rfl⟩)
  | addCluster cluster =>
    simp only [dispatcher.apply, dispatcher.addCluster] at h
    split at h
    · cases h; exact Or.inl (same _ rfl rfl rfl)
    · next hc =>
      split at h
      · cases h
      · next rt0 hrt0 =>
        cases h
        exact Or.inr (Or.inr (Or.inl ⟨cluster, rt0, newClusterRuntime_some hrt0, rfl,
          GoMap.contains_false (by simpa using hc), rfl, rfl⟩))
  | updateCluster meta =>
    simp only [dispatcher.apply, dispatcher.updateCluster] at h
    split at h
    · cases h; exact Or.inl (same _ rfl rfl rfl)
    · next rt hg =>
      split at h
      · cases h
      · next rt' hrt' =>
        cases h
        exact Or.inr (Or.inr (Or.inr (Or.inl
          ⟨meta, rt, rt', clusterUpdateMeta_some hrt', rfl, hg, rfl, rfl⟩)))
  | removeCluster id =>
    simp only [dispatcher.apply, dispatcher.removeCluster] at h
    split at h
    · cases h; exact Or.inl (same _ rfl rfl rfl)
    · next rt hg =>
      cases h
      exact Or.inr (Or.inr (Or.inr (Or.inr (Or.inl ⟨id, rt, rfl, hg, rfl, rfl⟩))))
  | addBind bind =>
    simp only [dispatcher.apply, dispatcher.addBind] at h
    split at h
    · cases h; exact Or.inl (same _ rfl rfl rfl)
    · next server hs =>
      split at h
      · cases h; exact Or.inl (same _ rfl rfl rfl)
      · next cluster hcl =>
        refine Or.inr (Or.inr (Or.inr (Or.inr (Or.inr (Or.inl
          ⟨bind, server, cluster, hs, hcl, ?_, ?_, ?_⟩)))))
        · split at h <;> cases h <;> rfl
        · intro s
          have key : ∀ (bs : GoMap Nat (List Nat)),
              bs = (if r.binds.contains bind.serverID = true then r.binds
                    else r.binds.set bind.serverID []) →
              (bs.get? bind.serverID).getD [] = (r.binds.get? bind.serverID).getD [] ∧
              ∀ s, s ≠ bind.serverID → bs.get? s = r.binds.get? s := by
            intro bs hbs
            cases hc : r.binds.contains bind.serverID with
            | true => rw [hc] at hbs; simp only [if_true] at hbs; subst hbs; exact ⟨rfl, fun _ _ => rfl⟩
            | false =>
              rw [hc] at hbs
              simp only [Bool.false_eq_true, if_false] at hbs
              subst hbs
              refine ⟨?_, ?_⟩
              · rw [GoMap.get?_set, if_pos rfl, GoMap.contains_false hc]; rfl
              · intro s hs; rw [GoMap.get?_set, if_neg hs]
          obtain ⟨k1, k2⟩ := key _ rfl
          have hb : out.1.binds = GoMap.set
              (if r.binds.contains bind.serverID = true then r.binds
                else r.binds.set bind.serverID []) bind.serverID
              (if bind.clusterID ∈ (GoMap.get?
                  (if r.binds.contains bind.serverID = true then r.binds
                    else r.binds.set bind.serverID []) bind.serverID).getD []
                then (GoMap.get?
                  (if r.binds.contains bind.serverID = true then r.binds
                    else r.binds.set bind.serverID []) bind.serverID).getD []
                else bind.clusterID :: (GoMap.get?
                  (if r.binds.contains bind.serverID = true then r.binds
                    else r.binds.set bind.serverID []) bind.serverID).getD []) := by
            split at h <;> cases h <;> rfl
          rw [hb, GoMap.get?_set]
          by_cases hsid : s = bind.serverID
          · rw [if_pos hsid, if_pos hsid, hsid, k1]; rfl
          · rw [if_neg hsid, if_neg hsid, k2 s hsid]
        · split at h
          · next hu => cases h; rw [if_pos hu]
          · next hu => cases h; rw [if_neg hu]
  | removeBind bind =>
    simp only [dispatcher.apply, dispatcher.removeBind] at h
    split at h
    · cases h; exact Or.inl (same _ rfl rfl rfl)
    · split at h
      · cases h; exact Or.inl (same _ rfl rfl rfl)
      · next cluster hcl =>
        refine Or.inr (Or.inr (Or.inr (Or.inr (Or.inr (Or.inr
          ⟨bind, cluster, hcl, ?_, ?_, ?_⟩)))))
        · split at h <;> cases h <;> rfl
        · intro s
          split at h
          · next hb =>
            cases h
            simp only at hb ⊢
            by_cases hsid : s = bind.serverID
            · rw [if_pos hsid, hsid, hb]; rfl
            · rw [if_neg hsid]
          · next clusters hb =>
            cases h
            simp only at hb ⊢
            rw [GoMap.get?_set]
            by_cases hsid : s = bind.serverID
            · rw [if_pos hsid, if_pos hsid, hsid, hb]; rfl
            · rw [if_neg hsid, if_neg hsid]
        · split at h <;> cases h <;> rfl

theorem clusterRuntime.add_meta (c : clusterRuntime) (id : Nat) : (c.add id).meta = c.meta := by
  unfold clusterRuntime.add; split <;> rfl

theorem clusterRuntime.mem_add {c : clusterRuntime} {id s : Nat} (h : s ∈ (c.add id).svrs) :
    s ∈ c.svrs ∨ s = id := by
  unfold clusterRuntime.add at h
  split at h
  · exact Or.inl h
  · rcases List.mem_append.mp h with h | h
    · exact Or.inl h
    · exact Or.inr (List.mem_singleton.mp h)

theorem clusterRuntime.nodup_add {c : clusterRuntime} (id : Nat) (h : c.svrs.Nodup) :
    (c.add id).svrs.Nodup := by
  unfold clusterRuntime.add
  split
  · exact h
  · next hn =>
    have : (c.svrs ++ [id]) = c.svrs.concat id := by simp
    simp only
    rw [this]
    exact List.Nodup.concat hn h

theorem clusterRuntime.nodup_remove {c : clusterRuntime} (id : Nat) (h : c.svrs.Nodup) :
    (c.remove id).svrs.Nodup :=
  List.Nodup.erase id h

theorem clusterRuntime.mem_remove {c : clusterRuntime} {id s : Nat} (hn : c.svrs.Nodup)
    (h : s ∈ (c.remove id).svrs) : s ≠ id ∧ s ∈ c.svrs :=
  (List.Nodup.mem_erase_iff hn).mp h

/-- Every mutation keeps cluster and server runtimes stored under their own ids. -/
theorem keyed_apply {ext : Externals} {r : dispatcher} {op : Op} {out : Outcome}
    (hk : r.keyed) (h : r.apply ext op = some out) : out.1.keyed := by
  obtain ⟨hkc, hks⟩ := hk
  rcases apply_shape h with ⟨h1, _, _, h4⟩ | ⟨id, h1, _, h3⟩ |
    ⟨m, rt0, ⟨hm0, _⟩, h1, _, _, h3⟩ | ⟨m, rt, rt', ⟨hm1, _⟩, h1, _, _, h3⟩ |
    ⟨id, rt, h1, _, _, h3⟩ | ⟨b, server, cluster, _, hg, h3, _, h1⟩ |
    ⟨b, cluster, hg, h3, _, h1⟩
  · exact ⟨by rw [h1]; exact hkc, h4 hks⟩
  · refine ⟨?_, ?_⟩
    · intro e' he'
      rw [h1] at he'
      obtain ⟨e, he, rfl⟩ := GoMap.mem_mapValues he'
      exact hkc e he
    · intro e he
      rw [h3] at he
      exact hks e (GoMap.mem_delete he).1
  · refine ⟨?_, by rw [h3]; exact hks⟩
    intro e he
    rw [h1] at he
    rcases GoMap.mem_set he with rfl | ⟨he, _⟩
    · show rt0.meta.ID = m.ID
      rw [hm0]
    · exact hkc e he
  · refine ⟨?_, by rw [h3]; exact hks⟩
    intro e he
    rw [h1] at he
    rcases GoMap.mem_set he with rfl | ⟨he, _⟩
    · show rt'.meta.ID = m.ID
      rw [hm1]
    · exact hkc e he
  · refine ⟨?_, by rw [h3]; exact hks⟩
    intro e he
    rw [h1] at he
    exact hkc e (GoMap.mem_delete he).1
  · refine ⟨?_, by rw [h3]; exact hks⟩
    intro e he
    rw [h1] at he
    split at he
    · rcases GoMap.mem_set he with rfl | ⟨he, _⟩
      · simp only [clusterRuntime.add_meta]
        exact hkc (b.clusterID, cluster) (GoMap.get?_mem hg)
      · exact hkc e he
    · exact hkc e he
  · refine ⟨?_, by rw [h3]; exact hks⟩
    intro e he
    rw [h1] at he
    rcases GoMap.mem_set he with rfl | ⟨he, _⟩
    · exact hkc (b.clusterID, cluster) (GoMap.get?_mem hg)
    · exact hkc e he

/-- Every mutation keeps the server sequences free of duplicates. -/
theorem noDuplicate_apply {ext : Externals} {r : dispatcher} {op : Op} {out : Outcome}
    (hn : r.noDuplicate) (h : r.apply ext op = some out) : out.1.noDuplicate := by
  unfold dispatcher.noDuplicate at hn ⊢
  rcases apply_shape h with ⟨h1, _, _, _⟩ | ⟨id, h1, _, _⟩ |
    ⟨m, rt0, ⟨_, hs0⟩, h1, _, _, _⟩ | ⟨m, rt, rt', ⟨_, hs1⟩, h1, hg, _, _⟩ |
    ⟨id, rt, h1, _, _, _⟩ | ⟨b, server, cluster, _, hg, _, _, h1⟩ |
    ⟨b, cluster, hg, _, _, h1⟩
  · rw [h1]; exact hn
  · intro e' he'
    rw [h1] at he'
    obtain ⟨e, he, rfl⟩ := GoMap.mem_mapValues he'
    exact clusterRuntime.nodup_remove id (hn e he)
  · intro e he
    rw [h1] at he
    rcases GoMap.mem_set he with rfl | ⟨he, _⟩
    · show rt0.svrs.Nodup
      rw [hs0]
      exact List.nodup_nil
    · exact hn e he
  · intro e he
    rw [h1] at he
    rcases GoMap.mem_set he with rfl | ⟨he, _⟩
    · show rt'.svrs.Nodup
      rw [hs1]
      exact hn (m.ID, rt) (GoMap.get?_mem hg)
    · exact hn e he
  · intro e he
    rw [h1] at he
    exact hn e (GoMap.mem_delete he).1
  · intro e he
    rw [h1] at he
    split at he
    · rcases GoMap.mem_set he with rfl | ⟨he, _⟩
      · exact clusterRuntime.nodup_add _ (hn (b.clusterID, cluster) (GoMap.get?_mem hg))
      · exact hn e he
    · exact hn e he
  · intro e he
    rw [h1] at he
    rcases GoMap.mem_set he with rfl | ⟨he, _⟩
    · exact clusterRuntime.nodup_remove _ (hn (b.clusterID, cluster) (GoMap.get?_mem hg))
    · exact hn e he

/-- C6: no server id occurs twice in a cluster's server sequence. The
sequence of a new cluster runtime has no duplicate, `clusterRuntime.add` and
`clusterRuntime.remove` keep a duplicate-free sequence duplicate-free, the
empty registry has the property and every registry mutation, returning an
error or not, keeps it; in particular so do two `addBind` calls in a row for
the same pair. -/
theorem C6_no_duplicate_server_ids :
    (∀ ext m rt, newClusterRuntime ext m = some rt → rt.svrs.Nodup) ∧
      (∀ (c : clusterRuntime) id, c.svrs.Nodup → (c.add id).svrs.Nodup) ∧
      (∀ (c : clusterRuntime) id, c.svrs.Nodup → (c.remove id).svrs.Nodup) ∧
      dispatcher.empty.noDuplicate ∧
      (∀ ext (r : dispatcher) op out, r.noDuplicate → r.apply ext op = some out →
        out.1.noDuplicate) ∧
      (∀ (r : dispatcher) b out out', r.noDuplicate → r.addBind b = some out →
        out.1.addBind b = some out' → out'.1.noDuplicate) := by
  refine ⟨fun ext m rt h => by rw [(newClusterRuntime_some h).2]; exact List.nodup_nil,
    fun c id h => clusterRuntime.nodup_add id h,
    fun c id h => clusterRuntime.nodup_remove id h, by decide,
    fun ext r op out hn h => noDuplicate_apply hn h, ?_⟩
  intro r b out out' hn h h'
  have e1 : r.apply plainExternals (Op.addBind b) = some out := h
  have e2 : out.1.apply plainExternals (Op.addBind b) = some out' := h'
  exact noDuplicate_apply (noDuplicate_apply hn e1) e2

theorem status_up_of_map {o : Option serverRuntime}
    (h : o.map (fun rt => rt.status) = some Status.Up) :
    ∃ rt, o = some rt ∧ rt.status = Status.Up := by
  cases o with
  | none => cases h
  | some rt => exact ⟨rt, rfl, Option.some.inj h⟩

/-- Every mutation keeps the sequences bound, in a registry that is keyed and
free of duplicates. -/
theorem sequencesBound_apply {ext : Externals} {r : dispatcher} {op : Op} {out : Outcome}
    (hk : r.keyed) (hn : r.noDuplicate) (hb : r.sequencesBound)
    (h : r.apply ext op = some out) : out.1.sequencesBound := by
  obtain ⟨hkc, hks⟩ := hk
  unfold dispatcher.noDuplicate at hn
  unfold dispatcher.sequencesBound at hb ⊢
  rcases apply_shape h with ⟨h1, h2, h3, _⟩ | ⟨id, h1, h2, h3⟩ |
    ⟨m, rt0, ⟨_, hs0⟩, h1, _, h2, h3⟩ | ⟨m, rt, rt', ⟨_, hs1⟩, h1, hg, h2, h3⟩ |
    ⟨id, rt, h1, hg, h2, h3⟩ |
    ⟨b, server, cluster, hsv, hg, h3, h2, h1⟩ | ⟨b, cluster, hg, h3, h2, h1⟩
  · intro e he s hs
    rw [h1] at he
    obtain ⟨g1, g2⟩ := hb e he s hs
    obtain ⟨rt, hrt, hup⟩ := status_up_of_map g2
    obtain ⟨rt', hrt', hst⟩ := h3 s rt hrt
    refine ⟨by rw [h2]; exact g1, ?_⟩
    rw [hrt']; simp only [Option.map_some', hst, hup]
  · intro e' he' s hs
    rw [h1] at he'
    obtain ⟨e, he, rfl⟩ := GoMap.mem_mapValues he'
    obtain ⟨hne, hmem⟩ := clusterRuntime.mem_remove (hn e he) hs
    obtain ⟨g1, g2⟩ := hb e he s hmem
    refine ⟨by rw [h2]; exact g1, ?_⟩
    rw [h3, GoMap.get?_delete, if_neg hne]; exact g2
  · intro e he s hs
    rw [h1] at he
    rw [h2, h3]
    rcases GoMap.mem_set he with rfl | ⟨he, _⟩
    · have hs' : s ∈ rt0.svrs := hs
      rw [hs0] at hs'
      cases hs'
    · exact hb e he s hs
  · intro e he s hs
    rw [h1] at he
    rw [h2, h3]
    rcases GoMap.mem_set he with rfl | ⟨he, _⟩
    · have hs' : s ∈ rt'.svrs := hs
      rw [hs1] at hs'
      exact hb (m.ID, rt) (GoMap.get?_mem hg) s hs'
    · exact hb e he s hs
  · intro e he s hs
    rw [h1] at he
    have hid : rt.meta.ID = id := hkc (id, rt) (GoMap.get?_mem hg)
    rw [hid] at he
    obtain ⟨he, hne⟩ := GoMap.mem_delete he
    obtain ⟨g1, g2⟩ := hb e he s hs
    refine ⟨?_, by rw [h3]; exact g2⟩
    rw [h2, GoMap.get?_mapValues]
    cases hbs : r.binds.get? s with
    | none => rw [hbs] at g1; cases g1
    | some cs =>
      rw [hbs] at g1
      simp only [Option.map_some', Option.getD_some] at g1 ⊢
      exact List.mem_filter.mpr ⟨g1, by simpa using hne⟩
  · have hsid : server.meta.ID = b.serverID := hks (b.serverID, server) (GoMap.get?_mem hsv)
    have grow : ∀ s c, c ∈ (r.binds.get? s).getD [] → c ∈ (out.1.binds.get? s).getD [] := by
      intro s c hc
      rw [h2 s]
      split
      · split
        · exact hc
        · exact List.mem_cons_of_mem _ hc
      · exact hc
    have fresh : b.clusterID ∈ (out.1.binds.get? b.serverID).getD [] := by
      rw [h2 b.serverID, if_pos rfl]
      split
      · assumption
      · exact List.mem_cons_self _ _
    intro e he s hs
    rw [h3]
    rw [h1] at he
    have old : e ∈ r.clusters → e.1 ∈ (out.1.binds.get? s).getD [] ∧
        (r.servers.get? s).map (fun rt => rt.status) = some Status.Up := by
      intro he
      obtain ⟨g1, g2⟩ := hb e he s hs
      exact ⟨grow s e.1 g1, g2⟩
    split at he
    · next hup =>
      rcases GoMap.mem_set he with rfl | ⟨he, _⟩
      · rcases clusterRuntime.mem_add hs with hs | hs
        · obtain ⟨g1, g2⟩ := hb (b.clusterID, cluster) (GoMap.get?_mem hg) s hs
          exact ⟨grow s b.clusterID g1, g2⟩
        · rw [hs, hsid]
          refine ⟨fresh, ?_⟩
          rw [hsv]; simp only [Option.map_some', hup]
      · exact old he
    · exact old he
  · have keep : ∀ s c, c ≠ b.clusterID → c ∈ (r.binds.get? s).getD [] →
        c ∈ (out.1.binds.get? s).getD [] := by
      intro s c hc hm
      rw [h2 s]
      split
      · exact List.mem_filter.mpr ⟨hm, by simpa using hc⟩
      · exact hm
    intro e he s hs
    rw [h3]
    rw [h1] at he
    rcases GoMap.mem_set he with rfl | ⟨he, hne⟩
    · obtain ⟨hsne, hmem⟩ :=
        clusterRuntime.mem_remove (hn (b.clusterID, cluster) (GoMap.get?_mem hg)) hs
      obtain ⟨g1, g2⟩ := hb (b.clusterID, cluster) (GoMap.get?_mem hg) s hmem
      refine ⟨?_, g2⟩
      rw [h2 s, if_neg hsne]; exact g1
    · obtain ⟨g1, g2⟩ := hb e he s hs
      exact ⟨keep s e.1 hne g1, g2⟩

/-- C5: the predicate "a server id in the sequence of cluster `c` has `c`
recorded in `binds` and is a registered server whose status is Up" holds in
the empty registry, and every registry mutation, whether it returns an error
or not, leads from a registry satisfying it to one satisfying it. The
registry mutated is one whose runtimes are stored under their own ids and
whose sequences have no duplicate, which the empty registry is and which
every mutation keeps as well. -/
theorem C5_sequences_bound_invariant :
    (dispatcher.empty.keyed ∧ dispatcher.empty.noDuplicate ∧
        dispatcher.empty.sequencesBound) ∧
      ∀ ext (r : dispatcher) op out, r.keyed → r.noDuplicate → r.sequencesBound →
        r.apply ext op = some out →
        out.1.keyed ∧ out.1.noDuplicate ∧ out.1.sequencesBound := by
  refine ⟨by decide, ?_⟩
  intro ext r op out hk hn hb h
  exact ⟨keyed_apply hk h, noDuplicate_apply hn h, sequencesBound_apply hk hn hb h⟩

theorem C5_sequences_bound_invariant_witness :
    boundRegistry.keyed ∧ boundRegistry.noDuplicate ∧ boundRegistry.sequencesBound ∧
      boundRegistry.apply plainExternals (Op.removeBind ⟨7, 1⟩)
        = some ({ upRegistry with binds := [(1, [])] }, none) ∧
      (({ upRegistry with binds := [(1, [])] }, none) : Outcome).1.keyed ∧
      (({ upRegistry with binds := [(1, [])] }, none) : Outcome).1.noDuplicate ∧
      (({ upRegistry with binds := [(1, [])] }, none) : Outcome).1.sequencesBound :=
  ⟨by decide, by decide, by decide, by decide,
    C5_sequences_bound_invariant.2 plainExternals boundRegistry (Op.removeBind ⟨7, 1⟩)
      ({ upRegistry with binds := [(1, [])] }, none)
      (by decide) (by decide) (by decide) (by decide)⟩

theorem C6_no_duplicate_server_ids_witness :
    upRegistry.noDuplicate ∧
      upRegistry.addBind ⟨7, 1⟩ = some (boundRegistry, none) ∧
      boundRegistry.addBind ⟨7, 1⟩ = some (boundRegistry, none) ∧
      (boundRegistry.clusters.get? 7).map (fun c => c.svrs) = some [1] ∧
      ((boundRegistry, none) : Outcome).1.noDuplicate :=
  ⟨by decide, by decide, by decide, by decide,
    C6_no_duplicate_server_ids.2.2.2.2.2 upRegistry ⟨7, 1⟩ (boundRegistry, none)
      (boundRegistry, none) (by decide) (by decide) (by decide)⟩

end Invariants

section Matching

theorem init_some {ext : Externals} {a0 a : apiRuntime} (h : apiRuntime.init ext a0 = some a) :
    a.meta = a0.meta ∧
      a.urlPattern = (if a0.meta.urlPattern ≠ "" then some { expr := a0.meta.urlPattern }
                      else a0.urlPattern) ∧
      a.parsedWhitelist = (match a0.meta.ipAccessControl with
        | none => []
        | some acl => acl.whitelist.map parseFrom) ∧
      a.parsedBlacklist = (match a0.meta.ipAccessControl with
        | none => []
        | some acl => acl.blacklist.map parseFrom) := by
  unfold apiRuntime.init at h
  simp only [mustCompile] at h
  cases hn : mapOpt (initNode ext) a0.meta.nodes with
  | none =>
    by_cases hp : a0.meta.urlPattern = "" <;>
      by_cases hv : ext.regexValid a0.meta.urlPattern = true <;>
      simp [hp, hv, hn] at h
  | some nodes =>
    by_cases hp : a0.meta.urlPattern = "" <;>
      by_cases hv : ext.regexValid a0.meta.urlPattern = true <;>
      simp [hp, hv, hn] at h <;>
      (subst h; simp [hp])

/-- C11: for an API runtime left by `init` (construction or update) whose URL
pattern is non-empty, `matches` returns, and returns true exactly when the
status is Up and either the domain is non-empty and equals the Host, or the
method is `*` or equals the upper-cased request method and the request URI
matches the pattern. A Down API matches nothing; with method `GET`, a Host
other than the domain and a URI that matches, a GET matches and a POST does
not (scenario S3). -/
theorem C11_api_matches (ext : Externals) (a0 a : apiRuntime) (req : Request)
    (hinit : apiRuntime.init ext a0 = some a) (hpat : a.meta.urlPattern ≠ "") :
    a.matches ext req = some (decide (a.meta.status = Status.Up ∧
        ((a.meta.domain ≠ "" ∧ req.host = a.meta.domain) ∨
          ((a.meta.method = "*" ∨ ext.toUpper req.method = a.meta.method) ∧
            ext.regexMatch a.meta.urlPattern req.requestURI = true)))) ∧
      (a.meta.status = Status.Down → a.matches ext req = some false) ∧
      (a.meta.status = Status.Up → a.meta.method = "GET" → req.host ≠ a.meta.domain →
        ext.regexMatch a.meta.urlPattern req.requestURI = true →
        (ext.toUpper req.method = "GET" → a.matches ext req = some true) ∧
        (ext.toUpper req.method = "POST" → a.matches ext req = some false)) := by
  obtain ⟨hm, hu, _, _⟩ := init_some hinit
  rw [← hm] at hu
  rw [if_pos hpat] at hu
  have main : a.matches ext req = some (decide (a.meta.status = Status.Up ∧
        ((a.meta.domain ≠ "" ∧ req.host = a.meta.domain) ∨
          ((a.meta.method = "*" ∨ ext.toUpper req.method = a.meta.method) ∧
            ext.regexMatch a.meta.urlPattern req.requestURI = true)))) := by
    unfold apiRuntime.matches apiRuntime.isUp apiRuntime.isDomainMatches
      apiRuntime.isMethodMatches apiRuntime.isURIMatches
    rw [hu]
    by_cases h1 : a.meta.status = Status.Up <;>
      by_cases h2 : a.meta.domain = "" <;>
      by_cases h3 : req.host = a.meta.domain <;>
      by_cases h4 : a.meta.method = "*" <;>
      by_cases h5 : ext.toUpper req.method = a.meta.method <;>
      cases h6 : ext.regexMatch a.meta.urlPattern req.requestURI <;>
      simp [h1, h2, h3, h4, h5, h6]
  refine ⟨main, ?_, ?_⟩
  · intro hd
    rw [main]
    simp [hd]
  · intro hup hget hhost hre
    refine ⟨?_, ?_⟩
    · intro hmeth
      rw [main]
      simp [hup, hget, hhost, hre, hmeth]
    · intro hmeth
      rw [main]
      simp [hup, hget, hhost, hre, hmeth]

theorem C11_api_matches_witness :
    apiRuntime.init plainExternals
        { meta := usersAPI, nodes := [], urlPattern := none, defaultCookies := [],
          parsedWhitelist := [], parsedBlacklist := [] }
      = some { meta := usersAPI, nodes := [],
               urlPattern := some { expr := "^/users/(\\d+)$" }, defaultCookies := [],
               parsedWhitelist := [], parsedBlacklist := [] } ∧
      apiRuntime.matches plainExternals
        { meta := usersAPI, nodes := [],
          urlPattern := some { expr := "^/users/(\\d+)$" }, defaultCookies := [],
          parsedWhitelist := [], parsedBlacklist := [] }
        (requestOf "GET" "other.com" "/users/42") = some true ∧
      apiRuntime.matches plainExternals
        { meta := usersAPI, nodes := [],
          urlPattern := some { expr := "^/users/(\\d+)$" }, defaultCookies := [],
          parsedWhitelist := [], parsedBlacklist := [] }
        (requestOf "POST" "other.com" "/users/42") = some false :=
  ⟨by decide,
    ((C11_api_matches plainExternals
      { meta := usersAPI, nodes := [], urlPattern := none, defaultCookies := [],
        parsedWhitelist := [], parsedBlacklist := [] }
      { meta := usersAPI, nodes := [],
        urlPattern := some { expr := "^/users/(\\d+)$" }, defaultCookies := [],
        parsedWhitelist := [], parsedBlacklist := [] }
      (requestOf "GET" "other.com" "/users/42") (by decide) (by decide)).2.2
        (by decide) (by decide) (by decide) (by decide)).1 (by decide),
    ((C11_api_matches plainExternals
      { meta := usersAPI, nodes := [], urlPattern := none, defaultCookies := [],
        parsedWhitelist := [], parsedBlacklist := [] }
      { meta := usersAPI, nodes := [],
        urlPattern := some { expr := "^/users/(\\d+)$" }, defaultCookies := [],
        parsedWhitelist := [], parsedBlacklist := [] }
      (requestOf "POST" "other.com" "/users/42") (by decide) (by decide)).2.2
        (by decide) (by decide) (by decide) (by decide)).2 (by decide)⟩

/-- C19 (as the code behaves): an API runtime built with an empty URL pattern
has no compiled pattern; on a request whose Host is not the API's domain and
whose method matches, `matches` reaches `a.urlPattern.Match` on the nil
pattern and panics instead of returning false. It returns true when the Host
is the domain, and false when the method does not match. -/
theorem C19_matches_dereferences_nil_pattern :
    (newAPIRuntime plainExternals domainOnlyAPI).map (fun a => a.urlPattern) = some none ∧
      (newAPIRuntime plainExternals domainOnlyAPI).map
        (fun a => a.matches plainExternals (requestOf "GET" "other.com" "/users/42"))
          = some none ∧
      (newAPIRuntime plainExternals domainOnlyAPI).map
        (fun a => a.matches plainExternals (requestOf "GET" "api.example.com" "/users/42"))
          = some (some true) ∧
      (newAPIRuntime plainExternals domainOnlyAPI).map
        (fun a => a.matches plainExternals (requestOf "POST" "other.com" "/users/42"))
          = some (some false) := by
  decide

/-- C20 (as the code behaves): `init` compiles the URL pattern only when the
new expression is non-empty, so after `updateMeta` with an empty pattern the
runtime keeps the pattern compiled before, where `newAPIRuntime` on the same
metadata has none; `matches` then answers from the old pattern on the updated
runtime and panics on the fresh one. -/
theorem C20_updateMeta_keeps_old_pattern :
    ((newAPIRuntime plainExternals usersAPI).bind
        (fun a => a.updateMeta plainExternals domainOnlyAPI)).map (fun a => a.urlPattern)
      = some (some { expr := "^/users/(\\d+)$" }) ∧
      (newAPIRuntime plainExternals domainOnlyAPI).map (fun a => a.urlPattern) = some none ∧
      ((newAPIRuntime plainExternals usersAPI).bind
        (fun a => a.updateMeta plainExternals domainOnlyAPI)).map
        (fun a => a.matches plainExternals (requestOf "GET" "other.com" "/users/42"))
          = some (some true) ∧
      (newAPIRuntime plainExternals domainOnlyAPI).map
        (fun a => a.matches plainExternals (requestOf "GET" "other.com" "/users/42"))
          = some none := by
  decide

theorem matchesFrom_eq (tmp : List String) (pat : List String) (index : Nat)
    (h : index + pat.length ≤ tmp.length) :
    ipSegment.matchesFrom tmp pat index = some (specSegmentMatches pat (tmp.drop index)) := by
  induction pat generalizing index with
  | nil => simp [ipSegment.matchesFrom, specSegmentMatches]
  | cons v vs ih =>
    have hlt : index < tmp.length := by simp only [List.length_cons] at h; omega
    have hdrop : tmp.drop index = tmp[index] :: tmp.drop (index + 1) :=
      List.drop_eq_getElem_cons hlt
    have hget : tmp.get? index = some tmp[index] := by
      simp only [List.get?_eq_getElem?]; exact List.getElem?_eq_getElem hlt
    have hrec := ih (index + 1) (by simp only [List.length_cons] at h; omega)
    unfold ipSegment.matchesFrom
    rw [hdrop, hget]
    generalize tmp.drop (index + 1) = rest at hrec
    generalize tmp[index] = t
    by_cases hv : v = "*"
    · rw [if_pos hv, hrec]
      simp [specSegmentMatches, hv]
    · rw [if_neg hv]
      by_cases ht : v = t
      · simp only [ne_eq, ht, not_true_eq_false, if_false]
        rw [hrec]
        simp [specSegmentMatches]
      · simp only [ne_eq, ht, not_false_eq_true, if_true]
        simp [specSegmentMatches, hv, ht]

theorem anySegmentMatches_eq (ip : String) (pats : List String)
    (h : ∀ p ∈ pats, (stringsSplit p '.').length ≤ (stringsSplit ip '.').length) :
    anySegmentMatches ip (pats.map parseFrom)
      = some (pats.any (fun p =>
          specSegmentMatches (stringsSplit p '.') (stringsSplit ip '.'))) := by
  induction pats with
  | nil => rfl
  | cons p ps ih =>
    have hp := h p (List.mem_cons_self _ _)
    have hps := ih (fun q hq => h q (List.mem_cons_of_mem _ hq))
    have hm : (parseFrom p).matches ip
        = some (specSegmentMatches (stringsSplit p '.') (stringsSplit ip '.')) := by
      unfold ipSegment.matches parseFrom
      rw [matchesFrom_eq _ _ 0 (by simpa using hp)]
      simp
    simp only [List.map_cons, anySegmentMatches, hm, List.any_cons]
    cases hb : specSegmentMatches (stringsSplit p '.') (stringsSplit ip '.')
    · simp only [Bool.false_or]; exact hps
    · simp

/-- C12: for an API runtime left by `init` with IP access control configured,
an ip of four dot-separated tokens and patterns of four tokens each,
`allowWithBlacklist` is true exactly when no blacklist pattern matches the ip
and `allowWithWhitelist` exactly when the whitelist is empty or some pattern
of it matches, a match being: at every position the pattern token is `*` or
equals the ip token. With whitelist `10.0.*.*` and blacklist `10.0.5.*`,
`10.0.3.7` passes both, `10.0.5.7` fails the blacklist and `11.0.0.1` fails
the whitelist (scenario S4). -/
theorem C12_ip_access_control (ext : Externals) (a0 a : apiRuntime) (acl : IPAccessControl)
    (ip : String) (hinit : apiRuntime.init ext a0 = some a)
    (hacl : a.meta.ipAccessControl = some acl)
    (hip : (stringsSplit ip '.').length = 4)
    (hw : ∀ p ∈ acl.whitelist, (stringsSplit p '.').length = 4)
    (hb : ∀ p ∈ acl.blacklist, (stringsSplit p '.').length = 4) :
    a.allowWithBlacklist ip = some (decide (∀ p ∈ acl.blacklist,
        specSegmentMatches (stringsSplit p '.') (stringsSplit ip '.') = false)) ∧
      a.allowWithWhitelist ip = some (decide (acl.whitelist = [] ∨ ∃ p ∈ acl.whitelist,
        specSegmentMatches (stringsSplit p '.') (stringsSplit ip '.') = true)) ∧
      (newAPIRuntime plainExternals aclAPI).bind
          (fun rt => rt.allowWithWhitelist "10.0.3.7") = some true ∧
      (newAPIRuntime plainExternals aclAPI).bind
          (fun rt => rt.allowWithBlacklist "10.0.3.7") = some true ∧
      (newAPIRuntime plainExternals aclAPI).bind
          (fun rt => rt.allowWithBlacklist "10.0.5.7") = some false ∧
      (newAPIRuntime plainExternals aclAPI).bind
          (fun rt => rt.allowWithWhitelist "11.0.0.1") = some false := by
  obtain ⟨hm, _, hwl, hbl⟩ := init_some hinit
  rw [← hm, hacl] at hwl hbl
  simp only at hwl hbl
  refine ⟨?_, ?_, by decide, by decide, by decide, by decide⟩
  · unfold apiRuntime.allowWithBlacklist
    rw [hacl, hbl]
    simp only
    rw [anySegmentMatches_eq ip acl.blacklist (fun p hp => by rw [hb p hp, hip])]
    simp only [Option.map_some', Option.some.injEq]
    rw [Bool.eq_iff_iff]
    simp
  · unfold apiRuntime.allowWithWhitelist
    rw [hacl, hwl]
    simp only
    by_cases he : acl.whitelist = []
    · simp [he]
    · have hl : ¬ acl.whitelist.length = 0 := fun h => he (List.length_eq_zero.mp h)
      rw [if_neg hl, anySegmentMatches_eq ip acl.whitelist (fun p hp => by rw [hw p hp, hip])]
      simp only [Option.some.injEq]
      rw [Bool.eq_iff_iff]
      simp [he]

theorem C12_ip_access_control_witness :
    (apiRuntime.init plainExternals
        { meta := aclAPI, nodes := [], urlPattern := none, defaultCookies := [],
          parsedWhitelist := [], parsedBlacklist := [] }).isSome = true ∧
      (stringsSplit "10.0.5.7" '.').length = 4 ∧
      apiRuntime.allowWithBlacklist
        { meta := aclAPI, nodes := [], urlPattern := some { expr := "^/users/(\\d+)$" },
          defaultCookies := [], parsedWhitelist := [parseFrom "10.0.*.*"],
          parsedBlacklist := [parseFrom "10.0.5.*"] } "10.0.5.7"
        = some (decide (∀ p ∈ ["10.0.5.*"],
            specSegmentMatches (stringsSplit p '.') (stringsSplit "10.0.5.7" '.') = false)) :=
  ⟨by decide, by decide,
    (C12_ip_access_control plainExternals
      { meta := aclAPI, nodes := [], urlPattern := none, defaultCookies := [],
        parsedWhitelist := [], parsedBlacklist := [] }
      { meta := aclAPI, nodes := [], urlPattern := some { expr := "^/users/(\\d+)$" },
        defaultCookies := [], parsedWhitelist := [parseFrom "10.0.*.*"],
        parsedBlacklist := [parseFrom "10.0.5.*"] }
      { whitelist := ["10.0.*.*"], blacklist := ["10.0.5.*"] } "10.0.5.7"
      (by decide) (by decide) (by decide) (by decide) (by decide)).1⟩

/-- C13: each of `lt`, `le`, `gt`, `ge` is false when either string fails
`strconv.Atoi` and is otherwise the comparison of the two parsed integers;
`lt` and `ge` are never both true, and exactly one of them is true exactly
when both strings parse. -/
theorem C13_integer_comparators (actual expect : String) :
    lt actual expect = (match atoi actual, atoi expect with
      | some s, some t => decide (s < t)
      | _, _ => false) ∧
    le actual expect = (match atoi actual, atoi expect with
      | some s, some t => decide (s ≤ t)
      | _, _ => false) ∧
    gt actual expect = (match atoi actual, atoi expect with
      | some s, some t => decide (s > t)
      | _, _ => false) ∧
    ge actual expect = (match atoi actual, atoi expect with
      | some s, some t => decide (s ≥ t)
      | _, _ => false) ∧
    ¬ (lt actual expect = true ∧ ge actual expect = true) ∧
    (xor (lt actual expect) (ge actual expect) = true
      ↔ (atoi actual).isSome = true ∧ (atoi expect).isSome = true) ∧
    lt "9" "10" = true ∧ lt "10" "9" = false ∧ ge "-3" "-3" = true ∧
    lt "9" "ten" = false ∧ ge "9" "ten" = false ∧ lt "" "1" = false := by
  refine ⟨?_, ?_, ?_, ?_, ?_, ?_, by decide, by decide, by decide, by decide, by decide,
    by decide⟩
  · unfold lt; cases atoi actual <;> cases atoi expect <;> rfl
  · unfold le; cases atoi actual <;> cases atoi expect <;> rfl
  · unfold gt; cases atoi actual <;> cases atoi expect <;> rfl
  · unfold ge; cases atoi actual <;> cases atoi expect <;> rfl
  · unfold lt ge
    cases atoi actual <;> cases atoi expect <;> simp
  · unfold lt ge
    cases atoi actual <;> cases atoi expect <;> simp
    omega

/-- C14: when the extracted parameter value is the empty string,
`conditionsMatches` returns false whatever the comparator and the expected
value; and when a value is extracted and the comparator is none of the seven
defined ones, it returns false as well. -/
theorem C14_empty_value_fails (ext : Externals) (cond : Condition) (req : Request) :
    (paramValue ext cond.parameter req = some "" →
      conditionsMatches ext cond req = some false) ∧
    (∀ v, paramValue ext cond.parameter req = some v →
      cond.cmp ≠ CMPEQ → cond.cmp ≠ CMPLT → cond.cmp ≠ CMPLE → cond.cmp ≠ CMPGT →
      cond.cmp ≠ CMPGE → cond.cmp ≠ CMPIn → cond.cmp ≠ CMPMatch →
      conditionsMatches ext cond req = some false) := by
  refine ⟨?_, ?_⟩
  · intro h
    unfold conditionsMatches
    rw [h]
    simp
  · intro v h h0 h1 h2 h3 h4 h5 h6
    unfold conditionsMatches
    rw [h]
    simp [h0, h1, h2, h3, h4, h5, h6]

theorem C14_empty_value_fails_witness :
    paramValue plainExternals { name := "X-Tenant", source := Header, index := 0 }
        (requestOf "GET" "api.example.com" "/users/42") = some "" ∧
      conditionsMatches plainExternals
        { parameter := { name := "X-Tenant", source := Header, index := 0 },
          cmp := CMPEQ, expect := "" }
        (requestOf "GET" "api.example.com" "/users/42") = some false ∧
      conditionsMatches plainExternals
        { parameter := { name := "X-Tenant", source := Header, index := 0 },
          cmp := CMPIn, expect := "gold" }
        (requestOf "GET" "api.example.com" "/users/42") = some false ∧
      conditionsMatches plainExternals
        { parameter := { name := "X-Tenant", source := Header, index := 0 },
          cmp := 9, expect := "gold" }
        { requestOf "GET" "api.example.com" "/users/42" with
            headers := fun _ => "gold" } = some false :=
  ⟨by decide,
    (C14_empty_value_fails plainExternals
      { parameter := { name := "X-Tenant", source := Header, index := 0 },
        cmp := CMPEQ, expect := "" }
      (requestOf "GET" "api.example.com" "/users/42")).1 (by decide),
    (C14_empty_value_fails plainExternals
      { parameter := { name := "X-Tenant", source := Header, index := 0 },
        cmp := CMPIn, expect := "gold" }
      (requestOf "GET" "api.example.com" "/users/42")).1 (by decide),
    (C14_empty_value_fails plainExternals
      { parameter := { name := "X-Tenant", source := Header, index := 0 },
        cmp := 9, expect := "gold" }
      { requestOf "GET" "api.example.com" "/users/42" with
          headers := fun _ => "gold" }).2 "gold" (by decide)
      (by decide) (by decide) (by decide) (by decide) (by decide) (by decide) (by decide)⟩

theorem allConditionsMatch_true (ext : Externals) (req : Request) (cs : List Condition) :
    allConditionsMatch ext req cs = some true
      ↔ ∀ c ∈ cs, conditionsMatches ext c req = some true := by
  induction cs with
  | nil => simp [allConditionsMatch]
  | cons c cs ih =>
    unfold allConditionsMatch
    cases hc : conditionsMatches ext c req with
    | none => simp [hc]
    | some b =>
      cases b
      · simp [hc]
      · simp only [List.mem_cons, forall_eq_or_imp, hc, true_and]
        exact ih

theorem allConditionsMatch_defined (ext : Externals) (req : Request) (cs : List Condition)
    (h : ∀ c ∈ cs, ∃ b, conditionsMatches ext c req = some b) :
    allConditionsMatch ext req cs
      = some (decide (∀ c ∈ cs, conditionsMatches ext c req = some true)) := by
  induction cs with
  | nil => simp [allConditionsMatch]
  | cons c cs ih =>
    obtain ⟨b, hb⟩ := h c (List.mem_cons_self _ _)
    have hrest := ih (fun q hq => h q (List.mem_cons_of_mem _ hq))
    unfold allConditionsMatch
    rw [hb]
    cases b
    · simp [hb]
    · simp only [hrest, Option.some.injEq]
      rw [Bool.eq_iff_iff]
      simp [hb]

/-- C15: for a draw `n`, `routingRuntime.matches` returns true exactly when
the routing's API filter is 0 or equals the API id, every condition passes
and `n < trafficRate`; when every condition is evaluated without panic it
returns that truth value. With `trafficRate = 0` no draw `n ≥ 0` makes it
true; with `trafficRate ≥ 100` every draw `n < 100` does once the filter and
the conditions pass. -/
theorem C15_routing_matches (ext : Externals) (a : routingRuntime) (apiID : Nat)
    (req : Request) (n : Int) :
    (a.matches ext apiID req n = some true ↔
      ((a.meta.API = 0 ∨ apiID = a.meta.API) ∧
        (∀ c ∈ a.meta.conditions, conditionsMatches ext c req = some true) ∧
        n < a.meta.trafficRate)) ∧
    ((∀ c ∈ a.meta.conditions, ∃ b, conditionsMatches ext c req = some b) →
      a.matches ext apiID req n = some (decide ((a.meta.API = 0 ∨ apiID = a.meta.API) ∧
        (∀ c ∈ a.meta.conditions, conditionsMatches ext c req = some true) ∧
        n < a.meta.trafficRate))) ∧
    (a.meta.trafficRate = 0 → 0 ≤ n → a.matches ext apiID req n ≠ some true) ∧
    (100 ≤ a.meta.trafficRate → n < 100 → (a.meta.API = 0 ∨ apiID = a.meta.API) →
      (∀ c ∈ a.meta.conditions, conditionsMatches ext c req = some true) →
      a.matches ext apiID req n = some true) := by
  have hfilter : (a.meta.API > 0 ∧ apiID ≠ a.meta.API) ↔
      ¬ (a.meta.API = 0 ∨ apiID = a.meta.API) := by
    constructor
    · rintro ⟨h1, h2⟩ (h | h)
      · omega
      · exact h2 h
    · intro h
      refine ⟨?_, fun h' => h (Or.inr h')⟩
      rcases Nat.eq_zero_or_pos a.meta.API with h0 | h0
      · exact absurd (Or.inl h0) h
      · exact h0
  have main : a.matches ext apiID req n = some true ↔
      ((a.meta.API = 0 ∨ apiID = a.meta.API) ∧
        (∀ c ∈ a.meta.conditions, conditionsMatches ext c req = some true) ∧
        n < a.meta.trafficRate) := by
    unfold routingRuntime.matches
    by_cases hf : (a.meta.API = 0 ∨ apiID = a.meta.API)
    · rw [if_neg (fun h => (hfilter.mp h) hf)]
      rw [← allConditionsMatch_true]
      cases hc : allConditionsMatch ext req a.meta.conditions with
      | none => simp
      | some b => cases b <;> simp [hf]
    · rw [if_pos (hfilter.mpr hf)]
      simp [hf]
  refine ⟨main, ?_, ?_, ?_⟩
  · intro hdef
    unfold routingRuntime.matches
    by_cases hf : (a.meta.API = 0 ∨ apiID = a.meta.API)
    · rw [if_neg (fun h => (hfilter.mp h) hf), allConditionsMatch_defined ext req _ hdef]
      by_cases hall : ∀ c ∈ a.meta.conditions, conditionsMatches ext c req = some true
      · rw [decide_eq_true hall]
        show some (decide (n < a.meta.trafficRate)) = _
        congr 1
        rw [Bool.eq_iff_iff]
        simp only [decide_eq_true_eq]
        exact ⟨fun h => ⟨hf, hall, h⟩, fun h => h.2.2⟩
      · rw [decide_eq_false hall]
        show some false = _
        congr 1
        exact (decide_eq_false (fun h => hall h.2.1)).symm
    · rw [if_pos (hfilter.mpr hf)]
      simp [hf]
  · intro h0 hn hm
    have := (main.mp hm).2.2
    omega
  · intro h100 hn hf hall
    exact main.mpr ⟨hf, hall, by omega⟩

theorem C15_routing_matches_witness :
    (∀ c ∈ ([{ parameter := { name := "X-Tenant", source := Header, index := 0 },
               cmp := CMPEQ, expect := "gold" }] : List Condition),
        ∃ b, conditionsMatches plainExternals c
          { requestOf "GET" "api.example.com" "/users/42" with
              headers := fun _ => "gold" } = some b) ∧
      routingRuntime.matches plainExternals
        { meta := { ID := 1, API := 0,
                    conditions := [{ parameter := { name := "X-Tenant", source := Header,
                                                    index := 0 },
                                     cmp := CMPEQ, expect := "gold" }],
                    trafficRate := 30 },
          rand := 0 } 1
        { requestOf "GET" "api.example.com" "/users/42" with headers := fun _ => "gold" } 29
        = some (decide (((0 : Nat) = 0 ∨ 1 = 0) ∧
            (∀ c ∈ ([{ parameter := { name := "X-Tenant", source := Header, index := 0 },
                       cmp := CMPEQ, expect := "gold" }] : List Condition),
              conditionsMatches plainExternals c
                { requestOf "GET" "api.example.com" "/users/42" with
                    headers := fun _ => "gold" } = some true) ∧
            (29 : Int) < 30)) :=
  ⟨by decide,
    (C15_routing_matches plainExternals
      { meta := { ID := 1, API := 0,
                  conditions := [{ parameter := { name := "X-Tenant", source := Header,
                                                  index := 0 },
                                   cmp := CMPEQ, expect := "gold" }],
                  trafficRate := 30 },
        rand := 0 } 1
      { requestOf "GET" "api.example.com" "/users/42" with headers := fun _ => "gold" }
      29).2.1 (by decide)⟩

end Matching

section Errors

/-- C16: `addBind` returns the server-not-found error when the server is not
registered, else the cluster-not-found error when the cluster is not, and
leaves the registry as it was in both cases. Otherwise it returns no error and
records the cluster in `binds` of the server; servers and every other cluster
are untouched; the sequence of the cluster is unchanged unless the server is
Up, in which case the server id is appended at the end unless it is there
already. Binding a newly added server, which is Down, leaves the sequence
empty (scenario S2). -/
theorem C16_addBind (r : dispatcher) (b : Bind) :
    (r.servers.get? b.serverID = none →
      r.addBind b = some (r, some Err.errServerNotFound)) ∧
    (∀ server, r.servers.get? b.serverID = some server →
      r.clusters.get? b.clusterID = none →
      r.addBind b = some (r, some Err.errClusterNotFound)) ∧
    (∀ server cluster, r.servers.get? b.serverID = some server →
      r.clusters.get? b.clusterID = some cluster →
      ∃ r', r.addBind b = some (r', none) ∧
        b.clusterID ∈ (r'.binds.get? b.serverID).getD [] ∧
        r'.servers = r.servers ∧
        (∀ c, c ≠ b.clusterID → r'.clusters.get? c = r.clusters.get? c) ∧
        (server.status ≠ Status.Up → r'.clusters = r.clusters) ∧
        (server.status = Status.Up → r.keyed →
          r'.clusters.get? b.clusterID
            = some { cluster with
                svrs := if b.serverID ∈ cluster.svrs then cluster.svrs
                        else cluster.svrs ++ [b.serverID] })) ∧
    (dispatcher.run plainExternals dispatcher.empty
        [Op.addCluster ⟨1, 0⟩, Op.addServer (serverOf 1 1000), Op.addBind ⟨1, 1⟩]).bind
      (fun r => (r.clusters.get? 1).map (fun c => c.svrs)) = some [] ∧
    (dispatcher.run plainExternals dispatcher.empty
        [Op.addCluster ⟨1, 0⟩, Op.addServer (serverOf 1 1000), Op.addBind ⟨1, 1⟩]).bind
      (fun r => r.binds.get? 1) = some [1] := by
  refine ⟨?_, ?_, ?_, by decide, by decide⟩
  · intro h
    unfold dispatcher.addBind
    rw [h]
  · intro server hs hc
    unfold dispatcher.addBind
    rw [hs, hc]
  · intro server cluster hs hc
    have hB : ∀ (bs : GoMap Nat (List Nat)) (X : List Nat),
        b.clusterID ∈ ((bs.set b.serverID
          (if b.clusterID ∈ X then X else b.clusterID :: X)).get? b.serverID).getD [] := by
      intro bs X
      rw [GoMap.get?_set, if_pos rfl]
      simp only [Option.getD_some]
      split
      · assumption
      · exact List.mem_cons_self _ _
    unfold dispatcher.addBind
    rw [hs, hc]
    simp only
    by_cases hup : server.status = Status.Up
    · rw [if_pos hup]
      refine ⟨_, rfl, hB _ _, rfl, ?_, ?_, ?_⟩
      · intro c hc'
        simp only
        rw [GoMap.get?_set, if_neg hc']
      · intro h; exact absurd hup h
      · intro _ hk
        have hid : server.meta.ID = b.serverID :=
          hk.2 (b.serverID, server) (GoMap.get?_mem hs)
        simp only
        rw [GoMap.get?_set, if_pos rfl, hid]
        unfold clusterRuntime.add
        split <;> rfl
    · rw [if_neg hup]
      exact ⟨_, rfl, hB _ _, rfl, fun _ _ => rfl, fun _ => rfl, fun h => absurd h hup⟩

theorem C16_addBind_witness :
    upRegistry.servers.get? 1 = some trippedServer ∧
      upRegistry.clusters.get? 7 = some (clusterOf 7) ∧
      trippedServer.status = Status.Up ∧ upRegistry.keyed ∧
      ∃ r', upRegistry.addBind ⟨7, 1⟩ = some (r', none) ∧
        r'.clusters.get? 7
          = some { clusterOf 7 with
              svrs := if 1 ∈ (clusterOf 7).svrs then (clusterOf 7).svrs
                      else (clusterOf 7).svrs ++ [1] } :=
  ⟨by decide, by decide, by decide, by decide,
    match (C16_addBind upRegistry ⟨7, 1⟩).2.2.1 trippedServer (clusterOf 7)
      (by decide) (by decide) with
    | ⟨r', h1, _, _, _, _, h6⟩ => ⟨r', h1, h6 (by decide) (by decide)⟩⟩

/-- C17: for proxies, clusters, servers, APIs and routings, an add whose key
is present returns the "already exist" error of the kind and an update or
remove whose key is absent returns its "not found" error; in each of these
cases the registry returned is the registry given. -/
theorem C17_errors_leave_registry (ext : Externals) (r : dispatcher) :
    (∀ meta : Proxy, r.proxies.contains (ext.addrFormat meta.addr) = true →
      r.addProxy ext meta = some (r, some Err.errProxyExists)) ∧
    (∀ addr, r.proxies.contains addr = false →
      r.removeProxy addr = some (r, some Err.errProxyNotFound)) ∧
    (∀ m : Cluster, r.clusters.contains m.ID = true →
      r.addCluster ext m = some (r, some Err.errClusterExists)) ∧
    (∀ m : Cluster, r.clusters.contains m.ID = false →
      r.updateCluster ext m = some (r, some Err.errClusterNotFound)) ∧
    (∀ id, r.clusters.contains id = false →
      r.removeCluster id = some (r, some Err.errClusterNotFound)) ∧
    (∀ m : Server, r.servers.contains m.ID = true →
      r.addServer m = some (r, some Err.errServerExists)) ∧
    (∀ m : Server, r.servers.contains m.ID = false →
      r.updateServer m = some (r, some Err.errServerNotFound)) ∧
    (∀ id, r.servers.contains id = false →
      r.removeServer id = some (r, some Err.errServerNotFound)) ∧
    (∀ m : API, r.apis.contains m.ID = true →
      r.addAPI ext m = some (r, some Err.errAPIExists)) ∧
    (∀ m : API, r.apis.contains m.ID = false →
      r.updateAPI ext m = some (r, some Err.errAPINotFound)) ∧
    (∀ id, r.apis.contains id = false →
      r.removeAPI id = some (r, some Err.errAPINotFound)) ∧
    (∀ (m : Routing) now, r.routings.contains m.ID = true →
      r.addRouting m now = some (r, some Err.errRoutingExists)) ∧
    (∀ m : Routing, r.routings.contains m.ID = false →
      r.updateRouting m = some (r, some Err.errRoutingNotFound)) ∧
    (∀ id, r.routings.contains id = false →
      r.removeRouting id = some (r, some Err.errRoutingNotFound)) := by
  refine ⟨?_, ?_, ?_, ?_, ?_, ?_, ?_, ?_, ?_, ?_, ?_, ?_, ?_, ?_⟩
  · intro meta h; unfold dispatcher.addProxy; simp only [h, if_true]
  · intro addr h; unfold dispatcher.removeProxy; simp [h]
  · intro m h; unfold dispatcher.addCluster; simp only [h, if_true]
  · intro m h; unfold dispatcher.updateCluster; rw [GoMap.contains_false h]
  · intro id h; unfold dispatcher.removeCluster; rw [GoMap.contains_false h]
  · intro m h; unfold dispatcher.addServer; simp only [h, if_true]
  · intro m h; unfold dispatcher.updateServer; rw [GoMap.contains_false h]
  · intro id h; unfold dispatcher.removeServer; rw [GoMap.contains_false h]
  · intro m h; unfold dispatcher.addAPI; simp only [h, if_true]
  · intro m h; unfold dispatcher.updateAPI; rw [GoMap.contains_false h]
  · intro id h; unfold dispatcher.removeAPI; simp [h]
  · intro m now h; unfold dispatcher.addRouting; simp only [h, if_true]
  · intro m h; unfold dispatcher.updateRouting; rw [GoMap.contains_false h]
  · intro id h; unfold dispatcher.removeRouting; simp [h]

theorem C17_errors_leave_registry_witness :
    boundRegistry.servers.contains (serverOf 1 500).ID = true ∧
      boundRegistry.addServer (serverOf 1 500)
        = some (boundRegistry, some Err.errServerExists) ∧
      boundRegistry.clusters.contains 8 = false ∧
      boundRegistry.removeCluster 8 = some (boundRegistry, some Err.errClusterNotFound) :=
  ⟨by decide,
    (C17_errors_leave_registry plainExternals boundRegistry).2.2.2.2.2.1 (serverOf 1 500)
      (by decide),
    by decide,
    (C17_errors_leave_registry plainExternals boundRegistry).2.2.2.2.1 8 (by decide)⟩

end Errors

section RoundTrip

theorem GoMap.contains_iff {K V : Type} [DecidableEq K] (m : GoMap K V) (k : K) :
    m.contains k = true ↔ ∃ v, m.get? k = some v := by
  constructor
  · exact GoMap.contains_true
  · rintro ⟨v, hv⟩; unfold GoMap.contains; rw [hv]; rfl

/-- Every mutation of a keyed registry keeps the binds pointing at registered
clusters. -/
theorem bindsLive_apply {ext : Externals} {r : dispatcher} {op : Op} {out : Outcome}
    (hk : r.keyed) (hl : r.bindsLive) (h : r.apply ext op = some out) : out.1.bindsLive := by
  unfold dispatcher.bindsLive at hl ⊢
  have keep : ∀ (k : Nat) (v : clusterRuntime) (c : Nat), r.clusters.contains c = true →
      (r.clusters.set k v).contains c = true := by
    intro k v c hc
    rw [GoMap.contains_iff] at hc ⊢
    rw [GoMap.get?_set]
    by_cases hck : c = k
    · exact ⟨v, by rw [if_pos hck]⟩
    · rw [if_neg hck]; exact hc
  rcases apply_shape h with ⟨h1, h2, _, _⟩ | ⟨id, h1, h2, _⟩ |
    ⟨m, rt0, _, h1, _, h2, _⟩ | ⟨m, rt, rt', _, h1, _, h2, _⟩ |
    ⟨id, rt, h1, hg, h2, _⟩ |
    ⟨b, server, cluster, _, hg, _, h2, h1⟩ | ⟨b, cluster, hg, _, h2, h1⟩
  · intro s c hc
    rw [h1]; rw [h2] at hc; exact hl s c hc
  · intro s c hc
    rw [h2] at hc
    have := hl s c hc
    rw [GoMap.contains_iff] at this ⊢
    obtain ⟨v, hv⟩ := this
    rw [h1, GoMap.get?_mapValues, hv]
    exact ⟨_, rfl⟩
  · intro s c hc
    rw [h2] at hc
    rw [h1]; exact keep _ _ c (hl s c hc)
  · intro s c hc
    rw [h2] at hc
    rw [h1]; exact keep _ _ c (hl s c hc)
  · intro s c hc
    have hid : rt.meta.ID = id := hk.1 (id, rt) (GoMap.get?_mem hg)
    rw [h2, GoMap.get?_mapValues] at hc
    have hmem : c ∈ (r.binds.get? s).getD [] ∧ c ≠ id := by
      cases hb : r.binds.get? s with
      | none => rw [hb] at hc; cases hc
      | some cs =>
        rw [hb] at hc
        simp only [Option.map_some', Option.getD_some] at hc ⊢
        have := List.mem_filter.mp hc
        exact ⟨this.1, by simpa using this.2⟩
    have := hl s c hmem.1
    rw [GoMap.contains_iff] at this ⊢
    rw [h1, hid, GoMap.get?_delete, if_neg hmem.2]
    exact this
  · have hcid : r.clusters.contains b.clusterID = true :=
      (GoMap.contains_iff _ _).mpr ⟨cluster, hg⟩
    have hold : ∀ c, r.clusters.contains c = true → out.1.clusters.contains c = true := by
      intro c hc
      rw [h1]
      split
      · exact keep _ _ c hc
      · exact hc
    intro s c hc
    rw [h2 s] at hc
    split at hc
    · split at hc
      · exact hold c (hl s c hc)
      · rcases List.mem_cons.mp hc with rfl | hc
        · exact hold _ hcid
        · exact hold c (hl s c hc)
    · exact hold c (hl s c hc)
  · intro s c hc
    rw [h2 s] at hc
    rw [h1]
    split at hc
    · exact keep _ _ c (hl s c (List.mem_filter.mp hc).1)
    · exact keep _ _ c (hl s c hc)

theorem GoMap.map_replace_absent {K V : Type} [DecidableEq K] {m : GoMap K V} {k : K}
    (v : V) (h : m.get? k = none) :
    m.map (fun e => if e.1 = k then (k, v) else e) = m := by
  have hne := GoMap.get?_eq_none h
  calc m.map (fun e => if e.1 = k then (k, v) else e)
      = m.map id := List.map_congr_left (fun e he => by simp [hne e he])
    _ = m := List.map_id m

/-- Setting an absent key, setting it again and deleting it gives the map back. -/
theorem GoMap.set_set_delete {K V : Type} [DecidableEq K] {m : GoMap K V} {k : K}
    (v v' : V) (h : m.get? k = none) :
    m.set k v = (k, v) :: m ∧ (m.set k v).set k v' = (k, v') :: m ∧
      ((m.set k v).set k v').delete k = m := by
  have hc : m.contains k = false := by unfold GoMap.contains; rw [h]; rfl
  have e1 : m.set k v = (k, v) :: m := by
    unfold GoMap.set; simp only [hc, Bool.false_eq_true, if_false]
  have hc1 : GoMap.contains ((k, v) :: m) k = true := by
    unfold GoMap.contains GoMap.get?; simp
  have e2 : GoMap.set ((k, v) :: m) k v' = (k, v') :: m := by
    unfold GoMap.set
    simp only [hc1, if_true, List.map_cons]
    rw [GoMap.map_replace_absent v' h]
  refine ⟨e1, by rw [e1, e2], ?_⟩
  rw [e1, e2]
  unfold GoMap.delete
  rw [List.filter_cons_of_neg (by simp)]
  exact GoMap.delete_of_get?_none h

theorem GoMap.mapValues_id {K V : Type} {f : V → V} {m : GoMap K V}
    (h : ∀ e ∈ m, f e.2 = e.2) : m.mapValues f = m := by
  unfold GoMap.mapValues
  calc m.map (fun e => (e.1, f e.2))
      = m.map id := List.map_congr_left (fun e he => by simp [h e he])
    _ = m := List.map_id m

theorem init_isSome (ext : Externals) (a : apiRuntime) :
    (apiRuntime.init ext a).isSome
      = ((decide (a.meta.urlPattern = "") || ext.regexValid a.meta.urlPattern) &&
          (mapOpt (initNode ext) a.meta.nodes).isSome) := by
  unfold apiRuntime.init
  simp only [mustCompile]
  cases hn : mapOpt (initNode ext) a.meta.nodes <;>
    by_cases hp : a.meta.urlPattern = "" <;>
    cases hv : ext.regexValid a.meta.urlPattern <;>
    simp [hp, hv, hn]

/-- C18 (counterexample): the add and update steps do not succeed for every
metadata. `addServer` with `MaxQPS = 0` panics on the division in
`updateMeta`, `addAPI` with an expression that does not compile panics in
`MustCompile`, and `addCluster` with a load-balance strategy that has no
constructor panics in `lb.NewLoadBalance`, all on the empty registry, where
the id is absent; `updateCluster` of the registered cluster 7 to such a
strategy panics in the same call. -/
theorem C18_add_panics_on_unusable_metadata :
    dispatcher.empty.servers.get? (serverOf 1 0).ID = none ∧
      dispatcher.addServer dispatcher.empty (serverOf 1 0) = none ∧
      dispatcher.empty.apis.get? usersAPI.ID = none ∧
      dispatcher.addAPI strictExternals dispatcher.empty { usersAPI with urlPattern := "(" }
        = none ∧
      dispatcher.empty.clusters.get? 1 = none ∧
      dispatcher.addCluster plainExternals dispatcher.empty ⟨1, 1⟩ = none ∧
      upRegistry.clusters.get? 7 = some (clusterOf 7) ∧
      dispatcher.updateCluster plainExternals upRegistry ⟨7, 1⟩ = none := by
  decide

/-- C18 (amended): in a registry where id `x` is absent, where the sequences
are bound and the binds point at registered clusters, and for metadata `m`,
`m'` with id `x` from which the runtime can be built (a cluster load-balance
strategy that has a constructor, a server `MaxQPS` that is non-zero after
`refreshQPS`, API expressions that compile), add, update and remove in that
order each return no error and give back a registry with the same proxies,
clusters, servers, APIs, routings and binds. This holds for clusters,
servers, APIs and routings. -/
theorem C18_add_update_remove (ext : Externals) (R : dispatcher) (x : Nat) :
    (∀ m m' : Cluster, m.ID = x → m'.ID = x → R.clusters.get? x = none → R.bindsLive →
      (newClusterRuntime ext m).isSome = true → (newClusterRuntime ext m').isSome = true →
      ∃ r1 r2 r3, R.addCluster ext m = some (r1, none) ∧
        r1.updateCluster ext m' = some (r2, none) ∧
        r2.removeCluster x = some (r3, none) ∧ R.sameRegistry r3) ∧
    (∀ m m' : Server, m.ID = x → m'.ID = x → R.servers.get? x = none → R.sequencesBound →
      (R.refreshQPS m).maxQPS ≠ 0 → (R.refreshQPS m').maxQPS ≠ 0 →
      ∃ r1 r2 r3, R.addServer m = some (r1, none) ∧ r1.updateServer m' = some (r2, none) ∧
        r2.removeServer x = some (r3, none) ∧ R.sameRegistry r3) ∧
    (∀ m m' : API, m.ID = x → m'.ID = x → R.apis.get? x = none →
      (newAPIRuntime ext m).isSome = true → (newAPIRuntime ext m').isSome = true →
      ∃ r1 r2 r3, R.addAPI ext m = some (r1, none) ∧ r1.updateAPI ext m' = some (r2, none) ∧
        r2.removeAPI x = some (r3, none) ∧ R.sameRegistry r3) ∧
    (∀ (m m' : Routing) now, m.ID = x → m'.ID = x → R.routings.get? x = none →
      ∃ r1 r2 r3, R.addRouting m now = some (r1, none) ∧
        r1.updateRouting m' = some (r2, none) ∧
        r2.removeRouting x = some (r3, none) ∧ R.sameRegistry r3) := by
  refine ⟨?_, ?_, ?_, ?_⟩
  · intro m m' hm hm' hx hl hd hd'
    subst hm
    have hc : R.clusters.contains m.ID = false := by unfold GoMap.contains; rw [hx]; rfl
    obtain ⟨rt, hrt⟩ := Option.isSome_iff_exists.mp hd
    have hupd : (rt.updateMeta ext m').isSome = true := by
      unfold clusterRuntime.updateMeta
      unfold newClusterRuntime at hd'
      cases hlb : newLoadBalance ext m'.loadBalance with
      | none => rw [hlb] at hd'; cases hd'
      | some lb => rfl
    obtain ⟨rt', hrt'⟩ := Option.isSome_iff_exists.mp hupd
    have hid : rt'.meta.ID = m.ID := by
      rw [(clusterUpdateMeta_some hrt').1]; exact hm'
    obtain ⟨e1, e2, e3⟩ := GoMap.set_set_delete rt rt' hx
    have s1 : R.addCluster ext m
        = some ({ R with clusters := (m.ID, rt) :: R.clusters }, none) := by
      unfold dispatcher.addCluster
      simp only [hc, Bool.false_eq_true, if_false, hrt, e1]
    have s2 : dispatcher.updateCluster ext { R with clusters := (m.ID, rt) :: R.clusters } m'
        = some ({ R with clusters := (m.ID, rt') :: R.clusters }, none) := by
      unfold dispatcher.updateCluster
      simp only [hm', ← e1, GoMap.get?_set, if_true, hrt']
      rw [e2]
    have s3 : dispatcher.removeCluster { R with clusters := (m.ID, rt') :: R.clusters } m.ID
        = some ({ R with
            binds := R.binds.mapValues
              (fun cs => cs.filter (fun c => decide (c ≠ m.ID))) }, none) := by
      unfold dispatcher.removeCluster
      have hg : GoMap.get? ((m.ID, rt') :: R.clusters) m.ID = some rt' := by
        unfold GoMap.get?; simp
      simp only [hg, hid]
      rw [← e2, e3]
    refine ⟨_, _, _, s1, s2, s3, ?_⟩
    · refine ⟨rfl, rfl, rfl, rfl, rfl, ?_⟩
      intro s
      simp only [GoMap.get?_mapValues]
      cases hb : R.binds.get? s with
      | none => rfl
      | some cs =>
        simp only [Option.map_some', Option.some.injEq]
        apply List.filter_eq_self.mpr
        intro c hcs
        have hreg := hl s c (by rw [hb]; exact hcs)
        have : c ≠ m.ID := by
          intro hcx
          rw [hcx] at hreg
          rw [hc] at hreg
          cases hreg
        simpa using this
  · intro m m' hm hm' hx hb hq hq'
    subst hm
    have hc : R.servers.contains m.ID = false := by unfold GoMap.contains; rw [hx]; rfl
    have hseq : ∀ e ∈ R.clusters, (e.2.remove m.ID) = e.2 := by
      intro e he
      have hn : m.ID ∉ e.2.svrs := by
        intro hmem
        have := (hb e he m.ID hmem).2
        rw [hx] at this
        cases this
      unfold clusterRuntime.remove
      rw [List.erase_of_not_mem hn]
    obtain ⟨rt, hrt⟩ : ∃ rt, newServerRuntime (R.refreshQPS m) = some rt := by
      unfold newServerRuntime serverRuntime.updateMeta
      rw [if_neg hq]; exact ⟨_, rfl⟩
    obtain ⟨rt', hrt'⟩ : ∃ rt', rt.updateMeta (R.refreshQPS m') = some rt' := by
      unfold serverRuntime.updateMeta
      rw [if_neg hq']; exact ⟨_, rfl⟩
    obtain ⟨e1, e2, e3⟩ := GoMap.set_set_delete rt rt' hx
    have hadd : ∃ r1, R.addServer m = some (r1, none) ∧ r1.proxies = R.proxies ∧
        r1.clusters = R.clusters ∧ r1.servers = R.servers.set m.ID rt ∧ r1.apis = R.apis ∧
        r1.routings = R.routings ∧ r1.binds = R.binds := by
      unfold dispatcher.addServer
      simp only [hc, Bool.false_eq_true, if_false, hrt, refreshQPS_ID]
      refine ⟨_, rfl, ?_, ?_, ?_, ?_, ?_, ?_⟩ <;>
        (unfold dispatcher.addToCheck dispatcher.addAnalysis
         cases rt.meta.circuitBreaker <;> rfl)
    obtain ⟨r1, h1, p1, c1, s1, a1, g1, b1⟩ := hadd
    have href : r1.refreshQPS m' = R.refreshQPS m' := by
      unfold dispatcher.refreshQPS; rw [p1]
    have hupd : ∃ r2, r1.updateServer m' = some (r2, none) ∧ r2.proxies = R.proxies ∧
        r2.clusters = R.clusters ∧ r2.servers = (R.servers.set m.ID rt).set m.ID rt' ∧
        r2.apis = R.apis ∧ r2.routings = R.routings ∧ r2.binds = R.binds := by
      unfold dispatcher.updateServer
      simp only [s1, hm', GoMap.get?_set, if_true, href, hrt', refreshQPS_ID]
      refine ⟨_, rfl, ?_, ?_, ?_, ?_, ?_, ?_⟩ <;>
        (unfold dispatcher.addToCheck dispatcher.addAnalysis
         cases rt'.meta.circuitBreaker <;> simp [*])
    obtain ⟨r2, h2, p2, c2, s2, a2, g2, b2⟩ := hupd
    have hrem : r2.removeServer m.ID
        = some ({ r2 with servers := r2.servers.delete m.ID,
                          clusters := r2.clusters.mapValues (fun c => c.remove m.ID) }, none) := by
      unfold dispatcher.removeServer
      simp only [s2, GoMap.get?_set, if_true]
    refine ⟨r1, r2, _, h1, h2, hrem, ?_⟩
    refine ⟨p2, ?_, ?_, a2, g2, ?_⟩
    · simp only [c2]; exact GoMap.mapValues_id hseq
    · simp only [s2]; exact e3
    · intro s; simp only [b2]
  · intro m m' hm hm' hx hd hd'
    subst hm
    have hc : R.apis.contains m.ID = false := by unfold GoMap.contains; rw [hx]; rfl
    obtain ⟨rt, hrt⟩ := Option.isSome_iff_exists.mp hd
    have hupd : (rt.updateMeta ext m').isSome = true := by
      unfold apiRuntime.updateMeta
      rw [init_isSome]
      unfold newAPIRuntime at hd'
      rw [init_isSome] at hd'
      exact hd'
    obtain ⟨rt', hrt'⟩ := Option.isSome_iff_exists.mp hupd
    obtain ⟨e1, e2, e3⟩ := GoMap.set_set_delete rt rt' hx
    have s1 : dispatcher.addAPI ext R m = some ({ R with apis := (m.ID, rt) :: R.apis }, none) := by
      unfold dispatcher.addAPI
      simp only [hc, Bool.false_eq_true, if_false, hrt, e1]
    have s2 : dispatcher.updateAPI ext { R with apis := (m.ID, rt) :: R.apis } m'
        = some ({ R with apis := (m.ID, rt') :: R.apis }, none) := by
      unfold dispatcher.updateAPI
      simp only [hm', ← e1, GoMap.get?_set, if_true, hrt']
      rw [e2]
    have s3 : dispatcher.removeAPI { R with apis := (m.ID, rt') :: R.apis } m.ID
        = some (R, none) := by
      unfold dispatcher.removeAPI
      have hcc : GoMap.contains ((m.ID, rt') :: R.apis) m.ID = true := by
        unfold GoMap.contains GoMap.get?; simp
      simp only [hcc, not_true_eq_false, if_false]
      rw [← e2, e3]
    refine ⟨_, _, _, s1, s2, s3, ?_⟩
    · exact ⟨rfl, rfl, rfl, rfl, rfl, fun _ => rfl⟩
  · intro m m' now hm hm' hx
    subst hm
    have hc : R.routings.contains m.ID = false := by unfold GoMap.contains; rw [hx]; rfl
    obtain ⟨e1, e2, e3⟩ := GoMap.set_set_delete (newRoutingRuntime m now)
      ((newRoutingRuntime m now).updateMeta m') hx
    have s1 : R.addRouting m now
        = some ({ R with routings := (m.ID, newRoutingRuntime m now) :: R.routings }, none) := by
      unfold dispatcher.addRouting
      simp only [hc, Bool.false_eq_true, if_false, e1]
    have s2 : dispatcher.updateRouting
          { R with routings := (m.ID, newRoutingRuntime m now) :: R.routings } m'
        = some ({ R with
            routings := (m.ID, (newRoutingRuntime m now).updateMeta m') :: R.routings },
          none) := by
      unfold dispatcher.updateRouting
      simp only [hm', ← e1, GoMap.get?_set, if_true]
      rw [e2]
    have s3 : dispatcher.removeRouting
          { R with
            routings := (m.ID, (newRoutingRuntime m now).updateMeta m') :: R.routings } m.ID
        = some (R, none) := by
      unfold dispatcher.removeRouting
      have hcc : GoMap.contains
          ((m.ID, (newRoutingRuntime m now).updateMeta m') :: R.routings) m.ID = true := by
        unfold GoMap.contains GoMap.get?; simp
      simp only [hcc, not_true_eq_false, if_false]
      rw [← e2, e3]
    refine ⟨_, _, _, s1, s2, s3, ?_⟩
    · exact ⟨rfl, rfl, rfl, rfl, rfl, fun _ => rfl⟩

theorem boundRegistry_bindsLive : boundRegistry.bindsLive := by
  intro s c hc
  by_cases hs : s = 1
  · subst hs
    have hc7 : c = 7 := by
      simpa [boundRegistry, upRegistry, GoMap.get?] using hc
    subst hc7
    decide
  · have hnil : (boundRegistry.binds.get? s).getD [] = [] := by
      have : ¬ 1 = s := fun h => hs h.symm
      simp [boundRegistry, upRegistry, GoMap.get?, this]
    rw [hnil] at hc
    cases hc

theorem C18_add_update_remove_witness :
    (∃ r1 r2 r3, dispatcher.addCluster plainExternals boundRegistry ⟨9, 0⟩ = some (r1, none) ∧
        dispatcher.updateCluster plainExternals r1 ⟨9, 0⟩ = some (r2, none) ∧
        r2.removeCluster 9 = some (r3, none) ∧ boundRegistry.sameRegistry r3) ∧
      (∃ r1 r2 r3, boundRegistry.addServer (serverOf 9 1000) = some (r1, none) ∧
        r1.updateServer (serverOf 9 500) = some (r2, none) ∧
        r2.removeServer 9 = some (r3, none) ∧ boundRegistry.sameRegistry r3) ∧
      (∃ r1 r2 r3, dispatcher.addAPI plainExternals boundRegistry usersAPI = some (r1, none) ∧
        dispatcher.updateAPI plainExternals r1 aclAPI = some (r2, none) ∧
        r2.removeAPI 1 = some (r3, none) ∧ boundRegistry.sameRegistry r3) :=
  ⟨(C18_add_update_remove plainExternals boundRegistry 9).1 ⟨9, 0⟩ ⟨9, 0⟩ rfl rfl
      (by decide) boundRegistry_bindsLive (by decide) (by decide),
    (C18_add_update_remove plainExternals boundRegistry 9).2.1 (serverOf 9 1000)
      (serverOf 9 500) rfl rfl (by decide) (by decide) (by decide) (by decide),
    (C18_add_update_remove plainExternals boundRegistry 1).2.2.1 usersAPI aclAPI rfl rfl
      (by decide) (by decide) (by decide)⟩

end RoundTrip

section CachingFilterTheorems

theorem mapOpt_defined {α : Type} (f : α → Option String) (l : List α)
    (h : ∀ x ∈ l, ∃ y, f x = some y) :
    mapOpt f l = some (l.map (fun x => (f x).getD "")) := by
  induction l with
  | nil => rfl
  | cons x xs ih =>
    obtain ⟨y, hy⟩ := h x (List.mem_cons_self _ _)
    have hrest := ih (fun z hz => h z (List.mem_cons_of_mem _ hz))
    simp only [mapOpt, hy, hrest, List.map_cons, Option.getD_some]

theorem getID_defined (ext : Externals) (req : Request) (keys : List Parameter)
    (hk : ∀ k ∈ keys, ∃ v, paramValue ext k req = some v) :
    getID ext req keys
      = some (if keys = [] then req.headerRequestURI
              else String.intercalate "-"
                (req.headerRequestURI :: keys.map (fun k => (paramValue ext k req).getD ""))) := by
  unfold getID
  by_cases he : keys = []
  · subst he; rfl
  · have hl : ¬ keys.length = 0 := fun h => he (List.length_eq_zero.mp h)
    rw [if_neg hl, if_neg he, mapOpt_defined _ _ hk]

/-- C21: when every condition and every key of the cache spec is evaluated
without panic, `getCachingID` returns `(false, "")` exactly when the spec has
a condition and some condition fails; otherwise it returns `true` with the
request URI when there is no key, and else with the URI followed by the
extracted value of each key in order, joined by `-`. Whenever it returns
false, `Pre` leaves the context (and its attributes) and `Post` leaves the
filter (its cache and timers) as they were. -/
theorem C21_getCachingID (ext : Externals) (c : Context) (cache : Cache)
    (hcache : c.dispatchNode.cache = some cache)
    (hc : ∀ cond ∈ cache.conditions,
      ∃ b, conditionsMatches ext cond c.forwardRequest = some b)
    (hk : ∀ k ∈ cache.keys, ∃ v, paramValue ext k c.forwardRequest = some v) :
    (getCachingID ext c = some (false, "") ↔
      (cache.conditions ≠ [] ∧
        ∃ cond ∈ cache.conditions, conditionsMatches ext cond c.forwardRequest = some false)) ∧
    (¬ (cache.conditions ≠ [] ∧
        ∃ cond ∈ cache.conditions, conditionsMatches ext cond c.forwardRequest = some false) →
      getCachingID ext c = some (true,
        if cache.keys = [] then c.forwardRequest.headerRequestURI
        else String.intercalate "-" (c.forwardRequest.headerRequestURI ::
          cache.keys.map (fun k => (paramValue ext k c.forwardRequest).getD "")))) ∧
    (∀ (C : Type) (ops : CacheOps C) (f : CachingFilter C) (s : String),
      getCachingID ext c = some (false, s) →
      f.Pre ops ext c = some (f, c) ∧ f.Post ops ext c = some (f, c)) := by
  have hfail : (∃ cond ∈ cache.conditions,
      conditionsMatches ext cond c.forwardRequest = some false) ↔
      ¬ ∀ cond ∈ cache.conditions, conditionsMatches ext cond c.forwardRequest = some true := by
    constructor
    · rintro ⟨cond, hm, hf⟩ hall
      rw [hall cond hm] at hf
      cases hf
    · intro hn
      by_contra hne
      apply hn
      intro cond hm
      obtain ⟨b, hb⟩ := hc cond hm
      cases b
      · exact absurd ⟨cond, hm, hb⟩ hne
      · exact hb
  have hid := getID_defined ext c.forwardRequest cache.keys hk
  generalize (if cache.keys = [] then c.forwardRequest.headerRequestURI
      else String.intercalate "-" (c.forwardRequest.headerRequestURI ::
        cache.keys.map (fun k => (paramValue ext k c.forwardRequest).getD ""))) = idv at hid ⊢
  have hval : getCachingID ext c
      = if cache.conditions ≠ [] ∧ ∃ cond ∈ cache.conditions,
            conditionsMatches ext cond c.forwardRequest = some false
        then some (false, "")
        else some (true, idv) := by
    unfold getCachingID
    rw [hcache]
    simp only
    rw [hid]
    by_cases he : cache.conditions = []
    · have hl : cache.conditions.length = 0 := by rw [he]; rfl
      rw [if_pos hl, if_neg (fun h => h.1 he)]
      rfl
    · have hl : ¬ cache.conditions.length = 0 := fun h => he (List.length_eq_zero.mp h)
      rw [if_neg hl, allConditionsMatch_defined ext _ _ hc]
      by_cases hall : ∀ cond ∈ cache.conditions,
          conditionsMatches ext cond c.forwardRequest = some true
      · rw [decide_eq_true hall, if_neg (fun h => (hfail.mp h.2) hall)]
        rfl
      · rw [decide_eq_false hall, if_pos ⟨he, hfail.mpr hall⟩]
  refine ⟨?_, ?_, ?_⟩
  · rw [hval]
    constructor
    · intro h
      by_contra hn
      rw [if_neg hn] at h
      cases h
    · intro h
      rw [if_pos h]
  · intro hn
    rw [hval, if_neg hn]
  · intro C ops f s h
    unfold CachingFilter.Pre CachingFilter.Post
    rw [hcache]
    simp [h]

theorem C21_getCachingID_witness :
    getCachingID plainExternals (searchContext "") = some (false, "") ∧
      getCachingID plainExternals (searchContext "gold") = some (true, "/search?q=cat-cat") ∧
      CachingFilter.Pre mapCache plainExternals
          { cache := [("/search?q=cat-cat", [0, 0, 0, 1, 116, 1, 2])], scheduled := [] }
          (searchContext "")
        = some ({ cache := [("/search?q=cat-cat", [0, 0, 0, 1, 116, 1, 2])], scheduled := [] },
            searchContext "") ∧
      CachingFilter.Post mapCache plainExternals
          { cache := [("/search?q=cat-cat", [0, 0, 0, 1, 116, 1, 2])], scheduled := [] }
          (searchContext "")
        = some ({ cache := [("/search?q=cat-cat", [0, 0, 0, 1, 116, 1, 2])], scheduled := [] },
            searchContext "") :=
  have hfalse := (C21_getCachingID plainExternals (searchContext "")
    { keys := [{ name := "q", source := QueryString, index := 0 }], deadline := 2,
      conditions := [{ parameter := { name := "X-Tenant", source := Header, index := 0 },
                       cmp := CMPEQ, expect := "gold" }] }
    rfl (by decide)
    (by intro k hk; rcases List.mem_singleton.mp hk with rfl; exact ⟨"cat", by decide⟩)).1.mpr
      (by decide)
  have hfilter := (C21_getCachingID plainExternals (searchContext "")
    { keys := [{ name := "q", source := QueryString, index := 0 }], deadline := 2,
      conditions := [{ parameter := { name := "X-Tenant", source := Header, index := 0 },
                       cmp := CMPEQ, expect := "gold" }] }
    rfl (by decide)
    (by intro k hk; rcases List.mem_singleton.mp hk with rfl; exact ⟨"cat", by decide⟩)).2.2
      _ mapCache
    { cache := [("/search?q=cat-cat", [0, 0, 0, 1, 116, 1, 2])], scheduled := [] } "" hfalse
  ⟨hfalse, by decide, hfilter.1, hfilter.2⟩

end CachingFilterTheorems

section Segments

/-- Beyond the last ip token every pattern token other than `*` reads out of
range. -/
theorem matchesFrom_beyond (tmp pat : List String) (index : Nat) (h : tmp.length ≤ index) :
    ipSegment.matchesFrom tmp pat index
      = if pat.all (fun v => decide (v = "*")) then some true else none := by
  induction pat generalizing index with
  | nil => rfl
  | cons v vs ih =>
    unfold ipSegment.matchesFrom
    by_cases hv : v = "*"
    · rw [if_pos hv, ih (index + 1) (by omega)]
      simp [hv]
    · have hget : tmp.get? index = none := by
        simp only [List.get?_eq_getElem?]; exact List.getElem?_eq_none h
      rw [if_neg hv, hget]
      simp [hv]

theorem matchesFrom_cons (tmp : List String) (v : String) (vs : List String) (index : Nat) :
    ipSegment.matchesFrom tmp (v :: vs) index
      = if v = "*" then ipSegment.matchesFrom tmp vs (index + 1)
        else
          match tmp.get? index with
          | none => none
          | some t =>
            if v ≠ t then some false else ipSegment.matchesFrom tmp vs (index + 1) := by
  rw [ipSegment.matchesFrom]

theorem matchesFrom_append (tmp p1 p2 : List String) (index : Nat) :
    ipSegment.matchesFrom tmp (p1 ++ p2) index
      = match ipSegment.matchesFrom tmp p1 index with
        | some true => ipSegment.matchesFrom tmp p2 (index + p1.length)
        | r => r := by
  induction p1 generalizing index with
  | nil => simp [ipSegment.matchesFrom]
  | cons v vs ih =>
    have hlen : index + 1 + vs.length = index + (v :: vs).length := by
      simp only [List.length_cons]; omega
    rw [List.cons_append, matchesFrom_cons, matchesFrom_cons]
    by_cases hv : v = "*"
    · rw [if_pos hv, if_pos hv, ih (index + 1), hlen]
    · rw [if_neg hv, if_neg hv]
      cases tmp.get? index with
      | none => rfl
      | some t =>
        simp only
        by_cases ht : v ≠ t
        · rw [if_pos ht, if_pos ht]
        · rw [if_neg ht, if_neg ht, ih (index + 1), hlen]

/-- What `matchesFrom` gives on an ip with fewer tokens than the pattern. -/
theorem matchesFrom_short (tmp pat : List String) (h : tmp.length < pat.length) :
    ipSegment.matchesFrom tmp pat 0
      = if specSegmentMatches (pat.take tmp.length) tmp then
          (if (pat.drop tmp.length).all (fun v => decide (v = "*")) then some true else none)
        else some false := by
  have hsplit : pat = pat.take tmp.length ++ pat.drop tmp.length :=
    (List.take_append_drop _ _).symm
  have hlen : (pat.take tmp.length).length = tmp.length := by
    rw [List.length_take]; omega
  have h1 := matchesFrom_eq tmp (pat.take tmp.length) 0 (by rw [hlen]; omega)
  rw [List.drop_zero] at h1
  have h2 := matchesFrom_append tmp (pat.take tmp.length) (pat.drop tmp.length) 0
  rw [← hsplit, h1, hlen, Nat.zero_add] at h2
  rw [h2]
  cases specSegmentMatches (pat.take tmp.length) tmp
  · rfl
  · simp only [if_true]
    exact matchesFrom_beyond tmp _ _ (Nat.le_refl _)

/-- C23 (counterexample): on the ip `10`, of one token, the pattern `10.*.1`
reads out of range although its token at position 1, the first position at
or beyond the ip's token count, is `*`: the loop goes on to position 2. -/
theorem C23_star_at_first_missing_position_still_panics :
    (stringsSplit "10" '.').length = 1 ∧
      (parseFrom "10.*.1").value.get? 1 = some "*" ∧
      (parseFrom "10.*.1").matches "10" = none := by
  decide

/-- C23 (amended): when the ip has at least as many tokens as the pattern,
`ipSegment.matches` returns, and returns the same on every ip with the same
first `|p|` tokens. When the ip has fewer tokens, the index goes out of range
exactly when every pattern position below the ip's token count matches and
some pattern token at a position at or beyond that count is not `*`; so
pattern `10.0.0.1` panics on ip `10.0`. -/
theorem C23_segment_match_definedness (seg : ipSegment) (ip : String) :
    (seg.value.length ≤ (stringsSplit ip '.').length →
      (∃ b, seg.matches ip = some b) ∧
      ∀ ip', (stringsSplit ip' '.').take seg.value.length
          = (stringsSplit ip '.').take seg.value.length →
        seg.matches ip' = seg.matches ip) ∧
    ((stringsSplit ip '.').length < seg.value.length →
      (seg.matches ip = none ↔
        (specSegmentMatches (seg.value.take (stringsSplit ip '.').length)
            (stringsSplit ip '.') = true ∧
          ∃ v ∈ seg.value.drop (stringsSplit ip '.').length, v ≠ "*"))) ∧
    (parseFrom "10.0.0.1").matches "10.0" = none := by
  have htake : ∀ (pat tmp : List String), pat.length ≤ tmp.length →
      specSegmentMatches pat tmp = specSegmentMatches pat (tmp.take pat.length) := by
    intro pat
    induction pat with
    | nil => intro tmp _; simp [specSegmentMatches]
    | cons v vs ih =>
      intro tmp hl
      cases tmp with
      | nil => simp at hl
      | cons t ts =>
        have := ih ts (by simpa using hl)
        simp only [specSegmentMatches, List.zip_cons_cons, List.all_cons, List.length_cons,
          List.take_succ_cons] at this ⊢
        rw [this]
  refine ⟨?_, ?_, by decide⟩
  · intro hl
    have e := matchesFrom_eq (stringsSplit ip '.') seg.value 0 (by omega)
    rw [List.drop_zero] at e
    refine ⟨⟨_, e⟩, ?_⟩
    intro ip' heq
    have hl' : seg.value.length ≤ (stringsSplit ip' '.').length := by
      have h1 : ((stringsSplit ip' '.').take seg.value.length).length = seg.value.length := by
        rw [heq, List.length_take]; omega
      rw [List.length_take] at h1
      omega
    have e' := matchesFrom_eq (stringsSplit ip' '.') seg.value 0 (by omega)
    rw [List.drop_zero] at e'
    unfold ipSegment.matches
    rw [e, e', htake _ _ hl, htake _ _ hl', heq]
  · intro hl
    unfold ipSegment.matches
    rw [matchesFrom_short _ _ hl]
    cases hs : specSegmentMatches (seg.value.take (stringsSplit ip '.').length)
        (stringsSplit ip '.')
    · simp
    · simp only [if_true, true_and]
      by_cases hall : (seg.value.drop (stringsSplit ip '.').length).all
          (fun v => decide (v = "*")) = true
      · rw [if_pos hall]
        simp only [false_iff, not_exists, not_and, ne_eq, not_not, reduceCtorEq]
        intro v hv
        have := List.all_eq_true.mp hall v hv
        simpa using this
      · rw [if_neg hall]
        simp only [true_iff]
        by_contra hne
        apply hall
        apply List.all_eq_true.mpr
        intro v hv
        by_contra hv'
        exact hne ⟨v, hv, by simpa using hv'⟩

theorem C23_segment_match_definedness_witness :
    (parseFrom "10.0").value.length ≤ (stringsSplit "10.0.3.7" '.').length ∧
      ((∃ b, (parseFrom "10.0").matches "10.0.3.7" = some b) ∧
        ∀ ip', (stringsSplit ip' '.').take (parseFrom "10.0").value.length
            = (stringsSplit "10.0.3.7" '.').take (parseFrom "10.0").value.length →
          (parseFrom "10.0").matches ip' = (parseFrom "10.0").matches "10.0.3.7") ∧
      (stringsSplit "10" '.').length < (parseFrom "10.*.1").value.length ∧
      ((parseFrom "10.*.1").matches "10" = none ↔
        (specSegmentMatches ((parseFrom "10.*.1").value.take (stringsSplit "10" '.').length)
            (stringsSplit "10" '.') = true ∧
          ∃ v ∈ (parseFrom "10.*.1").value.drop (stringsSplit "10" '.').length, v ≠ "*")) :=
  ⟨by decide,
    (C23_segment_match_definedness (parseFrom "10.0") "10.0.3.7").1 (by decide),
    by decide,
    (C23_segment_match_definedness (parseFrom "10.*.1") "10").2.1 (by decide)⟩

end Segments

section Division

theorem tdiv_ne_zero_iff (a : Int) (n : Nat) (ha : 1 ≤ a) (hn : 1 ≤ n) :
    Int.tdiv a (n : Int) ≠ 0 ↔ (n : Int) ≤ a := by
  have hn' : (0 : Int) < (n : Int) := by omega
  constructor
  · intro h
    by_contra hlt
    exact h (Int.tdiv_eq_zero_of_lt (by omega) (by omega))
  · intro h
    rw [Int.tdiv_eq_ediv (by omega) (by omega)]
    have : (1 : Int) ≤ a / (n : Int) := Int.le_ediv_of_mul_le hn' (by omega)
    omega

theorem GoMap.mapValuesM_isSome {K V : Type} (f : V → Option V) (m : GoMap K V) :
    (m.mapValuesM f).isSome = true ↔ ∀ e ∈ m, (f e.2).isSome = true := by
  induction m with
  | nil => simp [GoMap.mapValuesM]
  | cons a m ih =>
    unfold GoMap.mapValuesM
    cases hf : f a.2 with
    | none => simp [hf]
    | some v =>
      cases hm : GoMap.mapValuesM f m with
      | none =>
        rw [hm] at ih
        simp only [Option.isSome_none, Bool.false_eq_true, false_iff, List.mem_cons,
          forall_eq_or_imp, hf, Option.isSome_some, true_and]
        intro hall
        exact absurd (ih.mpr hall) (by simp)
      | some m' =>
        rw [hm] at ih
        simp only [Option.isSome_some, true_iff, List.mem_cons, forall_eq_or_imp, hf,
          true_and]
        exact ih.mp rfl

theorem updateMeta_isSome (s : serverRuntime) (meta : Server) :
    (s.updateMeta meta).isSome = true ↔ meta.maxQPS ≠ 0 := by
  unfold serverRuntime.updateMeta
  by_cases h : meta.maxQPS = 0
  · simp [h]
  · simp [h]

theorem refreshAllQPS_isSome (r : dispatcher) :
    r.refreshAllQPS.isSome = true ↔ ∀ e ∈ r.servers, (r.refreshQPS e.2.meta).maxQPS ≠ 0 := by
  have h1 : r.refreshAllQPS.isSome
      = (r.servers.mapValuesM (fun svr => svr.updateMeta (r.refreshQPS svr.meta))).isSome := by
    unfold dispatcher.refreshAllQPS
    cases r.servers.mapValuesM (fun svr => svr.updateMeta (r.refreshQPS svr.meta)) <;> rfl
  rw [h1, GoMap.mapValuesM_isSome]
  constructor
  · intro h e he
    exact (updateMeta_isSome _ _).mp (h e he)
  · intro h e he
    exact (updateMeta_isSome _ _).mpr (h e he)

/-- C22 (counterexample): with two proxies registered and server 1 already
registered, `addServer` for id 1 with `MaxQPS = 1` returns the "already
exist" error without building a limiter, so it completes although `1 < 2`;
likewise `addProxy` for a registered address completes whatever the servers
hold. -/
theorem C22_rejected_call_completes :
    (dispatcher.run plainExternals dispatcher.empty
        [Op.addProxy ⟨"p1"⟩, Op.addProxy ⟨"p2"⟩, Op.addServer (serverOf 1 2)]).bind
      (fun r => (r.addServer (serverOf 1 1)).map (fun out => (r.proxies.len, out.2)))
        = some (2, some Err.errServerExists) ∧
      (serverOf 1 1).maxQPS < 2 ∧
      (dispatcher.run plainExternals dispatcher.empty
        [Op.addProxy ⟨"p1"⟩, Op.addProxy ⟨"p2"⟩, Op.addServer (serverOf 1 2)]).bind
      (fun r => (r.addProxy plainExternals ⟨"p1"⟩).map
        (fun out => (r.burst 1, r.proxies.len, out.2)))
        = some (some 1, 2, some Err.errProxyExists) := by
  decide

/-- C22 (amended): `updateMeta` is defined exactly when the `MaxQPS` it is
given is non-zero. With `q ≥ 1` and `n ≥ 1` proxies, `addServer` of an id not
yet registered and `updateServer` of a registered id complete exactly when
`q ≥ n`. With every stored `MaxQPS` at least 1, `addProxy` of an address not
yet registered and `removeProxy` of a registered one complete exactly when
every stored `MaxQPS` is at least the new proxy count (and always when the new
count is 0). -/
theorem C22_limiter_division (ext : Externals) (r : dispatcher) :
    (∀ (s : serverRuntime) (meta : Server),
      (s.updateMeta meta).isSome = true ↔ meta.maxQPS ≠ 0) ∧
    (∀ svr : Server, 1 ≤ svr.maxQPS → 1 ≤ r.proxies.len → r.servers.get? svr.ID = none →
      ((r.addServer svr).isSome = true ↔ (r.proxies.len : Int) ≤ svr.maxQPS)) ∧
    (∀ (svr : Server) (rt : serverRuntime), 1 ≤ svr.maxQPS → 1 ≤ r.proxies.len →
      r.servers.get? svr.ID = some rt →
      ((r.updateServer svr).isSome = true ↔ (r.proxies.len : Int) ≤ svr.maxQPS)) ∧
    (∀ meta : Proxy, r.proxies.contains (ext.addrFormat meta.addr) = false →
      (∀ e ∈ r.servers, 1 ≤ e.2.meta.maxQPS) →
      ((r.addProxy ext meta).isSome = true ↔
        ∀ e ∈ r.servers, ((r.proxies.len + 1 : Nat) : Int) ≤ e.2.meta.maxQPS)) ∧
    (∀ addr : String, r.proxies.contains addr = true →
      (∀ e ∈ r.servers, 1 ≤ e.2.meta.maxQPS) →
      ((r.removeProxy addr).isSome = true ↔
        ∀ e ∈ r.servers, (((r.proxies.delete addr).len : Nat) : Int) ≤ e.2.meta.maxQPS ∨
          ((r.proxies.delete addr).len = 0 ∧ e.2.meta.maxQPS ≠ 0))) := by
  have hq : ∀ (r0 : dispatcher) (svr : Server), 1 ≤ svr.maxQPS → 1 ≤ r0.proxies.len →
      ((r0.refreshQPS svr).maxQPS ≠ 0 ↔ (r0.proxies.len : Int) ≤ svr.maxQPS) := by
    intro r0 svr h1 hn
    unfold dispatcher.refreshQPS
    rw [if_pos (by omega)]
    exact tdiv_ne_zero_iff _ _ h1 hn
  have hq0 : ∀ (r0 : dispatcher) (svr : Server), r0.proxies.len = 0 →
      (r0.refreshQPS svr).maxQPS = svr.maxQPS := by
    intro r0 svr hn
    unfold dispatcher.refreshQPS
    rw [if_neg (by omega)]
  refine ⟨updateMeta_isSome, ?_, ?_, ?_, ?_⟩
  · intro svr h1 hn hx
    have hc : r.servers.contains svr.ID = false := by unfold GoMap.contains; rw [hx]; rfl
    rw [← hq r svr h1 hn, ← updateMeta_isSome
      { limiter := { every := 0, burst := 0 }, meta := r.refreshQPS svr, status := Status.Down,
        checkFailCount := 0, useCheckDuration := 0, circuit := CircuitStatus.Open }]
    unfold dispatcher.addServer
    simp only [hc, Bool.false_eq_true, if_false, newServerRuntime]
    cases serverRuntime.updateMeta
      { limiter := { every := 0, burst := 0 }, meta := r.refreshQPS svr, status := Status.Down,
        checkFailCount := 0, useCheckDuration := 0, circuit := CircuitStatus.Open }
      (r.refreshQPS svr) <;> rfl
  · intro svr rt h1 hn hx
    rw [← hq r svr h1 hn, ← updateMeta_isSome rt]
    unfold dispatcher.updateServer
    simp only [hx]
    cases rt.updateMeta (r.refreshQPS svr) <;> rfl
  · intro meta hc hpos
    have hlen : (r.proxies.set (ext.addrFormat meta.addr) meta).len = r.proxies.len + 1 := by
      unfold GoMap.set GoMap.len
      simp only [hc, Bool.false_eq_true, if_false, List.length_cons]
    have hsome : (r.addProxy ext meta).isSome
        = (dispatcher.refreshAllQPS
            { r with proxies := r.proxies.set (ext.addrFormat meta.addr) meta }).isSome := by
      unfold dispatcher.addProxy
      simp only [hc, Bool.false_eq_true, if_false]
      cases dispatcher.refreshAllQPS
        { r with proxies := r.proxies.set (ext.addrFormat meta.addr) meta } <;> rfl
    rw [hsome, refreshAllQPS_isSome]
    constructor
    · intro h e he
      have := (hq { r with proxies := r.proxies.set (ext.addrFormat meta.addr) meta }
        e.2.meta (hpos e he) (by simp only [hlen]; omega)).mp (h e he)
      simp only [hlen] at this
      exact this
    · intro h e he
      apply (hq { r with proxies := r.proxies.set (ext.addrFormat meta.addr) meta }
        e.2.meta (hpos e he) (by simp only [hlen]; omega)).mpr
      simp only [hlen]
      exact h e he
  · intro addr hc hpos
    have hsome : (r.removeProxy addr).isSome
        = (dispatcher.refreshAllQPS { r with proxies := r.proxies.delete addr }).isSome := by
      unfold dispatcher.removeProxy
      simp only [hc, not_true_eq_false, if_false]
      cases dispatcher.refreshAllQPS { r with proxies := r.proxies.delete addr } <;> rfl
    rw [hsome, refreshAllQPS_isSome]
    by_cases hz : (r.proxies.delete addr).len = 0
    · constructor
      · intro h e he
        right
        have := h e he
        rw [hq0 _ _ hz] at this
        exact ⟨hz, this⟩
      · intro _ e he
        rw [hq0 _ _ hz]
        have := hpos e he
        omega
    · have hn : 1 ≤ (r.proxies.delete addr).len := by omega
      constructor
      · intro h e he
        left
        exact (hq { r with proxies := r.proxies.delete addr } e.2.meta (hpos e he) hn).mp
          (h e he)
      · intro h e he
        apply (hq { r with proxies := r.proxies.delete addr } e.2.meta (hpos e he) hn).mpr
        rcases h e he with h1 | ⟨h0, _⟩
        · exact h1
        · exact absurd h0 hz

theorem C22_limiter_division_witness :
    ((twoProxies.addServer (serverOf 2 5)).isSome = true
        ↔ (twoProxies.proxies.len : Int) ≤ (serverOf 2 5).maxQPS) ∧
      ((twoProxies.addServer (serverOf 2 1)).isSome = true
        ↔ (twoProxies.proxies.len : Int) ≤ (serverOf 2 1).maxQPS) ∧
      ((twoProxies.addProxy plainExternals ⟨"p3"⟩).isSome = true ↔
        ∀ e ∈ twoProxies.servers,
          ((twoProxies.proxies.len + 1 : Nat) : Int) ≤ e.2.meta.maxQPS) ∧
      ((twoProxies.removeProxy "p2").isSome = true ↔
        ∀ e ∈ twoProxies.servers,
          (((twoProxies.proxies.delete "p2").len : Nat) : Int) ≤ e.2.meta.maxQPS ∨
            ((twoProxies.proxies.delete "p2").len = 0 ∧ e.2.meta.maxQPS ≠ 0)) ∧
      (twoProxies.addServer (serverOf 2 5)).isSome = true ∧
      twoProxies.addServer (serverOf 2 1) = none :=
  ⟨(C22_limiter_division plainExternals twoProxies).2.1 (serverOf 2 5)
      (by decide) (by decide) (by decide),
    (C22_limiter_division plainExternals twoProxies).2.1 (serverOf 2 1)
      (by decide) (by decide) (by decide),
    (C22_limiter_division plainExternals twoProxies).2.2.2.1 ⟨"p3"⟩ (by decide) (by decide),
    (C22_limiter_division plainExternals twoProxies).2.2.2.2 "p2" (by decide) (by decide),
    by decide, by decide⟩

end Division

section StaleBinds

/-- C24: in a registry that holds server `s` (its sequences free of
duplicates), `removeServer(s)` returns no error and leaves `binds` as it was,
while `s` is gone from the server map and from every cluster's sequence. A
later `removeBind(c, s)` returns the server-not-found error and leaves the
registry, the entry in `binds[s]` included, as it is; and `addServer` of a
server with id `s` gives a registry whose `binds` are still those held
before the removal. -/
theorem C24_removeServer_keeps_binds (r : dispatcher) (s : Nat) (rt : serverRuntime)
    (hs : r.servers.get? s = some rt) (hn : r.noDuplicate) :
    ∃ r', r.removeServer s = some (r', none) ∧
      r'.binds = r.binds ∧
      r'.servers.get? s = none ∧
      (∀ e ∈ r'.clusters, s ∉ e.2.svrs) ∧
      (∀ c, r'.removeBind ⟨c, s⟩ = some (r', some Err.errServerNotFound)) ∧
      (∀ svr : Server, svr.ID = s → (r'.refreshQPS svr).maxQPS ≠ 0 →
        ∃ r'', r'.addServer svr = some (r'', none) ∧ r''.binds = r.binds ∧
          ∃ rt', r''.servers.get? s = some rt') := by
  have hrem : r.removeServer s
      = some ({ r with servers := r.servers.delete s,
                       clusters := r.clusters.mapValues (fun c => c.remove s) }, none) := by
    unfold dispatcher.removeServer
    rw [hs]
  have hgone : GoMap.get? (r.servers.delete s) s = none := by
    rw [GoMap.get?_delete, if_pos rfl]
  refine ⟨_, hrem, rfl, hgone, ?_, ?_, ?_⟩
  · intro e' he' hmem
    have he2 : e' ∈ r.clusters.mapValues (fun c => c.remove s) := he'
    obtain ⟨e, he, rfl⟩ := GoMap.mem_mapValues he2
    exact (clusterRuntime.mem_remove (hn e he) hmem).1 rfl
  · intro c
    unfold dispatcher.removeBind
    have hc : GoMap.contains (r.servers.delete s) s = false := by
      unfold GoMap.contains; rw [hgone]; rfl
    simp only [hc, Bool.false_eq_true, not_false_eq_true, if_true]
  · intro svr hid hq
    subst hid
    have hc : GoMap.contains (r.servers.delete svr.ID) svr.ID = false := by
      unfold GoMap.contains; rw [hgone]; rfl
    unfold dispatcher.addServer
    simp only [hc, Bool.false_eq_true, if_false, newServerRuntime, serverRuntime.updateMeta,
      if_neg hq, refreshQPS_ID]
    refine ⟨_, rfl, ?_, ?_⟩
    · simp only [dispatcher.addToCheck, addAnalysis_binds]
    · simp only [dispatcher.addToCheck, addAnalysis_servers]
      rw [GoMap.get?_set, if_pos rfl]
      exact ⟨_, rfl⟩

theorem C24_removeServer_keeps_binds_witness :
    ∃ r', boundRegistry.removeServer 1 = some (r', none) ∧
      r'.binds = boundRegistry.binds ∧
      r'.servers.get? 1 = none ∧
      (∀ e ∈ r'.clusters, 1 ∉ e.2.svrs) ∧
      (∀ c, r'.removeBind ⟨c, 1⟩ = some (r', some Err.errServerNotFound)) ∧
      (∀ svr : Server, svr.ID = 1 → (r'.refreshQPS svr).maxQPS ≠ 0 →
        ∃ r'', r'.addServer svr = some (r'', none) ∧ r''.binds = boundRegistry.binds ∧
          ∃ rt', r''.servers.get? 1 = some rt') :=
  C24_removeServer_keeps_binds boundRegistry 1 trippedServer (by decide) (by decide)

end StaleBinds

end Gateway
